import Mathlib

/-!
Surface_mesh: an indexed halfedge data structure.

A shallow embedding of `CGAL/Surface_mesh/Surface_mesh.h`.  Indices are natural
numbers that stand for the 32-bit `size_type`; arithmetic that can leave the
32-bit range is reduced modulo `2 ^ 32` where the source computes on `size_type`.
-/

namespace CGAL

/-! ## Index types -/

/-- The number of values of the 32-bit `size_type`. -/
def size_type_range : Nat := 2 ^ 32

/-- The value `(std::numeric_limits<size_type>::max)()`. -/
def size_type_max : Nat := 2 ^ 32 - 1

/-- The raw value of `SM_Index::is_valid`: the index differs from the maximum. -/
def SM_Index.is_valid (idx : Nat) : Bool := idx != size_type_max

/-- The index `Surface_mesh::null_vertex()`. -/
def null_vertex : Nat := size_type_max

/-- The index `Surface_mesh::null_halfedge()`. -/
def null_halfedge : Nat := size_type_max

/-- The index `Surface_mesh::null_face()`. -/
def null_face : Nat := size_type_max

/-- The class `SM_Edge_index`: an edge is stored as one of its halfedges. -/
structure SM_Edge_index where
  halfedge_ : Nat
  deriving DecidableEq, Repr

/-- The constructor `SM_Edge_index(size_type idx)`: the halfedge `idx * 2`, stored in 32 bits. -/
def SM_Edge_index.of_idx (idx : Nat) : SM_Edge_index := ⟨(idx * 2) % size_type_range⟩

/-- The constructor `SM_Edge_index(SM_Halfedge_index he)`. -/
def SM_Edge_index.of_halfedge (he : Nat) : SM_Edge_index := ⟨he⟩

/-- The conversion `SM_Edge_index::operator size_type`, also `idx()`. -/
def SM_Edge_index.idx (e : SM_Edge_index) : Nat := e.halfedge_ / 2

/-- The method `SM_Edge_index::is_valid`. -/
def SM_Edge_index.is_valid (e : SM_Edge_index) : Bool := SM_Index.is_valid e.halfedge_

/-- The comparison `operator==` of `SM_Edge_index`, which compares the edge numbers. -/
def SM_Edge_index.equal (e other : SM_Edge_index) : Bool := e.idx == other.idx

/-- The index `Surface_mesh::null_edge()`, the `Edge_index` constructed from the
maximum of the 32-bit `size_type`. -/
def null_edge : SM_Edge_index := SM_Edge_index.of_idx size_type_max

/-- The ways in which a call ends without a result: an assertion of the source
fails, or the model has run out of the steps it was given. -/
inductive Failure where
  | assertion_failed
  | out_of_fuel
  deriving DecidableEq, Repr

/-! ## Connectivity records -/

/-- The struct `Vertex_connectivity`; a default-constructed index is null. -/
structure Vertex_connectivity where
  halfedge_ : Nat := size_type_max
  deriving DecidableEq, Repr

/-- The struct `Halfedge_connectivity`; default-constructed indices are null. -/
structure Halfedge_connectivity where
  face_ : Nat := size_type_max
  vertex_ : Nat := size_type_max
  next_halfedge_ : Nat := size_type_max
  prev_halfedge_ : Nat := size_type_max
  deriving DecidableEq, Repr

/-- The struct `Face_connectivity`; a default-constructed index is null. -/
structure Face_connectivity where
  halfedge_ : Nat := size_type_max
  deriving DecidableEq, Repr

instance : Inhabited Vertex_connectivity := ⟨{}⟩

instance : Inhabited Halfedge_connectivity := ⟨{}⟩

instance : Inhabited Face_connectivity := ⟨{}⟩

/-- The values of the two mandatory vertex columns, "v:connectivity" and "v:point", at one slot. -/
structure Vertex_properties (P : Type) where
  connectivity : Vertex_connectivity := {}
  point : P
  deriving DecidableEq, Repr

instance {P : Type} [Inhabited P] : Inhabited (Vertex_properties P) := ⟨{ point := default }⟩

/-! ## Property container -/

/-- Modelled from the spec: a value of a property column, which the container stores
type-erased; the model keeps the value together with its type `T`. -/
structure Property_value : Type 1 where
  T : Type
  value : T

/-- Modelled from the spec: the class `Properties::Property_array` of
`CGAL/Property_container.h`, a named column added at run time: its name, its
default value and one value per slot. -/
structure Property_array : Type 1 where
  name : String
  default_value : Property_value
  data : List Property_value := []

/-- Modelled from the spec: the class `Properties::Property_container` of
`CGAL/Property_container.h`, which is not among the sources.  For one index type it
holds the columns, all of the same length, and the free-list of erased slots.
`rows` has one entry per slot, the values at that slot of the columns that the mesh
registers when it is constructed, and `names` are the names of these columns;
`arrays` are the columns added later; `freelist` lists the erased slots, the most
recently erased first; `lifo` is the implementation's choice, which the spec leaves
open, of the end of the free-list that `emplace` reuses: the most recently erased
slot (LIFO) or the oldest (FIFO). -/
structure Property_container (α : Type) : Type 1 where
  rows : List α := []
  freelist : List Nat := []
  lifo : Bool := true
  names : List String := []
  arrays : List Property_array := []

namespace Property_container

variable {α : Type}

/-- Modelled from the spec: `capacity()`, the number of slots of every column. -/
def capacity (c : Property_container α) : Nat := c.rows.length

/-- Modelled from the spec: `is_erased(index)`, membership in the free-list. -/
def is_erased (c : Property_container α) (i : Nat) : Bool := decide (i ∈ c.freelist)

/-- Modelled from the spec: `size()`.  The spec has `capacity() - size()` count the
erased entries, the statistic that `number_of_removed_vertices()` returns; so
`size()` is the number of slots that are not erased. -/
def size (c : Property_container α) : Nat :=
  (List.range c.capacity).countP (fun i => !c.is_erased i)

/-- Modelled from the spec: the read `array[i]` of the columns at slot `i`; outside the
bounds, where the source has no defined value, the model reads the default value. -/
def get [Inhabited α] (c : Property_container α) (i : Nat) : α := c.rows.getD i default

/-- Modelled from the spec: the write `array[i] = a` of the columns at slot `i`;
outside the bounds, where the source has no defined effect, the model writes nothing. -/
def set (c : Property_container α) (i : Nat) (a : α) : Property_container α :=
  { c with rows := c.rows.set i a }

/-- Modelled from the spec: `emplace_back()` always appends a slot holding the
default value of every column, and returns its index. -/
def emplace_back [Inhabited α] (c : Property_container α) : Property_container α × Nat :=
  ({ c with
      rows := c.rows ++ [default],
      arrays := c.arrays.map fun a => { a with data := a.data ++ [a.default_value] } },
    c.capacity)

/-- Modelled from the spec: the slot that `emplace` reuses, the head of the free-list
when it is consumed LIFO and its last entry when it is consumed FIFO. -/
def next_free (c : Property_container α) : Option Nat :=
  if c.lifo then c.freelist.head? else c.freelist.getLast?

/-- Modelled from the spec: `emplace()` prefers a slot of the free-list, which then
holds the default value of every column again, and appends when the free-list is empty. -/
def emplace [Inhabited α] (c : Property_container α) : Property_container α × Nat :=
  match c.next_free with
  | some i =>
      ({ c with
          rows := c.rows.set i default,
          arrays := c.arrays.map fun a => { a with data := a.data.set i a.default_value },
          freelist := c.freelist.filter (fun j => j != i) }, i)
  | none => c.emplace_back

/-- Modelled from the spec: `emplace_group_back(k)` appends `k` contiguous slots
holding default values and returns the first of them. -/
def emplace_group_back [Inhabited α] (c : Property_container α) (k : Nat) :
    Property_container α × Nat :=
  ({ c with
      rows := c.rows ++ List.replicate k default,
      arrays := c.arrays.map fun a =>
        { a with data := a.data ++ List.replicate k a.default_value } },
    c.capacity)

/-- Modelled from the spec: whether the `k` slots from `s` on are all inside the
bounds and erased, so that `emplace_group(k)` can reuse them. -/
def is_free_group (c : Property_container α) (k s : Nat) : Bool :=
  (List.range k).all (fun j => decide (s + j < c.capacity) && c.is_erased (s + j))

/-- Modelled from the spec: the lowest start of `k` contiguous erased slots, if there
is one. -/
def find_free_group (c : Property_container α) (k : Nat) : Option Nat :=
  (List.range c.capacity).find? (fun s => c.is_free_group k s)

/-- Modelled from the spec: `emplace_group(k)` reserves `k` contiguous slots, reusing
erased ones when `k` contiguous erased slots exist and appending otherwise; the
slots hold default values, and the first index is returned.  The spec does not say
which run of erased slots is taken: the model takes the lowest one. -/
def emplace_group [Inhabited α] (c : Property_container α) (k : Nat) :
    Property_container α × Nat :=
  match c.find_free_group k with
  | some s =>
      ({ c with
          rows := (List.range k).foldl (fun rows j => rows.set (s + j) default) c.rows,
          arrays := c.arrays.map fun a =>
            { a with
                data := (List.range k).foldl (fun d j => d.set (s + j) a.default_value) a.data },
          freelist := c.freelist.filter (fun j => !(decide (s ≤ j) && decide (j < s + k))) }, s)
  | none => c.emplace_group_back k

/-- Modelled from the spec: `erase(index)` marks the slot erased by adding it to the
free-list, and does not touch the column values. -/
def erase (c : Property_container α) (i : Nat) : Property_container α :=
  { c with freelist := i :: c.freelist }

/-- Modelled from the spec: the column named `name` among the columns added at run
time, if there is one. -/
def find_array (c : Property_container α) (name : String) : Option Property_array :=
  c.arrays.find? fun a => a.name == name

/-- Modelled from the spec: `append(other)` concatenates the columns and the
free-lists; the erased slots of `other` are erased slots of the appended range.  A
column added at run time takes the values of the column of `other` with its name,
and its default value on the appended range when `other` has no such column. -/
def append (c other : Property_container α) : Property_container α :=
  { c with
      rows := c.rows ++ other.rows,
      arrays := c.arrays.map fun a =>
        match other.find_array a.name with
        | some b => { a with data := a.data ++ b.data }
        | none => { a with data := a.data ++ List.replicate other.capacity a.default_value },
      freelist := c.freelist ++ other.freelist.map (fun i => i + c.capacity) }

/-- Modelled from the spec: `properties()`, the names of all columns. -/
def properties (c : Property_container α) : List String :=
  c.names ++ c.arrays.map fun a => a.name

/-- Modelled from the spec: `get_or_add_property<T>(name, default)`.  A column with
that name is returned as it is, with `false`; otherwise a column is appended that
holds the default value at every slot, live or erased, and `true` is returned.  The
handle of the column is its name.  A request for an existing name with another value
type is a contract violation, which the model does not cover. -/
def get_or_add_property (c : Property_container α) (name : String) (d : Property_value) :
    Property_container α × Bool :=
  if name ∈ c.properties then (c, false)
  else
    ({ c with
        arrays := c.arrays ++
          [{ name := name, default_value := d, data := List.replicate c.capacity d }] }, true)

/-- Modelled from the spec: `get_property_if_exists<T>(name)`, which does not create:
the container after the call and the handle of the column, if there is one. -/
def get_property_if_exists (c : Property_container α) (name : String) :
    Property_container α × Option String :=
  (c, if name ∈ c.properties then some name else none)

/-- Modelled from the spec: the read `pmap[i]` through the handle of a column added at
run time; `none` when there is no such column or `i` is outside the bounds. -/
def read (c : Property_container α) (name : String) (i : Nat) : Option Property_value :=
  (c.find_array name).bind fun a => a.data.get? i

/-- Modelled from the spec: the write `pmap[i] = x` through the handle of a column
added at run time; nothing is written outside the bounds. -/
def write (c : Property_container α) (name : String) (i : Nat) (x : Property_value) :
    Property_container α :=
  { c with
      arrays := c.arrays.map fun a =>
        if a.name == name then { a with data := a.data.set i x } else a }

/-- Modelled from the spec: `reserve(n)` gives every column `n` slots and makes no slot
live.  The spec has it grow every column "to hold at least n slots without changing
logical size": the new slots are not live, so they are listed in the free-list.  For
`n` below the number of slots the source decides the reading:
`clear_without_removing_property_maps()` consists of the calls `reserve(0)`, and its
documentation and the spec have `clear()` drop all elements; so the columns are cut
to `n` slots, and the slots from `n` on leave the free-list. -/
def reserve [Inhabited α] (c : Property_container α) (n : Nat) : Property_container α :=
  if c.capacity ≤ n then
    { c with
        rows := c.rows ++ List.replicate (n - c.capacity) default,
        arrays := c.arrays.map fun a =>
          { a with data := a.data ++ List.replicate (n - c.capacity) a.default_value },
        freelist := c.freelist ++ List.range' c.capacity (n - c.capacity) }
  else
    { c with
        rows := c.rows.take n,
        arrays := c.arrays.map fun a => { a with data := a.data.take n },
        freelist := c.freelist.filter fun i => decide (i < n) }

/-- Modelled from the spec: `remove_all_properties_except(names)` drops every column
whose name is not in the keep-list. -/
def remove_all_properties_except (c : Property_container α) (keep : List String) :
    Property_container α :=
  { c with
      names := c.names.filter fun n => decide (n ∈ keep),
      arrays := c.arrays.filter fun a => decide (a.name ∈ keep) }

end Property_container

/-! ## The mesh -/

/-- The class `Surface_mesh<P>`: one property container per index type, the
recycling flag and the counter of the anonymous property maps.  The connectivity
arrays `vconn_`, `hconn_`, `fconn_` and the point array `vpoint_` are the mandatory
columns of the containers. -/
structure Surface_mesh (P : Type) : Type 1 where
  vprops_ : Property_container (Vertex_properties P) := {}
  hprops_ : Property_container Halfedge_connectivity := {}
  eprops_ : Property_container Unit := {}
  fprops_ : Property_container Face_connectivity := {}
  recycle_ : Bool := true
  anonymous_property_ : Nat := 0

namespace Surface_mesh

variable {P : Type} [Inhabited P]

/-- The default constructor `Surface_mesh()`, which registers the columns
"v:connectivity", "h:connectivity", "f:connectivity" and "v:point"; `lifo` is the
free-list discipline of the property containers. -/
def new (lifo : Bool) : Surface_mesh P :=
  { vprops_ := { lifo := lifo, names := ["v:connectivity", "v:point"] },
    hprops_ := { lifo := lifo, names := ["h:connectivity"] },
    eprops_ := { lifo := lifo },
    fprops_ := { lifo := lifo, names := ["f:connectivity"] } }

/-- The array access `vconn_[v]`. -/
def vconn_ (m : Surface_mesh P) (v : Nat) : Vertex_connectivity := (m.vprops_.get v).connectivity

/-- The array access `hconn_[h]`. -/
def hconn_ (m : Surface_mesh P) (h : Nat) : Halfedge_connectivity := m.hprops_.get h

/-- The array access `fconn_[f]`. -/
def fconn_ (m : Surface_mesh P) (f : Nat) : Face_connectivity := m.fprops_.get f

/-- The array access `vpoint_[v]`, also `point(v)`. -/
def point (m : Surface_mesh P) (v : Nat) : P := (m.vprops_.get v).point

/-- The assignment to `vconn_[v]`. -/
def set_vconn (m : Surface_mesh P) (v : Nat) (r : Vertex_connectivity) : Surface_mesh P :=
  { m with vprops_ := m.vprops_.set v { m.vprops_.get v with connectivity := r } }

/-- The assignment to `hconn_[h]`. -/
def set_hconn (m : Surface_mesh P) (h : Nat) (r : Halfedge_connectivity) : Surface_mesh P :=
  { m with hprops_ := m.hprops_.set h r }

/-- The assignment to `fconn_[f]`. -/
def set_fconn (m : Surface_mesh P) (f : Nat) (r : Face_connectivity) : Surface_mesh P :=
  { m with fprops_ := m.fprops_.set f r }

/-! ### Low-level connectivity -/

/-- The method `target(h)`. -/
def target (m : Surface_mesh P) (h : Nat) : Nat := (m.hconn_ h).vertex_

/-- The method `set_target(h, v)`. -/
def set_target (m : Surface_mesh P) (h v : Nat) : Surface_mesh P :=
  m.set_hconn h { m.hconn_ h with vertex_ := v }

/-- The method `face(h)`. -/
def face (m : Surface_mesh P) (h : Nat) : Nat := (m.hconn_ h).face_

/-- The method `set_face(h, f)`. -/
def set_face (m : Surface_mesh P) (h f : Nat) : Surface_mesh P :=
  m.set_hconn h { m.hconn_ h with face_ := f }

/-- The method `next(h)`. -/
def next (m : Surface_mesh P) (h : Nat) : Nat := (m.hconn_ h).next_halfedge_

/-- The method `prev(h)`. -/
def prev (m : Surface_mesh P) (h : Nat) : Nat := (m.hconn_ h).prev_halfedge_

/-- The method `set_next_only(h, nh)`. -/
def set_next_only (m : Surface_mesh P) (h nh : Nat) : Surface_mesh P :=
  m.set_hconn h { m.hconn_ h with next_halfedge_ := nh }

/-- The method `set_prev_only(h, nh)`: nothing is written when `h` is the null halfedge. -/
def set_prev_only (m : Surface_mesh P) (h nh : Nat) : Surface_mesh P :=
  if h != null_halfedge then m.set_hconn h { m.hconn_ h with prev_halfedge_ := nh } else m

/-- The method `set_next(h, nh)`. -/
def set_next (m : Surface_mesh P) (h nh : Nat) : Surface_mesh P :=
  (m.set_next_only h nh).set_prev_only nh h

/-- The method `halfedge(Vertex_index v)`. -/
def halfedge (m : Surface_mesh P) (v : Nat) : Nat := (m.vconn_ v).halfedge_

/-- The method `set_halfedge(Vertex_index v, h)`. -/
def set_halfedge (m : Surface_mesh P) (v h : Nat) : Surface_mesh P :=
  m.set_vconn v { m.vconn_ v with halfedge_ := h }

/-- The method `halfedge(Face_index f)`. -/
def face_halfedge (m : Surface_mesh P) (f : Nat) : Nat := (m.fconn_ f).halfedge_

/-- The method `set_halfedge(Face_index f, h)`. -/
def set_face_halfedge (m : Surface_mesh P) (f h : Nat) : Surface_mesh P :=
  m.set_fconn f { m.fconn_ f with halfedge_ := h }

/-- The method `opposite(h)`: `h - 1` for odd `h` and `h + 1` for even `h`, on `size_type`. -/
def opposite (h : Nat) : Nat := if h % 2 = 1 then h - 1 else (h + 1) % size_type_range

/-- The method `source(h)`. -/
def source (m : Surface_mesh P) (h : Nat) : Nat := m.target (opposite h)

/-- The method `next_around_target(h)`. -/
def next_around_target (m : Surface_mesh P) (h : Nat) : Nat := opposite (m.next h)

/-! ### Counts, removal marks and index checks -/

/-- The method `number_of_vertices()`, which returns `vprops_.size()`. -/
def number_of_vertices (m : Surface_mesh P) : Nat := m.vprops_.size

/-- The method `number_of_halfedges()`, which returns `hprops_.size()`. -/
def number_of_halfedges (m : Surface_mesh P) : Nat := m.hprops_.size

/-- The method `number_of_edges()`, which returns `eprops_.size()`. -/
def number_of_edges (m : Surface_mesh P) : Nat := m.eprops_.size

/-- The method `number_of_faces()`, which returns `fprops_.size()`. -/
def number_of_faces (m : Surface_mesh P) : Nat := m.fprops_.size

/-- The method `num_vertices()`, which returns `vprops_.size()`. -/
def num_vertices (m : Surface_mesh P) : Nat := m.vprops_.size

/-- The method `num_halfedges()`, which returns `hprops_.size()`. -/
def num_halfedges (m : Surface_mesh P) : Nat := m.hprops_.size

/-- The method `num_edges()`, which returns `eprops_.size()`. -/
def num_edges (m : Surface_mesh P) : Nat := m.eprops_.size

/-- The method `num_faces()`, which returns `fprops_.size()`. -/
def num_faces (m : Surface_mesh P) : Nat := m.fprops_.size

/-- The method `number_of_removed_vertices()`. -/
def number_of_removed_vertices (m : Surface_mesh P) : Nat := m.vprops_.capacity - m.vprops_.size

/-- The method `number_of_removed_halfedges()`. -/
def number_of_removed_halfedges (m : Surface_mesh P) : Nat := m.hprops_.capacity - m.hprops_.size

/-- The method `number_of_removed_edges()`. -/
def number_of_removed_edges (m : Surface_mesh P) : Nat := m.eprops_.capacity - m.eprops_.size

/-- The method `number_of_removed_faces()`. -/
def number_of_removed_faces (m : Surface_mesh P) : Nat := m.fprops_.capacity - m.fprops_.size

/-- The method `is_removed(Vertex_index v)`. -/
def is_removed_vertex (m : Surface_mesh P) (v : Nat) : Bool := m.vprops_.is_erased v

/-- The method `is_removed(Halfedge_index h)`. -/
def is_removed_halfedge (m : Surface_mesh P) (h : Nat) : Bool := m.hprops_.is_erased h

/-- The method `is_removed(Edge_index e)`. -/
def is_removed_edge (m : Surface_mesh P) (e : SM_Edge_index) : Bool := m.eprops_.is_erased e.idx

/-- The method `is_removed(Face_index f)`. -/
def is_removed_face (m : Surface_mesh P) (f : Nat) : Bool := m.fprops_.is_erased f

/-- The method `has_garbage()`. -/
def has_garbage (m : Surface_mesh P) : Bool :=
  m.number_of_removed_vertices != 0 || m.number_of_removed_edges != 0 ||
    m.number_of_removed_halfedges != 0 || m.number_of_removed_faces != 0

/-- The method `has_valid_index(Vertex_index v)`. -/
def has_valid_index_vertex (m : Surface_mesh P) (v : Nat) : Bool := decide (v < m.number_of_vertices)

/-- The method `has_valid_index(Halfedge_index h)`. -/
def has_valid_index_halfedge (m : Surface_mesh P) (h : Nat) : Bool :=
  decide (h < m.number_of_halfedges)

/-- The method `has_valid_index(Edge_index e)`. -/
def has_valid_index_edge (m : Surface_mesh P) (e : SM_Edge_index) : Bool :=
  decide (e.idx < m.number_of_edges)

/-- The method `has_valid_index(Face_index f)`. -/
def has_valid_index_face (m : Surface_mesh P) (f : Nat) : Bool := decide (f < m.number_of_faces)

/-- The method `set_recycle_garbage(b)`. -/
def set_recycle_garbage (m : Surface_mesh P) (b : Bool) : Surface_mesh P := { m with recycle_ := b }

/-- The method `does_recycle_garbage()`. -/
def does_recycle_garbage (m : Surface_mesh P) : Bool := m.recycle_

/-! ### Adding and removing elements -/

/-- The method `add_vertex()`: the new mesh and the index of the new vertex. -/
def add_vertex (m : Surface_mesh P) : Surface_mesh P × Nat :=
  let r := if m.recycle_ then m.vprops_.emplace else m.vprops_.emplace_back
  ({ m with vprops_ := r.1 }, r.2)

/-- The method `add_vertex(const Point& p)`. -/
def add_vertex_point (m : Surface_mesh P) (p : P) : Surface_mesh P × Nat :=
  let r := m.add_vertex
  ({ r.1 with vprops_ := r.1.vprops_.set r.2 { r.1.vprops_.get r.2 with point := p } }, r.2)

/-- The method `add_edge()`: a slot of the edge container, then a pair of adjacent
slots of the halfedge container, whose first index is returned. -/
def add_edge (m : Surface_mesh P) : Surface_mesh P × Nat :=
  let e := if m.recycle_ then m.eprops_.emplace else m.eprops_.emplace_back
  let r := if m.recycle_ then m.hprops_.emplace_group 2 else m.hprops_.emplace_group_back 2
  ({ m with eprops_ := e.1, hprops_ := r.1 }, r.2)

/-- The method `add_edge(Vertex_index v0, Vertex_index v1)`; `none` is the failure of
the assertion `v0 != v1`. -/
def add_edge_vertices (m : Surface_mesh P) (v0 v1 : Nat) : Option (Surface_mesh P × Nat) :=
  if v0 != v1 then
    let r := m.add_edge
    some ((r.1.set_target r.2 v1).set_target (opposite r.2) v0, r.2)
  else none

/-- The method `add_face()`: the new mesh and the index of the new face. -/
def add_face (m : Surface_mesh P) : Surface_mesh P × Nat :=
  let r := if m.recycle_ then m.fprops_.emplace else m.fprops_.emplace_back
  ({ m with fprops_ := r.1 }, r.2)

/-- The method `remove_vertex(v)`. -/
def remove_vertex (m : Surface_mesh P) (v : Nat) : Surface_mesh P :=
  { m with vprops_ := m.vprops_.erase v }

/-- The method `remove_edge(e)`. -/
def remove_edge (m : Surface_mesh P) (e : SM_Edge_index) : Surface_mesh P :=
  { m with eprops_ := m.eprops_.erase e.idx }

/-- The method `remove_face(f)`. -/
def remove_face (m : Surface_mesh P) (f : Nat) : Surface_mesh P :=
  { m with fprops_ := m.fprops_.erase f }

/-- The method `halfedge(Edge_index e, unsigned int i)`; `none` is the failure of the
assertion `i <= 1`. -/
def edge_halfedge (e : SM_Edge_index) (i : Nat) : Option Nat :=
  if i ≤ 1 then some (((e.idx % size_type_range) * 2 % size_type_range + i) % size_type_range)
  else none

/-- The method `edge(Halfedge_index h)`. -/
def edge (h : Nat) : SM_Edge_index := SM_Edge_index.of_halfedge h

/-! ### Memory management -/

/-- The method `is_empty()`. -/
def is_empty (m : Surface_mesh P) : Bool :=
  m.vprops_.size == 0 && m.hprops_.size == 0 && m.fprops_.size == 0

/-- The method `clear_without_removing_property_maps()`. -/
def clear_without_removing_property_maps (m : Surface_mesh P) : Surface_mesh P :=
  { m with
      vprops_ := m.vprops_.reserve 0,
      hprops_ := m.hprops_.reserve 0,
      eprops_ := m.eprops_.reserve 0,
      fprops_ := m.fprops_.reserve 0 }

/-- The method `clear()`. -/
def clear (m : Surface_mesh P) : Surface_mesh P :=
  let m1 := m.clear_without_removing_property_maps
  { m1 with
      vprops_ := m1.vprops_.remove_all_properties_except ["v:connectivity", "v:point"],
      hprops_ := m1.hprops_.remove_all_properties_except ["h:connectivity"],
      fprops_ := m1.fprops_.remove_all_properties_except ["f:connectivity"],
      eprops_ := m1.eprops_.remove_all_properties_except [] }

/-- The method `collect_garbage()`, whose body is empty. -/
def collect_garbage (m : Surface_mesh P) : Surface_mesh P := m

/-! ### Property maps -/

/-- The index type `I` of a property map: `Vertex_index`, `Halfedge_index`,
`Edge_index` or `Face_index`. -/
inductive Index_type where
  | vertex
  | halfedge
  | edge
  | face
  deriving DecidableEq, Repr

/-- The type of the values at one slot of the mandatory columns of an index type. -/
def Index_type.row (P : Type) : Index_type → Type
  | .vertex => Vertex_properties P
  | .halfedge => Halfedge_connectivity
  | .edge => Unit
  | .face => Face_connectivity

/-- The method `get_property_container<Index>()`. -/
def get_property_container (m : Surface_mesh P) : (I : Index_type) → Property_container (I.row P)
  | .vertex => m.vprops_
  | .halfedge => m.hprops_
  | .edge => m.eprops_
  | .face => m.fprops_

/-- The assignment to the container that `get_property_container<Index>()` refers to. -/
def set_property_container (m : Surface_mesh P) :
    (I : Index_type) → Property_container (I.row P) → Surface_mesh P
  | .vertex, c => { m with vprops_ := c }
  | .halfedge, c => { m with hprops_ := c }
  | .edge, c => { m with eprops_ := c }
  | .face, c => { m with fprops_ := c }

/-- The method `properties<I>()`. -/
def properties (m : Surface_mesh P) (I : Index_type) : List String :=
  (m.get_property_container I).properties

/-- The name under which `add_property_map` registers a map: an empty name is
replaced by "anonymous-property-" followed by the counter. -/
def property_name (m : Surface_mesh P) (name : String) : String :=
  if name = "" then "anonymous-property-" ++ toString m.anonymous_property_ else name

/-- The method `add_property_map<I, T>(name, t)`: the mesh after the call, the handle
of the map, which is the name of its column, and whether the map was created. -/
def add_property_map (m : Surface_mesh P) (I : Index_type) (name : String) (t : Property_value) :
    Surface_mesh P × String × Bool :=
  let m1 :=
    if name = "" then
      { m with anonymous_property_ := (m.anonymous_property_ + 1) % size_type_range }
    else m
  let r := (m1.get_property_container I).get_or_add_property (m.property_name name) t
  (m1.set_property_container I r.1, m.property_name name, r.2)

/-- The method `property_map<I, T>(name)`, where `t` is the value `T()`. -/
def property_map (m : Surface_mesh P) (I : Index_type) (name : String) (t : Property_value) :
    Surface_mesh P × String × Bool :=
  let r := (m.get_property_container I).get_or_add_property name t
  (m.set_property_container I r.1, name, r.2)

/-- The method `get_property_map<I, T>(name)`: the mesh after the call and the handle
of the map, if there is one. -/
def get_property_map (m : Surface_mesh P) (I : Index_type) (name : String) :
    Surface_mesh P × Option String :=
  let r := (m.get_property_container I).get_property_if_exists name
  (m.set_property_container I r.1, r.2)

/-- Modelled from the spec: the read `pmap[i]` through a property map of the index
type `I`, a handle of the class `Property_array_handle`, which is not among the
sources. -/
def read_property (m : Surface_mesh P) (I : Index_type) (pmap : String) (i : Nat) :
    Option Property_value :=
  (m.get_property_container I).read pmap i

/-- Modelled from the spec: the write `pmap[i] = x` through a property map of the
index type `I`, a handle of the class `Property_array_handle`, which is not among
the sources. -/
def write_property (m : Surface_mesh P) (I : Index_type) (pmap : String) (i : Nat)
    (x : Property_value) : Surface_mesh P :=
  m.set_property_container I ((m.get_property_container I).write pmap i x)

/-- The invariant of the registered columns: the columns that the constructor
registers are there, and no column added at run time bears the name of one of them. -/
def has_mandatory_columns (m : Surface_mesh P) : Prop :=
  (m.vprops_.names = ["v:connectivity", "v:point"] ∧ m.hprops_.names = ["h:connectivity"] ∧
    m.fprops_.names = ["f:connectivity"] ∧ m.eprops_.names = []) ∧
  (∀ a ∈ m.vprops_.arrays, a.name ∉ m.vprops_.names) ∧
  (∀ a ∈ m.hprops_.arrays, a.name ∉ m.hprops_.names) ∧
  (∀ a ∈ m.fprops_.arrays, a.name ∉ m.fprops_.names)

instance (m : Surface_mesh P) : Decidable m.has_mandatory_columns := by
  unfold has_mandatory_columns
  infer_instance

/-! ### Borders, rings and degrees -/

/-- The method `is_border(Halfedge_index h)`. -/
def is_border_halfedge (m : Surface_mesh P) (h : Nat) : Bool := !SM_Index.is_valid (m.face h)

/-- The method `is_border(Edge_index e)`. -/
def is_border_edge (m : Surface_mesh P) (e : SM_Edge_index) : Bool :=
  m.is_border_halfedge e.halfedge_ || m.is_border_halfedge (opposite e.halfedge_)

/-- The method `is_isolated(Vertex_index v)`. -/
def is_isolated (m : Surface_mesh P) (v : Nat) : Bool := !SM_Index.is_valid (m.halfedge v)

/-- The loop `do { if (p(h)) return h; h = step(h); } while (h != hh);` of
`halfedge(source, target)`, `is_border(v)` and
`set_vertex_halfedge_to_border_halfedge(v)`, started at `h`: `some (some h)` when the
loop returns at `h`, `some none` when it is left because `hh` is reached again,
`none` when `fuel` passes were not enough. -/
def ring_search (step : Nat → Nat) (p : Nat → Bool) (hh : Nat) : Nat → Nat → Option (Option Nat)
  | 0, _ => none
  | fuel + 1, h =>
      if p h then some (some h)
      else if step h != hh then ring_search step p hh fuel (step h)
      else some none

/-- The method `halfedge(Vertex_index source, Vertex_index target)`, which makes at
most `fuel` passes of its loop. -/
def halfedge_between (m : Surface_mesh P) (source target fuel : Nat) : Except Failure Nat :=
  if m.has_valid_index_vertex source && m.has_valid_index_vertex target then
    if SM_Index.is_valid (m.halfedge target) then
      match ring_search m.next_around_target (fun h => m.source h == source)
          (m.halfedge target) fuel (m.halfedge target) with
      | none => Except.error Failure.out_of_fuel
      | some (some h) => Except.ok h
      | some none => Except.ok null_halfedge
    else Except.ok null_halfedge
  else Except.error Failure.assertion_failed

/-- Modelled from the spec: the step `++hatc` of `Halfedge_around_target_circulator`,
a class of `CGAL/boost/graph/iterator.h`, which is not among the sources: the next
halfedge of the ring of halfedges that have the same target. -/
def circulator_increment (m : Surface_mesh P) (pos : Nat) : Nat := m.next_around_target pos

/-- The method `is_border(Vertex_index v, bool check_all_incident_halfedges)`, which
makes at most `fuel` passes of its loop; `none` when they were not enough. -/
def is_border_vertex (m : Surface_mesh P) (v : Nat) (check_all_incident_halfedges : Bool)
    (fuel : Nat) : Option Bool :=
  if m.halfedge v == null_halfedge then some true
  else if check_all_incident_halfedges then
    match ring_search m.circulator_increment m.is_border_halfedge (m.halfedge v) fuel
        (m.halfedge v) with
    | none => none
    | some (some _) => some true
    | some none => some false
  else some (m.is_border_halfedge (m.halfedge v))

/-- The method `set_vertex_halfedge_to_border_halfedge(Vertex_index v)`, which makes at
most `fuel` passes of its loop: the mesh after the call and the returned Boolean;
`none` when the passes were not enough. -/
def set_vertex_halfedge_to_border_halfedge (m : Surface_mesh P) (v fuel : Nat) :
    Option (Surface_mesh P × Bool) :=
  if m.halfedge v == null_halfedge then some (m, false)
  else
    match ring_search m.circulator_increment m.is_border_halfedge (m.halfedge v) fuel
        (m.halfedge v) with
    | none => none
    | some (some h) => some (m.set_halfedge v h, true)
    | some none => some (m, false)

/-- The loop `do { ++count; h = opposite(next(h)); } while (h != done);` of
`degree(Vertex_index)`, with the 32-bit counter `count`; `none` when `fuel` passes
were not enough. -/
def degree_loop (m : Surface_mesh P) (done : Nat) : Nat → Nat → Nat → Option Nat
  | 0, _, _ => none
  | fuel + 1, h, count =>
      if opposite (m.next h) != done then
        degree_loop m done fuel (opposite (m.next h)) ((count + 1) % size_type_range)
      else some ((count + 1) % size_type_range)

/-- The method `degree(Vertex_index v)`, which makes at most `fuel` passes of its
loop; `none` when they were not enough. -/
def degree_vertex (m : Surface_mesh P) (v fuel : Nat) : Option Nat :=
  if m.halfedge v == null_halfedge then some 0
  else m.degree_loop (m.halfedge v) fuel (m.halfedge v) 0

/-! ### Copying and removing property maps -/

/-- The method `remove_property_map(p)`, whose body is empty. -/
def remove_property_map (m : Surface_mesh P) (_I : Index_type) (_p : String) : Surface_mesh P := m

/-- The copy constructor `Surface_mesh(const Surface_mesh& rhs)`: the containers are
copied, the recycling flag takes its default member initialiser and the counter of
the anonymous property maps is 0. -/
def copy_constructor (rhs : Surface_mesh P) : Surface_mesh P :=
  { vprops_ := rhs.vprops_, hprops_ := rhs.hprops_, fprops_ := rhs.fprops_,
    eprops_ := rhs.eprops_, recycle_ := true, anonymous_property_ := 0 }

/-- The copy assignment `operator=(const Surface_mesh& rhs)`: the containers, the
recycling flag and the counter of the anonymous property maps are copied. -/
def copy_assignment (_lhs rhs : Surface_mesh P) : Surface_mesh P :=
  { vprops_ := rhs.vprops_, hprops_ := rhs.hprops_, eprops_ := rhs.eprops_,
    fprops_ := rhs.fprops_, recycle_ := rhs.recycle_,
    anonymous_property_ := rhs.anonymous_property_ }

/-! ### Ranges -/

/-- The loop `while (has_valid_index(hnd_) && is_removed(hnd_)) ++hnd_` of
`Index_iterator`; it makes at most `fuel` steps. -/
def skip_removed (size : Nat) (removed : Nat → Bool) : Nat → Nat → Nat
  | 0, hnd => hnd
  | fuel + 1, hnd =>
      if decide (hnd < size) && removed hnd then skip_removed size removed fuel (hnd + 1) else hnd

/-- The constructor `Index_iterator(h, m)`: removed elements are skipped when the
mesh has garbage. -/
def index_iterator (size : Nat) (garbage : Bool) (removed : Nat → Bool) (hnd : Nat) : Nat :=
  if garbage then skip_removed size removed size hnd else hnd

/-- The method `Index_iterator::increment`. -/
def increment (size : Nat) (garbage : Bool) (removed : Nat → Bool) (hnd : Nat) : Nat :=
  if garbage then skip_removed size removed size (hnd + 1) else hnd + 1

/-- The handles that a loop `for (it = first; it != last; ++it)` visits, in order. -/
def iterate (size : Nat) (garbage : Bool) (removed : Nat → Bool) (last : Nat) :
    Nat → Nat → List Nat
  | 0, _ => []
  | fuel + 1, hnd =>
      if hnd = last then []
      else hnd :: iterate size garbage removed last fuel (increment size garbage removed hnd)

/-- The range from `Index_iterator(0, m)` to `Index_iterator(size, m)`, where `size`
is the `number_of_` count of the index type. -/
def index_range (size : Nat) (garbage : Bool) (removed : Nat → Bool) : List Nat :=
  iterate size garbage removed (index_iterator size garbage removed size) (size + 1)
    (index_iterator size garbage removed 0)

/-- The range `vertices()`. -/
def vertices (m : Surface_mesh P) : List Nat :=
  index_range m.number_of_vertices m.has_garbage m.is_removed_vertex

/-- The range `halfedges()`. -/
def halfedges (m : Surface_mesh P) : List Nat :=
  index_range m.number_of_halfedges m.has_garbage m.is_removed_halfedge

/-- The range `faces()`. -/
def faces (m : Surface_mesh P) : List Nat :=
  index_range m.number_of_faces m.has_garbage m.is_removed_face

/-! ### Validity of the whole mesh -/

/-- The read `hconn_[h].next_halfedge_`; `none` when `h` is outside the bounds of the array. -/
def checked_next (m : Surface_mesh P) (h : Nat) : Option Nat :=
  if h < m.hprops_.capacity then some (m.next h) else none

/-- The read `hconn_[h].prev_halfedge_`; `none` when `h` is outside the bounds of the array. -/
def checked_prev (m : Surface_mesh P) (h : Nat) : Option Nat :=
  if h < m.hprops_.capacity then some (m.prev h) else none

/-- The read `hconn_[h].vertex_`; `none` when `h` is outside the bounds of the array. -/
def checked_target (m : Surface_mesh P) (h : Nat) : Option Nat :=
  if h < m.hprops_.capacity then some (m.target h) else none

/-- The read `vconn_[v].halfedge_`; `none` when `v` is outside the bounds of the array. -/
def checked_halfedge (m : Surface_mesh P) (v : Nat) : Option Nat :=
  if v < m.vprops_.capacity then some (m.halfedge v) else none

/-- The assignment `valid = valid && c`: the right operand is evaluated only when
`valid` holds. -/
def and_then (valid : Bool) (c : Option Bool) : Option Bool := if valid then c else some false

/-- The body of the loop over the halfedges in `is_valid(bool)`, for the halfedge
`it`: the value of `valid` at the end of the pass, `false` when the loop is left by
`break`; `none` when an array is read outside its bounds. -/
def halfedge_loop_body (m : Surface_mesh P) (it : Nat) (valid : Bool) : Option Bool :=
  (and_then valid ((m.checked_next it).map SM_Index.is_valid)).bind fun v1 =>
  (and_then v1 (some (SM_Index.is_valid (opposite it)))).bind fun v2 =>
  if !v2 then some false else
  (and_then v2 (some (opposite it != it))).bind fun v3 =>
  (and_then v3 (some (opposite (opposite it) == it))).bind fun v4 =>
  if !v4 then some false else
  (and_then v4 ((m.checked_prev it).bind fun p =>
    (m.checked_next p).map fun n => n == it)).bind fun v5 =>
  if !v5 then some false else
  (and_then v5 ((m.checked_next it).bind fun n =>
    (m.checked_prev n).map fun p => p == it)).bind fun v6 =>
  if !v6 then some false else
  (and_then v6 ((m.checked_target it).map SM_Index.is_valid)).bind fun v7 =>
  if !v7 then some false else
  and_then v7 ((m.checked_target it).bind fun t =>
    (m.checked_next it).bind fun n =>
      (m.checked_target (opposite n)).map fun t2 => t == t2)

/-- The loop over the halfedges in `is_valid(bool)`: the values of `valid` and
`hcount` when the loop is left. -/
def halfedge_loop (m : Surface_mesh P) : List Nat → Bool → Nat → Option (Bool × Nat)
  | [], valid, hcount => some (valid, hcount)
  | it :: rest, valid, hcount =>
      match m.halfedge_loop_body it valid with
      | none => none
      | some true => halfedge_loop m rest true (hcount + 1)
      | some false => some (false, hcount + 1)

/-- The loop over the vertices in `is_valid(bool)`: the values of `valid` and
`vcount` when the loop is left. -/
def vertex_loop (m : Surface_mesh P) : List Nat → Bool → Nat → Option (Bool × Nat)
  | [], valid, vcount => some (valid, vcount)
  | it :: rest, valid, vcount =>
      match m.checked_halfedge it with
      | none => none
      | some h =>
          if SM_Index.is_valid h then
            match and_then valid ((m.checked_target h).map fun t => t == it) with
            | none => none
            | some true => vertex_loop m rest true (vcount + 1)
            | some false => some (false, vcount + 1)
          else vertex_loop m rest valid (vcount + 1)

/-- The method `is_valid(bool verbose)` on the whole mesh; `none` when an array is
read outside its bounds. -/
def is_valid (m : Surface_mesh P) : Option Bool :=
  (m.halfedge_loop m.halfedges true 0).bind fun r1 =>
  (m.vertex_loop m.vertices r1.1 0).bind fun r2 =>
  let fcount := m.faces.length
  let valid := r2.1 && r2.2 == m.number_of_vertices
  let valid := valid && r1.2 == m.number_of_halfedges
  some (valid && fcount == m.number_of_faces)

/-! ### Joining two meshes -/

/-- The assignment `x = Index(size_type(x) + n)` that `join` makes when `x` is not
the null index; the sum is a 32-bit sum. -/
def translate (x n : Nat) : Nat := if x != size_type_max then (x + n) % size_type_range else x

/-- The indices `i` of a loop `for (size_type i = first; i < first + count; i++)`. -/
def loop_indices (first count : Nat) : List Nat :=
  List.range' first ((first + count) % size_type_range - first)

/-- The body of the first loop of `join`: the halfedge of the vertex `i` is translated. -/
def join_vertex (nh : Nat) (m : Surface_mesh P) (i : Nat) : Surface_mesh P :=
  if m.halfedge i != null_halfedge then
    m.set_halfedge i ((m.halfedge i + nh) % size_type_range)
  else m

/-- The body of the second loop of `join`: the halfedge of the face `i` is translated. -/
def join_face (nh : Nat) (m : Surface_mesh P) (i : Nat) : Surface_mesh P :=
  if m.face_halfedge i != null_halfedge then
    m.set_face_halfedge i ((m.face_halfedge i + nh) % size_type_range)
  else m

/-- The body of the third loop of `join`: the face, the target, the next and the
previous halfedge of the halfedge `i` are translated. -/
def join_halfedge (nv nh nf : Nat) (m : Surface_mesh P) (i : Nat) : Surface_mesh P :=
  let m1 := if m.face i != null_face then m.set_face i ((m.face i + nf) % size_type_range) else m
  let m2 :=
    if m1.target i != null_vertex then m1.set_target i ((m1.target i + nv) % size_type_range)
    else m1
  let m3 :=
    if m2.next i != null_halfedge then m2.set_next_only i ((m2.next i + nh) % size_type_range)
    else m2
  if m3.prev i != null_halfedge then
    m3.set_hconn i { m3.hconn_ i with prev_halfedge_ := (m3.prev i + nh) % size_type_range }
  else m3

/-- The record that the third loop of `join` leaves in the place of the record `r`. -/
def translate_record (nv nh nf : Nat) (r : Halfedge_connectivity) : Halfedge_connectivity :=
  { face_ := translate r.face_ nf, vertex_ := translate r.vertex_ nv,
    next_halfedge_ := translate r.next_halfedge_ nh,
    prev_halfedge_ := translate r.prev_halfedge_ nh }

/-- The method `join(other)`, which always returns `true`: the mesh after the call. -/
def join (m other : Surface_mesh P) : Surface_mesh P :=
  let nv := m.number_of_vertices
  let nh := m.number_of_halfedges
  let nf := m.number_of_faces
  let m0 : Surface_mesh P :=
    { m with
        vprops_ := m.vprops_.append other.vprops_,
        hprops_ := m.hprops_.append other.hprops_,
        fprops_ := m.fprops_.append other.fprops_,
        eprops_ := m.eprops_.append other.eprops_ }
  let m1 := (loop_indices nv other.number_of_vertices).foldl (join_vertex nh) m0
  let m2 := (loop_indices nf other.number_of_faces).foldl (join_face nh) m1
  (loop_indices nh other.number_of_halfedges).foldl (join_halfedge nv nh nf) m2

/-- The invariant of the property containers: every free-list holds slots of its container. -/
def well_formed (m : Surface_mesh P) : Prop :=
  (∀ i ∈ m.vprops_.freelist, i < m.vprops_.capacity) ∧
    (∀ i ∈ m.hprops_.freelist, i < m.hprops_.capacity) ∧
    (∀ i ∈ m.eprops_.freelist, i < m.eprops_.capacity) ∧
    (∀ i ∈ m.fprops_.freelist, i < m.fprops_.capacity)

instance (m : Surface_mesh P) : Decidable m.well_formed := by
  unfold well_formed
  infer_instance

/-- The connectivity that the accessors read is the same in `m2` as in `m1`. -/
def same_connectivity (m1 m2 : Surface_mesh P) : Prop :=
  (∀ h, m2.target h = m1.target h ∧ m2.face h = m1.face h ∧ m2.next h = m1.next h ∧
    m2.prev h = m1.prev h) ∧
  (∀ u, m2.halfedge u = m1.halfedge u) ∧ (∀ g, m2.face_halfedge g = m1.face_halfedge g)

/-- What the accessors of the mesh observe is the same in `m2` as in `m1`: the
counts, the removal marks, the connectivity, the points and the property names. -/
def observationally_equal (m1 m2 : Surface_mesh P) : Prop :=
  (m2.number_of_vertices = m1.number_of_vertices ∧
    m2.number_of_halfedges = m1.number_of_halfedges ∧
    m2.number_of_edges = m1.number_of_edges ∧ m2.number_of_faces = m1.number_of_faces) ∧
  (m2.number_of_removed_vertices = m1.number_of_removed_vertices ∧
    m2.number_of_removed_halfedges = m1.number_of_removed_halfedges ∧
    m2.number_of_removed_edges = m1.number_of_removed_edges ∧
    m2.number_of_removed_faces = m1.number_of_removed_faces) ∧
  (∀ i, m2.is_removed_vertex i = m1.is_removed_vertex i ∧
    m2.is_removed_halfedge i = m1.is_removed_halfedge i ∧
    m2.is_removed_face i = m1.is_removed_face i) ∧
  (∀ e, m2.is_removed_edge e = m1.is_removed_edge e) ∧
  same_connectivity m1 m2 ∧
  (∀ v, m2.point v = m1.point v) ∧
  (∀ I, m2.properties I = m1.properties I)

/-! ### Validity of a single halfedge -/

/-- The read `hconn_[h]`; `none` when `h` is outside the bounds of the array. -/
def checked_hconn (m : Surface_mesh P) (h : Nat) : Option Halfedge_connectivity :=
  if h < m.hprops_.capacity then some (m.hconn_ h) else none

/-- The call `is_removed(Vertex_index v)`; `none` when the removal mark is read
outside the bounds of the vertex container. -/
def checked_is_removed_vertex (m : Surface_mesh P) (v : Nat) : Option Bool :=
  if v < m.vprops_.capacity then some (m.is_removed_vertex v) else none

/-- The call `is_removed(Halfedge_index h)`; `none` when the removal mark is read
outside the bounds of the halfedge container. -/
def checked_is_removed_halfedge (m : Surface_mesh P) (h : Nat) : Option Bool :=
  if h < m.hprops_.capacity then some (m.is_removed_halfedge h) else none

/-- The call `is_removed(Face_index f)`; `none` when the removal mark is read outside
the bounds of the face container. -/
def checked_is_removed_face (m : Surface_mesh P) (f : Nat) : Option Bool :=
  if f < m.fprops_.capacity then some (m.is_removed_face f) else none

/-- The condition `a || c`: the right operand is evaluated only when `a` is false. -/
def or_else (a : Bool) (c : Option Bool) : Option Bool := if a then some true else c

/-- The method `is_valid(Halfedge_index h, bool verbose)`; `none` when an array or a
removal mark is read outside its bounds.  The record `hconn_[h]` is read after the
test `has_valid_index(h)`, once for the four fields and once by `is_border(h)`; each
`is_removed` is the right operand of `||` after `!has_valid_index`. -/
def is_valid_halfedge (m : Surface_mesh P) (h : Nat) : Option Bool :=
  if !m.has_valid_index_halfedge h then some false
  else
    (m.checked_hconn h).bind fun r =>
    (m.checked_hconn h).bind fun rb =>
    (if !(!SM_Index.is_valid rb.face_) then
      (or_else (!m.has_valid_index_face r.face_) (m.checked_is_removed_face r.face_)).map
        fun bad => if bad then false else true
    else some true).bind fun valid1 =>
    (or_else (!m.has_valid_index_vertex r.vertex_)
      (m.checked_is_removed_vertex r.vertex_)).bind fun bad2 =>
    (or_else (!m.has_valid_index_halfedge r.next_halfedge_)
      (m.checked_is_removed_halfedge r.next_halfedge_)).bind fun bad3 =>
    (or_else (!m.has_valid_index_halfedge r.prev_halfedge_)
      (m.checked_is_removed_halfedge r.prev_halfedge_)).map fun bad4 =>
    let valid2 := if bad2 then false else valid1
    let valid3 := if bad3 then false else valid2
    if bad4 then false else valid3

/-! ### The border halfedges of all vertices -/

/-- Modelled from the spec: the named parameters `np` of the OFF functions, of
`CGAL/Named_function_parameters.h`, which is not among the sources.  The functions
of `CGAL/Surface_mesh/IO/OFF.h` only ask whether a property map was passed
(`is_default_parameter`) and pass one on (`np.vertex_normal_map(m)`), so the model
holds for each parameter the handle of the map that was passed, `none` when the
parameter has its default. -/
structure Named_parameters where
  vertex_point : Option String := none
  vertex_normal_map : Option String := none
  vertex_color_map : Option String := none
  vertex_texture_map : Option String := none
  face_color_map : Option String := none
  deriving DecidableEq, Repr

/-- Modelled from the spec: what the OFF functions ask of the class
`CGAL::File_scanner_OFF`, which is not among the sources: whether the header of the
stream announces normals, colors and texture coordinates. -/
structure File_scanner_OFF where
  has_normals : Bool := false
  has_colors : Bool := false
  has_textures : Bool := false
  deriving DecidableEq, Repr

/-- The default values with which the OFF functions create the internal property
maps "v:normal", "v:color", "v:texcoord" and "f:color"; their types `Normal`,
`Color` and `Texture` belong to the kernel and are parameters here. -/
structure Attribute_defaults : Type 1 where
  normal : Property_value
  vcolor : Property_value
  texture : Property_value
  fcolor : Property_value

/-- The function `parameters::choose_parameter(param, default)`: the parameter when
it was passed and the default otherwise. -/
def choose_parameter (param : Option String) (d : String) : String := param.getD d

/-- The function `read_OFF_with_or_without_fcolors`; `read_OFF_BGL` is the reader of
`CGAL/boost/graph/IO/OFF.h` applied to the stream, which fills the mesh and returns
whether it succeeded.  A default-constructed property map is the handle "". -/
def read_OFF_with_or_without_fcolors
    (read_OFF_BGL : Surface_mesh P → Named_parameters → Surface_mesh P × Bool)
    (d : Attribute_defaults) (sm : Surface_mesh P) (scanner : File_scanner_OFF)
    (np : Named_parameters) : Except Failure (Surface_mesh P × Bool) :=
  let is_fcm_requested := np.face_color_map.isSome
  if !is_fcm_requested && scanner.has_colors then
    let r := sm.add_property_map Index_type.face "f:color" d.fcolor
    if r.2.2 then
      Except.ok (read_OFF_BGL r.1
        { np with face_color_map := some (choose_parameter np.face_color_map r.2.1) })
    else Except.error Failure.assertion_failed
  else if is_fcm_requested then
    Except.ok (read_OFF_BGL sm
      { np with face_color_map := some (choose_parameter np.face_color_map "") })
  else Except.ok (read_OFF_BGL sm np)

/-- The function `read_OFF_with_or_without_vtextures`. -/
def read_OFF_with_or_without_vtextures
    (read_OFF_BGL : Surface_mesh P → Named_parameters → Surface_mesh P × Bool)
    (d : Attribute_defaults) (sm : Surface_mesh P) (scanner : File_scanner_OFF)
    (np : Named_parameters) : Except Failure (Surface_mesh P × Bool) :=
  let is_vtm_requested := np.vertex_texture_map.isSome
  if !is_vtm_requested && scanner.has_textures then
    let r := sm.add_property_map Index_type.vertex "v:texcoord" d.texture
    if r.2.2 then
      read_OFF_with_or_without_fcolors read_OFF_BGL d r.1 scanner
        { np with vertex_texture_map := some (choose_parameter np.vertex_texture_map r.2.1) }
    else Except.error Failure.assertion_failed
  else if is_vtm_requested then
    read_OFF_with_or_without_fcolors read_OFF_BGL d sm scanner
      { np with vertex_texture_map := some (choose_parameter np.vertex_texture_map "") }
  else read_OFF_with_or_without_fcolors read_OFF_BGL d sm scanner np

/-- The function `read_OFF_with_or_without_vcolors`. -/
def read_OFF_with_or_without_vcolors
    (read_OFF_BGL : Surface_mesh P → Named_parameters → Surface_mesh P × Bool)
    (d : Attribute_defaults) (sm : Surface_mesh P) (scanner : File_scanner_OFF)
    (np : Named_parameters) : Except Failure (Surface_mesh P × Bool) :=
  let is_vcm_requested := np.vertex_color_map.isSome
  if !is_vcm_requested && scanner.has_colors then
    let r := sm.add_property_map Index_type.vertex "v:color" d.vcolor
    if r.2.2 then
      read_OFF_with_or_without_vtextures read_OFF_BGL d r.1 scanner
        { np with vertex_color_map := some (choose_parameter np.vertex_color_map r.2.1) }
    else Except.error Failure.assertion_failed
  else if is_vcm_requested then
    read_OFF_with_or_without_vtextures read_OFF_BGL d sm scanner
      { np with vertex_color_map := some (choose_parameter np.vertex_color_map "") }
  else read_OFF_with_or_without_vtextures read_OFF_BGL d sm scanner np

/-- The function `read_OFF_with_or_without_vnormals`. -/
def read_OFF_with_or_without_vnormals
    (read_OFF_BGL : Surface_mesh P → Named_parameters → Surface_mesh P × Bool)
    (d : Attribute_defaults) (sm : Surface_mesh P) (scanner : File_scanner_OFF)
    (np : Named_parameters) : Except Failure (Surface_mesh P × Bool) :=
  let is_vnm_requested := np.vertex_normal_map.isSome
  if !is_vnm_requested && scanner.has_normals then
    let r := sm.add_property_map Index_type.vertex "v:normal" d.normal
    if r.2.2 then
      read_OFF_with_or_without_vcolors read_OFF_BGL d r.1 scanner
        { np with vertex_normal_map := some (choose_parameter np.vertex_normal_map r.2.1) }
    else Except.error Failure.assertion_failed
  else if is_vnm_requested then
    read_OFF_with_or_without_vcolors read_OFF_BGL d sm scanner
      { np with vertex_normal_map := some (choose_parameter np.vertex_normal_map "") }
  else read_OFF_with_or_without_vcolors read_OFF_BGL d sm scanner np

/-- The function `read_OFF(is, sm, np)`: the mesh after the call and the returned
Boolean; the error is the failure of an assertion `created`.  The scanner is the one
constructed from the stream; the local `vpm` is computed and not used. -/
def read_OFF (read_OFF_BGL : Surface_mesh P → Named_parameters → Surface_mesh P × Bool)
    (d : Attribute_defaults) (sm : Surface_mesh P) (scanner : File_scanner_OFF)
    (np : Named_parameters) : Except Failure (Surface_mesh P × Bool) :=
  match read_OFF_with_or_without_vnormals read_OFF_BGL d sm scanner np with
  | Except.error e => Except.error e
  | Except.ok r => if !r.2 then Except.ok (r.1.clear, r.2) else Except.ok r

/-- Modelled from the spec: `std::distance(pmap.begin(), pmap.end())` for a property
map of the index type `I`, a handle of the class `Property_array_handle`, which is
not among the sources: the number of values of the column, one per slot. -/
def property_map_distance (m : Surface_mesh P) (I : Index_type) (pmap : String) : Nat :=
  match (m.get_property_container I).find_array pmap with
  | some a => a.data.length
  | none => 0

/-- The operator `!` applied to an integer, with the result converted to an integer
again, as in `!std::distance(..) > 0`. -/
def logical_not (n : Nat) : Nat := if n = 0 then 1 else 0

/-- The function `write_OFF_with_or_without_fcolors`: the mesh after the call, which
`property_map` may have given a new column, and the result of `write_OFF_BGL`, the
writer of `CGAL/boost/graph/IO/OFF.h` applied to the stream. -/
def write_OFF_with_or_without_fcolors {β : Type}
    (write_OFF_BGL : Surface_mesh P → Named_parameters → β) (d : Attribute_defaults)
    (sm : Surface_mesh P) (np : Named_parameters) : Surface_mesh P × β :=
  let has_fcolors := np.face_color_map.isSome
  let r := sm.property_map Index_type.face "f:color" d.fcolor
  if !has_fcolors && r.2.2 &&
      decide (logical_not (r.1.property_map_distance Index_type.face r.2.1) > 0) then
    (r.1, write_OFF_BGL r.1 { np with face_color_map := some r.2.1 })
  else (r.1, write_OFF_BGL r.1 np)

/-- The function `write_OFF_with_or_without_vtextures`. -/
def write_OFF_with_or_without_vtextures {β : Type}
    (write_OFF_BGL : Surface_mesh P → Named_parameters → β) (d : Attribute_defaults)
    (sm : Surface_mesh P) (np : Named_parameters) : Surface_mesh P × β :=
  let has_vtextures := np.vertex_texture_map.isSome
  let r := sm.property_map Index_type.vertex "v:texcoord" d.texture
  if !has_vtextures && r.2.2 &&
      decide (logical_not (r.1.property_map_distance Index_type.vertex r.2.1) > 0) then
    write_OFF_with_or_without_fcolors write_OFF_BGL d r.1
      { np with vertex_texture_map := some r.2.1 }
  else write_OFF_with_or_without_fcolors write_OFF_BGL d r.1 np

/-- The function `write_OFF_with_or_without_vcolors`. -/
def write_OFF_with_or_without_vcolors {β : Type}
    (write_OFF_BGL : Surface_mesh P → Named_parameters → β) (d : Attribute_defaults)
    (sm : Surface_mesh P) (np : Named_parameters) : Surface_mesh P × β :=
  let has_vcolors := np.vertex_color_map.isSome
  let r := sm.property_map Index_type.vertex "v:color" d.vcolor
  if !has_vcolors && r.2.2 &&
      decide (logical_not (r.1.property_map_distance Index_type.vertex r.2.1) > 0) then
    write_OFF_with_or_without_vtextures write_OFF_BGL d r.1
      { np with vertex_color_map := some r.2.1 }
  else write_OFF_with_or_without_vtextures write_OFF_BGL d r.1 np

/-- The function `write_OFF_with_or_without_vnormals`. -/
def write_OFF_with_or_without_vnormals {β : Type}
    (write_OFF_BGL : Surface_mesh P → Named_parameters → β) (d : Attribute_defaults)
    (sm : Surface_mesh P) (np : Named_parameters) : Surface_mesh P × β :=
  let has_vnormals := np.vertex_normal_map.isSome
  let r := sm.property_map Index_type.vertex "v:normal" d.normal
  if !has_vnormals && r.2.2 &&
      decide (logical_not (r.1.property_map_distance Index_type.vertex r.2.1) > 0) then
    write_OFF_with_or_without_vcolors write_OFF_BGL d r.1
      { np with vertex_normal_map := some r.2.1 }
  else write_OFF_with_or_without_vcolors write_OFF_BGL d r.1 np

/-- The function `write_OFF(os, sm, np)`: when no vertex point map was passed, the
map "v:point" of the mesh is. -/
def write_OFF {β : Type} (write_OFF_BGL : Surface_mesh P → Named_parameters → β)
    (d : Attribute_defaults) (sm : Surface_mesh P) (np : Named_parameters) :
    Surface_mesh P × β :=
  let has_vpoints := np.vertex_point.isSome
  if has_vpoints then write_OFF_with_or_without_vnormals write_OFF_BGL d sm np
  else write_OFF_with_or_without_vnormals write_OFF_BGL d sm { np with vertex_point := some "v:point" }

/-! ### Adding a face to given vertices -/

/-- The pairs of consecutive entries of a list, the last entry followed by `first`. -/
def cyclic_pairs_from {α : Type} (first : α) : List α → List (α × α)
  | [] => []
  | [v] => [(v, first)]
  | v :: w :: rest => (v, w) :: cyclic_pairs_from first (w :: rest)

/-- The pairs of consecutive entries of a list taken as a cycle. -/
def cyclic_pairs {α : Type} : List α → List (α × α)
  | [] => []
  | v :: rest => cyclic_pairs_from v (v :: rest)

/-- Modelled from the spec: the first step of `CGAL::Euler::add_face`, which is not
among the sources: for each pair of consecutive vertices the halfedge between them
is looked up with `halfedge(source, target)`.  The result is the list of these
halfedges, null where there is none and a pair is to be created, or `none` when a
halfedge that is there already has a face, so that the face cannot be added. -/
def find_face_halfedges (m : Surface_mesh P) (fuel : Nat) :
    List (Nat × Nat) → Except Failure (Option (List Nat))
  | [] => Except.ok (some [])
  | p :: rest =>
      match m.halfedge_between p.1 p.2 fuel with
      | Except.error e => Except.error e
      | Except.ok h =>
          if h != null_halfedge && !m.is_border_halfedge h then Except.ok none
          else
            match find_face_halfedges m fuel rest with
            | Except.error e => Except.error e
            | Except.ok none => Except.ok none
            | Except.ok (some hs) => Except.ok (some (h :: hs))

/-- Modelled from the spec: the second step of `CGAL::Euler::add_face`: a pair of
halfedges is created with `add_edge(v, w)` for every pair of consecutive vertices
that has none.  The result lists the halfedge from `v` to `w` of every pair, with
whether it is new; `none` is the failure of the assertion of `add_edge`. -/
def create_face_halfedges :
    Surface_mesh P → List (Nat × Nat) → List Nat → Option (Surface_mesh P × List (Nat × Bool))
  | m, p :: ps, h :: hs =>
      if h == null_halfedge then
        match m.add_edge_vertices p.1 p.2 with
        | none => none
        | some r =>
            match create_face_halfedges r.1 ps hs with
            | none => none
            | some q => some (q.1, (r.2, true) :: q.2)
      else
        match create_face_halfedges m ps hs with
        | none => none
        | some q => some (q.1, (h, false) :: q.2)
  | m, _, _ => some (m, [])

/-- Modelled from the spec: the threading of the links at one corner of the new face
`f` in `CGAL::Euler::add_face`.  The corner is the vertex `c.1.2` with the halfedge
`c.2.1` of the face that ends there and the halfedge `c.2.2` that starts there.
The two halfedges are made to follow each other; where one of them is new, its
opposite is threaded into the border around the vertex, and the vertex is given a
border halfedge; two halfedges that were there already keep their links.  The
halfedge that ends at the corner gets the face `f`. -/
def link_face_corner (f : Nat) (m : Surface_mesh P)
    (c : (Nat × Nat) × ((Nat × Bool) × (Nat × Bool))) : Surface_mesh P :=
  let v := c.1.2
  let inner_prev := c.2.1.1
  let inner_next := c.2.2.1
  let outer_prev := opposite inner_next
  let outer_next := opposite inner_prev
  let m1 :=
    match c.2.1.2, c.2.2.2 with
    | false, false => m
    | true, false =>
        ((m.set_next (m.prev inner_next) outer_next).set_halfedge v (m.prev inner_next)).set_next
          inner_prev inner_next
    | false, true =>
        ((m.set_next outer_prev (m.next inner_prev)).set_halfedge v outer_prev).set_next
          inner_prev inner_next
    | true, true =>
        if m.halfedge v == null_halfedge then
          ((m.set_halfedge v outer_prev).set_next outer_prev outer_next).set_next
            inner_prev inner_next
        else
          ((m.set_next (m.halfedge v) outer_next).set_next outer_prev
            (m.next (m.halfedge v))).set_next inner_prev inner_next
  m1.set_face inner_prev f

/-- Modelled from the spec: `CGAL::Euler::add_face(vertices, sm)` of
`CGAL/boost/graph/Euler_operations.h`, which is not among the sources.  Given an
ordered cycle of vertices it returns the null face, and leaves the mesh as it is, for
a degenerate input (fewer than three vertices, or a vertex that occurs twice) and
when a halfedge between two consecutive vertices already has a face; otherwise it
reuses the border halfedges that are there, creates the missing pairs, adds a face
and threads the next and previous links that close it.  The spec gives no further
condition under which a face cannot be added, and the model has none.  The lookups
make at most `fuel` passes of their loops. -/
def add_face_range (m : Surface_mesh P) (vertices : List Nat) (fuel : Nat) :
    Except Failure (Surface_mesh P × Nat) :=
  if vertices.length < 3 || !decide vertices.Nodup then Except.ok (m, null_face)
  else
    match m.find_face_halfedges fuel (cyclic_pairs vertices) with
    | Except.error e => Except.error e
    | Except.ok none => Except.ok (m, null_face)
    | Except.ok (some hs) =>
        match create_face_halfedges m (cyclic_pairs vertices) hs with
        | none => Except.error Failure.assertion_failed
        | some q =>
            let r := q.1.add_face
            let m1 := r.1.set_face_halfedge r.2 ((q.2.getLast?.map Prod.fst).getD null_halfedge)
            Except.ok
              (((cyclic_pairs vertices).zip (cyclic_pairs q.2)).foldl (link_face_corner r.2) m1,
                r.2)

/-- The method `add_face(Vertex_index v0, Vertex_index v1, Vertex_index v2)`, which
calls `add_face` on the array of the three vertices. -/
def add_face_triangle (m : Surface_mesh P) (v0 v1 v2 fuel : Nat) :
    Except Failure (Surface_mesh P × Nat) :=
  m.add_face_range [v0, v1, v2] fuel

/-! ### Reachable states -/

/-- The mesh states reachable from a default-constructed mesh by `add_vertex`,
`add_edge`, `add_face()`, `remove_vertex`, `remove_edge`, `remove_face` and
`set_recycle_garbage`, with any arguments. -/
inductive Reachable {P : Type} [Inhabited P] : Surface_mesh P → Prop
  | default_constructed (lifo : Bool) : Reachable (new lifo)
  | add_vertex {m : Surface_mesh P} : Reachable m → Reachable m.add_vertex.1
  | add_vertex_point {m : Surface_mesh P} (p : P) : Reachable m → Reachable (m.add_vertex_point p).1
  | add_edge {m : Surface_mesh P} : Reachable m → Reachable m.add_edge.1
  | add_edge_vertices {m : Surface_mesh P} (v0 v1 : Nat) (r : Surface_mesh P × Nat) :
      Reachable m → m.add_edge_vertices v0 v1 = some r → Reachable r.1
  | add_face {m : Surface_mesh P} : Reachable m → Reachable m.add_face.1
  | remove_vertex {m : Surface_mesh P} (v : Nat) : Reachable m → Reachable (m.remove_vertex v)
  | remove_edge {m : Surface_mesh P} (e : SM_Edge_index) :
      Reachable m → Reachable (m.remove_edge e)
  | remove_face {m : Surface_mesh P} (f : Nat) : Reachable m → Reachable (m.remove_face f)
  | set_recycle_garbage {m : Surface_mesh P} (b : Bool) :
      Reachable m → Reachable (m.set_recycle_garbage b)

/-! ### Example meshes -/

/-- A mesh with two isolated vertices and one edge between them. -/
def example_edge : Surface_mesh Unit :=
  match ((((new true : Surface_mesh Unit).add_vertex).1.add_vertex).1.add_edge_vertices 0 1) with
  | some r => r.1
  | none => new true

/-- The mesh with two vertices and one edge whose two halfedges follow each other,
each vertex holding its incoming halfedge. -/
def example_closed_edge : Surface_mesh Unit :=
  (((example_edge.set_next 0 1).set_next 1 0).set_halfedge 0 1).set_halfedge 1 0

/-- The mesh `example_closed_edge` with a third vertex, which has been removed. -/
def example_removed_vertex : Surface_mesh Unit :=
  (example_closed_edge.add_vertex).1.remove_vertex 2

/-- A mesh whose containers consume their free-lists first-in-first-out, with two
vertices of which the vertex 0 has been removed. -/
def example_fifo : Surface_mesh Unit :=
  ((((new false : Surface_mesh Unit).add_vertex).1.add_vertex).1).remove_vertex 0


/-- The mesh with two vertices of which the vertex 0 has been removed. -/
def example_first_removed : Surface_mesh Unit :=
  ((((new true : Surface_mesh Unit).add_vertex).1.add_vertex).1).remove_vertex 0

/-- The mesh `example_closed_edge` after `property_map<Vertex_index, T>("")`, which
has registered a vertex column with the empty name. -/
def example_empty_name : Surface_mesh Unit :=
  (example_closed_edge.property_map Index_type.vertex "" ⟨Nat, 0⟩).1

/-- The mesh `example_closed_edge` with a vertex property map "foo" and an edge
property map "bar". -/
def example_with_maps : Surface_mesh Unit :=
  ((example_closed_edge.add_property_map Index_type.vertex "foo" ⟨Nat, 1⟩).1.add_property_map
    Index_type.edge "bar" ⟨Bool, true⟩).1

/-- The mesh with two vertices and one edge after `set_next(0, 1)`: the halfedge 0 has
the successor 1 and no predecessor. -/
def example_half_linked : Surface_mesh Unit := example_edge.set_next 0 1

/-- The mesh `example_closed_edge` with a vertex property map "v:normal". -/
def example_with_normals : Surface_mesh Unit :=
  (example_closed_edge.add_property_map Index_type.vertex "v:normal" ⟨Nat, 0⟩).1

/-- Default values for the internal property maps of the OFF functions. -/
def example_defaults : Attribute_defaults :=
  { normal := ⟨Nat, 0⟩, vcolor := ⟨Nat, 0⟩, texture := ⟨Nat, 0⟩, fcolor := ⟨Nat, 0⟩ }

/-- A reader that finds no OFF data in its stream: it leaves the mesh as it is and
returns false. -/
def example_failing_reader (sm : Surface_mesh Unit) (_np : Named_parameters) :
    Surface_mesh Unit × Bool := (sm, false)

/-- The mesh with one isolated vertex. -/
def example_isolated_vertex : Surface_mesh Unit := (new true : Surface_mesh Unit).add_vertex.1

/-- The mesh without vertices and with one edge whose two halfedges follow each
other and have the target `2 ^ 32 - 2`, which is the index of no vertex. -/
def example_dangling_target : Surface_mesh Unit :=
  (((((new true : Surface_mesh Unit).add_edge.1.set_next 0 1).set_next 1 0).set_target 0
    4294967294).set_target 1 4294967294)

/-- The mesh after `add_edge()`, `remove_edge` of the edge of the returned halfedge
and `add_edge()` again, together with the halfedge that the second call returns. -/
def example_recycled_edge : Surface_mesh Unit × Nat :=
  (((new true : Surface_mesh Unit).add_edge.1).remove_edge (edge 0)).add_edge

/-- The mesh with two vertices of which the vertex 0 has been removed, after
`set_recycle_garbage(false)`. -/
def example_no_recycling : Surface_mesh Unit :=
  example_first_removed.set_recycle_garbage false

/-- The mesh with three isolated vertices. -/
def example_three_vertices : Surface_mesh Unit :=
  ((((new true : Surface_mesh Unit).add_vertex).1.add_vertex).1.add_vertex).1

/-- The mesh with three vertices of which the vertex 0 has been removed, and with one
edge between the vertices 1 and 2 whose two halfedges follow each other: the
halfedge 0 runs from 1 to 2 and is the halfedge of the vertex 2, the halfedge 1 runs
from 2 to 1 and is the halfedge of the vertex 1. -/
def example_live_above_removed : Surface_mesh Unit :=
  match example_three_vertices.add_edge_vertices 1 2 with
  | some r =>
      ((((r.1.set_next 0 1).set_next 1 0).set_halfedge 2 0).set_halfedge 1 1).remove_vertex 0
  | none => example_three_vertices

end Surface_mesh

/-! ## Theorems -/

/-! ### Reading and writing the columns -/

namespace Property_container

variable {α : Type}

theorem capacity_set (c : Property_container α) (i : Nat) (a : α) :
    (c.set i a).capacity = c.capacity := by
  simp [set, capacity]

theorem freelist_set (c : Property_container α) (i : Nat) (a : α) :
    (c.set i a).freelist = c.freelist := rfl

theorem get_set [Inhabited α] (c : Property_container α) (i j : Nat) (a : α) :
    (c.set i a).get j = if i = j ∧ i < c.capacity then a else c.get j := by
  simp only [get, set, capacity, List.getD_eq_getElem?_getD, List.getElem?_set]
  by_cases hij : i = j
  · subst hij
    by_cases hi : i < c.rows.length
    · simp [hi]
    · simp [hi, List.getElem?_eq_none (Nat.le_of_not_lt hi)]
  · simp [hij]

theorem get_set_self [Inhabited α] (c : Property_container α) (i : Nat) (a : α)
    (hi : i < c.capacity) : (c.set i a).get i = a := by
  simp [get_set, hi]

theorem get_set_ne [Inhabited α] (c : Property_container α) (i j : Nat) (a : α)
    (hij : i ≠ j) : (c.set i a).get j = c.get j := by
  simp [get_set, hij]

theorem length_foldl_set (l : List Nat) (s : Nat) (a : α) (rows : List α) :
    (l.foldl (fun rows j => rows.set (s + j) a) rows).length = rows.length := by
  induction l generalizing rows with
  | nil => rfl
  | cons x xs ih => simp [List.foldl_cons, ih]

theorem find_free_group_bound (c : Property_container α) (k s : Nat) (hk : 0 < k)
    (hs : c.find_free_group k = some s) : s + k ≤ c.capacity := by
  have h1 := List.find?_some hs
  simp only [is_free_group, List.all_eq_true, List.mem_range, Bool.and_eq_true,
    decide_eq_true_eq] at h1
  have h2 := (h1 (k - 1) (by omega)).1
  omega

theorem emplace_group_back_bounds [Inhabited α] (c : Property_container α) (k : Nat) :
    (c.emplace_group_back k).2 = c.capacity ∧
      (c.emplace_group_back k).1.capacity = c.capacity + k ∧
      (c.emplace_group_back k).1.freelist = c.freelist := by
  simp [emplace_group_back, capacity]

theorem emplace_group_bounds [Inhabited α] (c : Property_container α) (k : Nat) (hk : 0 < k) :
    (c.emplace_group k).2 + k ≤ (c.emplace_group k).1.capacity ∧
      (c.emplace_group k).1.capacity ≤ c.capacity + k := by
  unfold emplace_group
  cases hs : c.find_free_group k with
  | none => simp [emplace_group_back, capacity]
  | some s =>
    have hb := find_free_group_bound c k s hk hs
    simp only [capacity, length_foldl_set] at hb ⊢
    omega

theorem emplace_group_of_nil [Inhabited α] (c : Property_container α) (k : Nat) (hk : 0 < k)
    (hf : c.freelist = []) : c.emplace_group k = c.emplace_group_back k := by
  unfold emplace_group
  cases hs : c.find_free_group k with
  | none => rfl
  | some s =>
    have h1 := List.find?_some hs
    simp only [is_free_group, List.all_eq_true, List.mem_range, Bool.and_eq_true,
      decide_eq_true_eq, is_erased, hf, List.not_mem_nil, and_false] at h1
    exact absurd (h1 0 hk) (by simp)

theorem size_le_capacity (c : Property_container α) : c.size ≤ c.capacity := by
  unfold size
  exact (List.countP_le_length _).trans (by simp)

theorem size_set (c : Property_container α) (i : Nat) (a : α) : (c.set i a).size = c.size := by
  simp [size, is_erased, set, capacity]

theorem freelist_nil_of_full (c : Property_container α) (hw : ∀ i ∈ c.freelist, i < c.capacity)
    (hs : c.size = c.capacity) : c.freelist = [] := by
  have h1 : List.countP (fun i => !c.is_erased i) (List.range c.capacity) =
      (List.range c.capacity).length := by
    rw [List.length_range]; exact hs
  rw [List.countP_eq_length] at h1
  apply List.eq_nil_iff_forall_not_mem.2
  intro i hi
  have h2 := h1 i (List.mem_range.2 (hw i hi))
  simp [is_erased, hi] at h2

theorem size_of_freelist_nil (c : Property_container α) (hf : c.freelist = []) :
    c.size = c.capacity := by
  simp [size, is_erased, hf]

theorem capacity_append (c o : Property_container α) :
    (c.append o).capacity = c.capacity + o.capacity := by
  simp [append, capacity]

theorem get_append_right [Inhabited α] (c o : Property_container α) (i : Nat) :
    (c.append o).get (i + c.capacity) = o.get i := by
  simp only [get, append, capacity]
  rw [List.getD_append_right _ _ _ _ (by omega)]
  simp

theorem get_append_left [Inhabited α] (c o : Property_container α) (i : Nat)
    (h : i < c.capacity) : (c.append o).get i = c.get i := by
  simp only [get, append]
  exact List.getD_append _ _ _ _ h

theorem freelist_append_nil (c o : Property_container α) (h1 : c.freelist = [])
    (h2 : o.freelist = []) : (c.append o).freelist = [] := by
  simp [append, h1, h2]

end Property_container

namespace Surface_mesh

variable {P : Type}

/-- C1: for every 32-bit halfedge index `h`, the null index included,
`opposite (opposite h) = h` and `opposite h ≠ h`, where `opposite h` is `h - 1` for
odd `h` and `h + 1` for even `h`. -/
theorem opposite_involution (h : Nat) (hh : h < size_type_range) :
    opposite (opposite h) = h ∧ opposite h ≠ h ∧
      (h % 2 = 1 → opposite h = h - 1) ∧ (h % 2 = 0 → opposite h = h + 1) ∧
      opposite h < size_type_range := by
  unfold opposite size_type_range at *
  split_ifs <;> omega

/-- C1 at the null halfedge. -/
theorem opposite_involution_witness :
    opposite (opposite null_halfedge) = null_halfedge ∧ opposite null_halfedge ≠ null_halfedge ∧
      (null_halfedge % 2 = 1 → opposite null_halfedge = null_halfedge - 1) ∧
      (null_halfedge % 2 = 0 → opposite null_halfedge = null_halfedge + 1) ∧
      opposite null_halfedge < size_type_range :=
  opposite_involution null_halfedge (by decide)

/-! ### The connectivity arrays after a write -/

theorem hconn_set_hconn (m : Surface_mesh P) (h g : Nat) (r : Halfedge_connectivity) :
    (m.set_hconn h r).hconn_ g = if h = g ∧ h < m.hprops_.capacity then r else m.hconn_ g := by
  simp [hconn_, set_hconn, Property_container.get_set]

theorem capacity_set_hconn (m : Surface_mesh P) (h : Nat) (r : Halfedge_connectivity) :
    (m.set_hconn h r).hprops_.capacity = m.hprops_.capacity := by
  simp [set_hconn, Property_container.capacity_set]

theorem next_set_next_only (m : Surface_mesh P) (h nh g : Nat) :
    (m.set_next_only h nh).next g = if h = g ∧ h < m.hprops_.capacity then nh else m.next g := by
  simp only [next, set_next_only, hconn_set_hconn]
  split_ifs <;> rfl

theorem prev_set_next_only (m : Surface_mesh P) (h nh g : Nat) :
    (m.set_next_only h nh).prev g = m.prev g := by
  simp only [prev, set_next_only, hconn_set_hconn]
  split_ifs with e
  · rw [e.1]
  · rfl

theorem target_set_next_only (m : Surface_mesh P) (h nh g : Nat) :
    (m.set_next_only h nh).target g = m.target g := by
  simp only [target, set_next_only, hconn_set_hconn]
  split_ifs with e
  · rw [e.1]
  · rfl

theorem face_set_next_only (m : Surface_mesh P) (h nh g : Nat) :
    (m.set_next_only h nh).face g = m.face g := by
  simp only [face, set_next_only, hconn_set_hconn]
  split_ifs with e
  · rw [e.1]
  · rfl

theorem capacity_set_next_only (m : Surface_mesh P) (h nh : Nat) :
    (m.set_next_only h nh).hprops_.capacity = m.hprops_.capacity := by
  simp [set_next_only, capacity_set_hconn]

theorem prev_set_prev_only (m : Surface_mesh P) (h nh g : Nat) :
    (m.set_prev_only h nh).prev g =
      if h ≠ null_halfedge ∧ h = g ∧ h < m.hprops_.capacity then nh else m.prev g := by
  unfold set_prev_only
  by_cases hn : h = null_halfedge
  · simp [hn]
  · have hb : (h != null_halfedge) = true := by simpa using hn
    simp only [hb, if_true, prev, hconn_set_hconn]
    split_ifs with e1 e2 e2
    · rfl
    · exact absurd ⟨hn, e1⟩ e2
    · exact absurd e2.2 e1
    · rfl

theorem next_set_prev_only (m : Surface_mesh P) (h nh g : Nat) :
    (m.set_prev_only h nh).next g = m.next g := by
  unfold set_prev_only
  split_ifs
  · simp only [next, hconn_set_hconn]
    split_ifs with e
    · rw [e.1]
    · rfl
  · rfl

theorem target_set_prev_only (m : Surface_mesh P) (h nh g : Nat) :
    (m.set_prev_only h nh).target g = m.target g := by
  unfold set_prev_only
  split_ifs
  · simp only [target, hconn_set_hconn]
    split_ifs with e
    · rw [e.1]
    · rfl
  · rfl

theorem face_set_prev_only (m : Surface_mesh P) (h nh g : Nat) :
    (m.set_prev_only h nh).face g = m.face g := by
  unfold set_prev_only
  split_ifs
  · simp only [face, hconn_set_hconn]
    split_ifs with e
    · rw [e.1]
    · rfl
  · rfl

/-- C2: for an in-range halfedge `h`, `set_next h nh` with an in-range, non-null `nh`
makes `next h = nh` and `prev nh = h`, hence `prev (next h) = h`, and changes no other
`next` or `prev`; with the null halfedge for `nh` only `next h` changes; in both
cases `target`, `face`, the vertex and face records, the removal marks and the
sizes are unchanged. -/
theorem set_next_frame (m : Surface_mesh P) (h nh : Nat) (hh : h < m.hprops_.capacity) :
    (nh < m.hprops_.capacity → nh ≠ null_halfedge →
      (m.set_next h nh).next h = nh ∧ (m.set_next h nh).prev nh = h ∧
      (m.set_next h nh).prev ((m.set_next h nh).next h) = h ∧
      (∀ g, g ≠ h → (m.set_next h nh).next g = m.next g) ∧
      (∀ g, g ≠ nh → (m.set_next h nh).prev g = m.prev g)) ∧
    (nh = null_halfedge →
      (m.set_next h nh).next h = nh ∧
      (∀ g, g ≠ h → (m.set_next h nh).next g = m.next g) ∧
      (∀ g, (m.set_next h nh).prev g = m.prev g)) ∧
    (∀ g, (m.set_next h nh).target g = m.target g ∧ (m.set_next h nh).face g = m.face g) ∧
    (m.set_next h nh).vprops_ = m.vprops_ ∧ (m.set_next h nh).fprops_ = m.fprops_ ∧
    (m.set_next h nh).eprops_ = m.eprops_ ∧ (m.set_next h nh).recycle_ = m.recycle_ ∧
    (m.set_next h nh).hprops_.freelist = m.hprops_.freelist ∧
    (m.set_next h nh).hprops_.capacity = m.hprops_.capacity := by
  have hnext : ∀ g, (m.set_next h nh).next g = if h = g then nh else m.next g := by
    intro g
    simp [set_next, next_set_prev_only, next_set_next_only, hh]
  have hprev : ∀ g, (m.set_next h nh).prev g =
      if nh ≠ null_halfedge ∧ nh = g ∧ nh < m.hprops_.capacity then h else m.prev g := by
    intro g
    simp [set_next, prev_set_prev_only, prev_set_next_only, capacity_set_next_only]
  refine ⟨?_, ?_, ?_, ?_, ?_, ?_, ?_, ?_, ?_⟩
  · intro hnh hnn
    have e1 : (m.set_next h nh).next h = nh := by simp [hnext]
    have e2 : (m.set_next h nh).prev nh = h := by simp [hprev, hnn, hnh]
    refine ⟨e1, e2, by rw [e1, e2], ?_, ?_⟩
    · intro g hg
      simp [hnext, Ne.symm hg]
    · intro g hg
      rw [hprev, if_neg]
      exact fun e => hg e.2.1.symm
  · intro hnull
    refine ⟨by simp [hnext], ?_, ?_⟩
    · intro g hg
      simp [hnext, Ne.symm hg]
    · intro g
      rw [hprev, if_neg]
      exact fun e => e.1 hnull
  · intro g
    simp [set_next, target_set_prev_only, target_set_next_only, face_set_prev_only,
      face_set_next_only]
  all_goals
    by_cases hb : (nh != null_halfedge) = true <;>
      simp [set_next, set_prev_only, hb, set_next_only, set_hconn, Property_container.set,
        Property_container.capacity]

/-- C2 on the mesh with one edge: the halfedge 1 becomes the successor of the halfedge 0. -/
theorem set_next_frame_witness :
    0 < example_edge.hprops_.capacity ∧ 1 < example_edge.hprops_.capacity ∧
      (example_edge.set_next 0 1).next 0 = 1 ∧ (example_edge.set_next 0 1).prev 1 = 0 :=
  ⟨by decide, by decide,
    ((set_next_frame example_edge 0 1 (by decide)).1 (by decide) (by decide)).1,
    ((set_next_frame example_edge 0 1 (by decide)).1 (by decide) (by decide)).2.1⟩

/-! ### Adding an edge -/

theorem target_set_target (m : Surface_mesh P) (h v g : Nat) :
    (m.set_target h v).target g = if h = g ∧ h < m.hprops_.capacity then v else m.target g := by
  simp only [target, set_target, hconn_set_hconn]
  split_ifs <;> rfl

theorem capacity_set_target (m : Surface_mesh P) (h v : Nat) :
    (m.set_target h v).hprops_.capacity = m.hprops_.capacity := by
  simp [set_target, capacity_set_hconn]

theorem add_edge_bounds [Inhabited P] (m : Surface_mesh P) :
    m.add_edge.2 + 2 ≤ m.add_edge.1.hprops_.capacity ∧
      m.add_edge.1.hprops_.capacity ≤ m.hprops_.capacity + 2 := by
  unfold add_edge
  cases m.recycle_ with
  | true => simpa using Property_container.emplace_group_bounds m.hprops_ 2 (by decide)
  | false =>
    have := Property_container.emplace_group_back_bounds m.hprops_ 2
    simp only [Bool.false_eq_true, if_false]
    omega

theorem opposite_facts (h : Nat) (hh : h < size_type_range) :
    opposite (opposite h) = h ∧ opposite h ≠ h ∧ opposite h ≤ h + 1 := by
  unfold opposite size_type_range at *
  split_ifs <;> omega

/-- C3: for every mesh whose halfedge container has room for two more 32-bit indices
and for distinct vertex indices `v0` and `v1`, `add_edge(v0, v1)` succeeds, and the
halfedge `h` it returns has source `v0` and target `v1`, while `opposite h` has
source `v1` and target `v0`. -/
theorem add_edge_source_target [Inhabited P] (m : Surface_mesh P) (v0 v1 : Nat)
    (hne : v0 ≠ v1) (hroom : m.hprops_.capacity + 2 ≤ size_type_max) :
    ∃ r, m.add_edge_vertices v0 v1 = some r ∧
      r.1.source r.2 = v0 ∧ r.1.target r.2 = v1 ∧
      r.1.source (opposite r.2) = v1 ∧ r.1.target (opposite r.2) = v0 := by
  have hb : (v0 != v1) = true := by simpa using hne
  obtain ⟨b1, b2⟩ := add_edge_bounds m
  have hlt : m.add_edge.2 < size_type_range := by
    unfold size_type_max at hroom
    unfold size_type_range
    omega
  obtain ⟨o1, o2, o3⟩ := opposite_facts m.add_edge.2 hlt
  refine ⟨((m.add_edge.1.set_target m.add_edge.2 v1).set_target (opposite m.add_edge.2) v0,
    m.add_edge.2), by simp only [add_edge_vertices, hb, if_true], ?_⟩
  have ht : ((m.add_edge.1.set_target m.add_edge.2 v1).set_target
      (opposite m.add_edge.2) v0).target m.add_edge.2 = v1 := by
    rw [target_set_target, if_neg (fun e => o2 e.1), target_set_target, if_pos ⟨rfl, by omega⟩]
  have hs : ((m.add_edge.1.set_target m.add_edge.2 v1).set_target
      (opposite m.add_edge.2) v0).target (opposite m.add_edge.2) = v0 := by
    rw [target_set_target, if_pos ⟨rfl, by rw [capacity_set_target]; omega⟩]
  refine ⟨?_, ht, ?_, hs⟩
  · simpa only [source] using hs
  · simpa only [source, o1] using ht

/-- C3 on the empty mesh: the edge from vertex 0 to vertex 1. -/
theorem add_edge_source_target_witness :
    (0 : Nat) ≠ 1 ∧ (new true : Surface_mesh Unit).hprops_.capacity + 2 ≤ size_type_max ∧
      ∃ r, (new true : Surface_mesh Unit).add_edge_vertices 0 1 = some r ∧
        r.1.source r.2 = 0 ∧ r.1.target r.2 = 1 ∧
        r.1.source (opposite r.2) = 1 ∧ r.1.target (opposite r.2) = 0 :=
  ⟨by decide, by decide, add_edge_source_target (new true) 0 1 (by decide) (by decide)⟩

theorem add_edge_of_nil [Inhabited P] (m : Surface_mesh P) (hf : m.hprops_.freelist = []) :
    m.add_edge.2 = m.hprops_.capacity ∧
      m.add_edge.1.hprops_.capacity = m.hprops_.capacity + 2 ∧
      m.add_edge.1.hprops_.freelist = [] := by
  have hb := Property_container.emplace_group_back_bounds m.hprops_ 2
  have he := Property_container.emplace_group_of_nil m.hprops_ 2 (by decide) hf
  unfold add_edge
  cases m.recycle_ with
  | true =>
    simp only [if_true, he]
    exact ⟨hb.1, hb.2.1, hb.2.2.trans hf⟩
  | false =>
    simp only [Bool.false_eq_true, if_false]
    exact ⟨hb.1, hb.2.1, hb.2.2.trans hf⟩

theorem hprops_set_target (m : Surface_mesh P) (h v : Nat) :
    (m.set_target h v).hprops_.freelist = m.hprops_.freelist ∧
      (m.set_target h v).hprops_.capacity = m.hprops_.capacity := by
  simp [set_target, set_hconn, Property_container.set, Property_container.capacity]

/-- In a reachable state no halfedge slot is erased and the halfedge slots come in pairs. -/
theorem reachable_halfedges [Inhabited P] (m : Surface_mesh P) (hr : Reachable m) :
    m.hprops_.freelist = [] ∧ m.hprops_.capacity % 2 = 0 := by
  induction hr with
  | default_constructed lifo => exact ⟨rfl, rfl⟩
  | add_vertex _ ih => exact ih
  | add_vertex_point p _ ih => exact ih
  | @add_edge m _ ih =>
    obtain ⟨_, h2, h3⟩ := add_edge_of_nil m ih.1
    exact ⟨h3, by omega⟩
  | @add_edge_vertices m v0 v1 r _ hr ih =>
    obtain ⟨_, h2, h3⟩ := add_edge_of_nil m ih.1
    unfold add_edge_vertices at hr
    split_ifs at hr
    cases hr
    simp only [hprops_set_target]
    exact ⟨h3, by omega⟩
  | add_face _ ih => exact ih
  | remove_vertex v _ ih => exact ih
  | remove_edge e _ ih => exact ih
  | remove_face f _ ih => exact ih
  | set_recycle_garbage b _ ih => exact ih

/-- C4: in every state reachable from a default-constructed mesh whose halfedge
container has room for two more 32-bit indices, `add_edge()` returns an even
halfedge `h` with `opposite h = h + 1`; `h` and `h + 1` are the two slots appended
to the halfedge container, inside its new bounds, not removed, and different from
every halfedge slot that existed before the call. -/
theorem add_edge_fresh_pair [Inhabited P] (m : Surface_mesh P) (hr : Reachable m)
    (hroom : m.hprops_.capacity + 2 ≤ size_type_max) :
    m.add_edge.2 % 2 = 0 ∧ opposite m.add_edge.2 = m.add_edge.2 + 1 ∧
      m.add_edge.2 = m.hprops_.capacity ∧
      m.add_edge.1.hprops_.capacity = m.hprops_.capacity + 2 ∧
      m.add_edge.2 + 1 < m.add_edge.1.hprops_.capacity ∧
      m.add_edge.1.is_removed_halfedge m.add_edge.2 = false ∧
      m.add_edge.1.is_removed_halfedge (m.add_edge.2 + 1) = false ∧
      (∀ g, g < m.hprops_.capacity → g ≠ m.add_edge.2 ∧ g ≠ m.add_edge.2 + 1) := by
  obtain ⟨hf, hev⟩ := reachable_halfedges m hr
  obtain ⟨h1, h2, h3⟩ := add_edge_of_nil m hf
  have hopp : opposite m.add_edge.2 = m.add_edge.2 + 1 := by
    unfold size_type_max at hroom
    unfold opposite size_type_range
    rw [h1, if_neg (by omega)]
    exact Nat.mod_eq_of_lt (by omega)
  refine ⟨by omega, hopp, h1, h2, by omega, ?_, ?_, ?_⟩
  · simp [is_removed_halfedge, Property_container.is_erased, h3]
  · simp [is_removed_halfedge, Property_container.is_erased, h3]
  · intro g hg
    omega

/-- C4 on the mesh with one edge, where the new pair is (2, 3). -/
theorem add_edge_fresh_pair_witness :
    Reachable example_edge ∧ example_edge.hprops_.capacity + 2 ≤ size_type_max ∧
      example_edge.add_edge.2 % 2 = 0 ∧
      opposite example_edge.add_edge.2 = example_edge.add_edge.2 + 1 :=
  have hr : Reachable example_edge :=
    Reachable.add_edge_vertices 0 1 _
      (Reachable.add_vertex (Reachable.add_vertex (Reachable.default_constructed true))) rfl
  ⟨hr, by decide, (add_edge_fresh_pair example_edge hr (by decide)).1,
    (add_edge_fresh_pair example_edge hr (by decide)).2.1⟩

/-! ### The ranges of a mesh without garbage -/

theorem iterate_no_garbage (size : Nat) (removed : Nat → Bool) :
    ∀ fuel hnd, hnd ≤ size → size - hnd < fuel →
      iterate size false removed size fuel hnd = List.range' hnd (size - hnd) := by
  intro fuel
  induction fuel with
  | zero => intro hnd _ h; omega
  | succ fuel ih =>
    intro hnd h1 h2
    unfold iterate
    by_cases e : hnd = size
    · simp [e]
    · have h3 : size - hnd = (size - (hnd + 1)) + 1 := by omega
      rw [if_neg e, h3, List.range'_succ]
      simp only [increment, Bool.false_eq_true, if_false]
      rw [ih (hnd + 1) (by omega) (by omega)]

theorem index_range_no_garbage (size : Nat) (removed : Nat → Bool) :
    index_range size false removed = List.range size := by
  unfold index_range index_iterator
  simp only [Bool.false_eq_true, if_false]
  rw [iterate_no_garbage size removed (size + 1) 0 (by omega) (by omega), List.range_eq_range']
  rfl

/-! ### What a pass of the halfedge loop checks -/

theorem and_then_true (c : Option Bool) : and_then true c = c := rfl

theorem and_then_false (c : Option Bool) : and_then false c = some false := rfl

/-- The checks of one pass of the halfedge loop, on reads inside the bounds. -/
theorem halfedge_loop_body_eq (m : Surface_mesh P) (it : Nat)
    (h1 : it < m.hprops_.capacity) (h2 : m.prev it < m.hprops_.capacity)
    (h3 : m.next it < m.hprops_.capacity) (h4 : opposite (m.next it) < m.hprops_.capacity) :
    m.halfedge_loop_body it true =
      some (SM_Index.is_valid (m.next it) && SM_Index.is_valid (opposite it) &&
        (opposite it != it) && (opposite (opposite it) == it) &&
        (m.next (m.prev it) == it) && (m.prev (m.next it) == it) &&
        SM_Index.is_valid (m.target it) && (m.target it == m.target (opposite (m.next it)))) := by
  simp only [halfedge_loop_body, checked_next, checked_prev, checked_target, h1, h2, h3,
    h4, if_true, Option.map_some', Option.some_bind]
  generalize SM_Index.is_valid (m.next it) = b1
  generalize SM_Index.is_valid (opposite it) = b2
  generalize (opposite it != it) = b3
  generalize (opposite (opposite it) == it) = b4
  generalize (m.next (m.prev it) == it) = b5
  generalize (m.prev (m.next it) == it) = b6
  generalize SM_Index.is_valid (m.target it) = b7
  generalize (m.target it == m.target (opposite (m.next it))) = b8
  clear h1 h2 h3 h4
  cases b1
  · rfl
  cases b2
  · rfl
  cases b3
  · rfl
  cases b4
  · rfl
  cases b5
  · rfl
  cases b6
  · rfl
  cases b7 <;> rfl

/-- A pass of the halfedge loop that leaves `valid` true has read inside the bounds. -/
theorem halfedge_loop_body_bounds (m : Surface_mesh P) (it : Nat)
    (h : m.halfedge_loop_body it true = some true) :
    it < m.hprops_.capacity ∧ m.prev it < m.hprops_.capacity ∧
      m.next it < m.hprops_.capacity ∧ opposite (m.next it) < m.hprops_.capacity := by
  by_cases h1 : it < m.hprops_.capacity
  swap
  · simp [halfedge_loop_body, and_then, checked_next, h1] at h
  by_cases h2 : m.prev it < m.hprops_.capacity
  swap
  · exfalso
    revert h
    simp only [halfedge_loop_body, checked_next, checked_prev, checked_target, h1, h2,
      if_true, if_false, Option.map_some', Option.some_bind, Option.map_none', Option.none_bind]
    generalize SM_Index.is_valid (m.next it) = b1
    generalize SM_Index.is_valid (opposite it) = b2
    generalize (opposite it != it) = b3
    generalize (opposite (opposite it) == it) = b4
    cases b1 <;> cases b2 <;> cases b3 <;> cases b4 <;> intro h <;> cases h
  by_cases h3 : m.next it < m.hprops_.capacity
  swap
  · exfalso
    revert h
    simp only [halfedge_loop_body, checked_next, checked_prev, checked_target, h1, h2, h3,
      if_true, if_false, Option.map_some', Option.some_bind, Option.map_none', Option.none_bind]
    generalize SM_Index.is_valid (m.next it) = b1
    generalize SM_Index.is_valid (opposite it) = b2
    generalize (opposite it != it) = b3
    generalize (opposite (opposite it) == it) = b4
    generalize (m.next (m.prev it) == it) = b5
    cases b1 <;> cases b2 <;> cases b3 <;> cases b4 <;> cases b5 <;> intro h <;> cases h
  by_cases h4 : opposite (m.next it) < m.hprops_.capacity
  swap
  · exfalso
    revert h
    simp only [halfedge_loop_body, checked_next, checked_prev, checked_target, h1, h2, h3, h4,
      if_true, if_false, Option.map_some', Option.some_bind, Option.map_none', Option.none_bind]
    generalize SM_Index.is_valid (m.next it) = b1
    generalize SM_Index.is_valid (opposite it) = b2
    generalize (opposite it != it) = b3
    generalize (opposite (opposite it) == it) = b4
    generalize (m.next (m.prev it) == it) = b5
    generalize (m.prev (m.next it) == it) = b6
    generalize SM_Index.is_valid (m.target it) = b7
    cases b1 <;> cases b2 <;> cases b3 <;> cases b4 <;> cases b5 <;> cases b6 <;> cases b7 <;>
      intro h <;> cases h
  exact ⟨h1, h2, h3, h4⟩

/-! ### What the loops of `is_valid` establish -/

theorem halfedge_loop_true (m : Surface_mesh P) :
    ∀ (l : List Nat) (c : Nat) (r : Bool × Nat), m.halfedge_loop l true c = some r → r.1 = true →
      (∀ it ∈ l, m.halfedge_loop_body it true = some true) ∧ r.2 = c + l.length := by
  intro l
  induction l with
  | nil =>
    intro c r h _
    simp only [halfedge_loop, Option.some.injEq] at h
    subst h
    simp
  | cons it rest ih =>
    intro c r h hr
    unfold halfedge_loop at h
    cases hb : m.halfedge_loop_body it true with
    | none => simp [hb] at h
    | some b =>
      cases b with
      | false =>
        simp only [hb, Option.some.injEq] at h
        subst h
        simp at hr
      | true =>
        simp only [hb] at h
        obtain ⟨h1, h2⟩ := ih (c + 1) r h hr
        refine ⟨?_, by simp only [List.length_cons]; omega⟩
        intro x hx
        rcases List.mem_cons.1 hx with e | e
        · rw [e]; exact hb
        · exact h1 x e

theorem vertex_loop_true [Inhabited P] (m : Surface_mesh P) :
    ∀ (l : List Nat) (v : Bool) (c : Nat) (r : Bool × Nat), m.vertex_loop l v c = some r →
      r.1 = true →
      v = true ∧ r.2 = c + l.length ∧
        ∀ it ∈ l, it < m.vprops_.capacity ∧
          (SM_Index.is_valid (m.halfedge it) = true →
            m.halfedge it < m.hprops_.capacity ∧ m.target (m.halfedge it) = it) := by
  intro l
  induction l with
  | nil =>
    intro v c r h hr
    simp only [vertex_loop, Option.some.injEq] at h
    subst h
    exact ⟨hr, by simp, by simp⟩
  | cons it rest ih =>
    intro v c r h hr
    unfold vertex_loop at h
    by_cases hit : it < m.vprops_.capacity
    swap
    · simp [checked_halfedge, hit] at h
    simp only [checked_halfedge, hit, if_true] at h
    by_cases hval : SM_Index.is_valid (m.halfedge it) = true
    · simp only [hval, if_true] at h
      cases v with
      | false => simp [and_then_false] at h; subst h; simp at hr
      | true =>
        by_cases hh : m.halfedge it < m.hprops_.capacity
        swap
        · simp [and_then_true, checked_target, hh] at h
        simp only [and_then_true, checked_target, hh, if_true, Option.map_some'] at h
        by_cases ht : m.target (m.halfedge it) = it
        · have hb : (m.target (m.halfedge it) == it) = true := by simpa using ht
          simp only [hb] at h
          obtain ⟨_, h2, h3⟩ := ih true (c + 1) r h hr
          refine ⟨rfl, by simp only [List.length_cons]; omega, ?_⟩
          intro x hx
          rcases List.mem_cons.1 hx with e | e
          · rw [e]; exact ⟨hit, fun _ => ⟨hh, ht⟩⟩
          · exact h3 x e
        · have hb : (m.target (m.halfedge it) == it) = false := by simpa using ht
          simp only [hb, Option.some.injEq] at h
          subst h
          simp at hr
    · simp only [hval, Bool.false_eq_true, if_false] at h
      obtain ⟨h1, h2, h3⟩ := ih v (c + 1) r h hr
      refine ⟨h1, by simp only [List.length_cons]; omega, ?_⟩
      intro x hx
      rcases List.mem_cons.1 hx with e | e
      · rw [e]; exact ⟨hit, fun hc => absurd hc hval⟩
      · exact h3 x e

theorem is_valid_index_iff (x : Nat) : SM_Index.is_valid x = true ↔ x ≠ size_type_max := by
  simp [SM_Index.is_valid]

/-- What a mesh without garbage satisfies when `is_valid` returns true. -/
theorem is_valid_facts [Inhabited P] (m : Surface_mesh P) (hg : m.has_garbage = false)
    (hv : m.is_valid = some true) :
    (∀ h, h < m.number_of_halfedges → m.halfedge_loop_body h true = some true) ∧
      (∀ v, v < m.number_of_vertices → v < m.vprops_.capacity ∧
        (SM_Index.is_valid (m.halfedge v) = true →
          m.halfedge v < m.hprops_.capacity ∧ m.target (m.halfedge v) = v)) := by
  unfold is_valid at hv
  cases h1 : m.halfedge_loop m.halfedges true 0 with
  | none => simp [h1] at hv
  | some r1 =>
    simp only [h1, Option.some_bind] at hv
    cases h2 : m.vertex_loop m.vertices r1.1 0 with
    | none => simp [h2] at hv
    | some r2 =>
      simp only [h2, Option.some_bind, Option.some.injEq, Bool.and_eq_true] at hv
      obtain ⟨⟨⟨hr2, _⟩, _⟩, _⟩ := hv
      obtain ⟨hr1, _, hvs⟩ := vertex_loop_true m _ _ _ _ h2 hr2
      obtain ⟨hhs, _⟩ := halfedge_loop_true m _ _ _ h1 hr1
      constructor
      · intro h hh
        apply hhs
        simp only [halfedges, hg, index_range_no_garbage, List.mem_range]
        exact hh
      · intro v hv
        apply hvs
        simp only [vertices, hg, index_range_no_garbage, List.mem_range]
        exact hv

/-- What a pass of the halfedge loop that leaves `valid` true has checked. -/
theorem halfedge_loop_body_true (m : Surface_mesh P) (it : Nat)
    (h : m.halfedge_loop_body it true = some true) :
    m.next it ≠ null_halfedge ∧ opposite it ≠ it ∧ opposite (opposite it) = it ∧
      m.next (m.prev it) = it ∧ m.prev (m.next it) = it ∧ m.target it ≠ null_vertex ∧
      m.target it = m.target (opposite (m.next it)) := by
  obtain ⟨h1, h2, h3, h4⟩ := halfedge_loop_body_bounds m it h
  rw [halfedge_loop_body_eq m it h1 h2 h3 h4] at h
  simp only [Option.some.injEq, Bool.and_eq_true, is_valid_index_iff, bne_iff_ne, ne_eq,
    beq_iff_eq] at h
  obtain ⟨⟨⟨⟨⟨⟨⟨a1, _⟩, a3⟩, a4⟩, a5⟩, a6⟩, a7⟩, a8⟩ := h
  exact ⟨a1, a3, a4, a5, a6, a7, a8⟩

/-- C5: if `is_valid()` returns true on a mesh without removed elements, then every
halfedge `h` below `number_of_halfedges()` has `opposite h ≠ h`,
`opposite (opposite h) = h`, `next (prev h) = h`, `prev (next h) = h`, a non-null
target and `target h = target (opposite (next h))`, and every vertex `v` below
`number_of_vertices()` with a non-null `halfedge v` has `target (halfedge v) = v`. -/
theorem is_valid_sound [Inhabited P] (m : Surface_mesh P) (hg : m.has_garbage = false)
    (hv : m.is_valid = some true) :
    (∀ h, h < m.number_of_halfedges →
      opposite h ≠ h ∧ opposite (opposite h) = h ∧ m.next (m.prev h) = h ∧
        m.prev (m.next h) = h ∧ m.target h ≠ null_vertex ∧
        m.target h = m.target (opposite (m.next h))) ∧
    (∀ v, v < m.number_of_vertices → m.halfedge v ≠ null_halfedge →
      m.target (m.halfedge v) = v) := by
  obtain ⟨f1, f2⟩ := is_valid_facts m hg hv
  constructor
  · intro h hh
    exact (halfedge_loop_body_true m h (f1 h hh)).2
  · intro v hv hn
    exact ((f2 v hv).2 ((is_valid_index_iff _).2 hn)).2

/-- C5 on the mesh whose two halfedges follow each other. -/
theorem is_valid_sound_witness :
    example_closed_edge.has_garbage = false ∧ example_closed_edge.is_valid = some true ∧
      (∀ h, h < example_closed_edge.number_of_halfedges →
        opposite h ≠ h ∧ opposite (opposite h) = h ∧
          example_closed_edge.next (example_closed_edge.prev h) = h ∧
          example_closed_edge.prev (example_closed_edge.next h) = h ∧
          example_closed_edge.target h ≠ null_vertex ∧
          example_closed_edge.target h =
            example_closed_edge.target (opposite (example_closed_edge.next h))) :=
  ⟨by decide, by decide, (is_valid_sound example_closed_edge (by decide) (by decide)).1⟩

/-! ### Corrupting a next pointer -/

/-- Without garbage every container is as large as its number of live slots. -/
theorem no_garbage_sizes (m : Surface_mesh P) (hg : m.has_garbage = false) :
    m.number_of_vertices = m.vprops_.capacity ∧ m.number_of_halfedges = m.hprops_.capacity ∧
      m.number_of_edges = m.eprops_.capacity ∧ m.number_of_faces = m.fprops_.capacity := by
  have h1 := Property_container.size_le_capacity m.vprops_
  have h2 := Property_container.size_le_capacity m.hprops_
  have h3 := Property_container.size_le_capacity m.eprops_
  have h4 := Property_container.size_le_capacity m.fprops_
  simp only [has_garbage, number_of_removed_vertices, number_of_removed_edges,
    number_of_removed_halfedges, number_of_removed_faces, Bool.or_eq_false_iff,
    bne_eq_false_iff_eq] at hg
  simp only [number_of_vertices, number_of_halfedges, number_of_edges, number_of_faces]
  omega

theorem halfedge_loop_false (m : Surface_mesh P) :
    ∀ (l : List Nat) (c : Nat), (∀ it ∈ l, ∃ b, m.halfedge_loop_body it true = some b) →
      (∃ it ∈ l, m.halfedge_loop_body it true = some false) →
      ∃ c2, m.halfedge_loop l true c = some (false, c2) := by
  intro l
  induction l with
  | nil => intro c _ h; simp at h
  | cons it rest ih =>
    intro c hall hex
    unfold halfedge_loop
    obtain ⟨b, hb⟩ := hall it (List.mem_cons_self _ _)
    cases b with
    | false => exact ⟨c + 1, by simp only [hb]⟩
    | true =>
      simp only [hb]
      apply ih (c + 1) (fun x hx => hall x (List.mem_cons_of_mem _ hx))
      obtain ⟨x, hx, hxb⟩ := hex
      rcases List.mem_cons.1 hx with e | e
      · subst e
        rw [hb] at hxb
        cases hxb
      · exact ⟨x, e, hxb⟩

theorem vertex_loop_false [Inhabited P] (m : Surface_mesh P) :
    ∀ (l : List Nat) (c : Nat), (∀ it ∈ l, it < m.vprops_.capacity) →
      ∃ c2, m.vertex_loop l false c = some (false, c2) := by
  intro l
  induction l with
  | nil => intro c _; exact ⟨c, rfl⟩
  | cons it rest ih =>
    intro c hall
    unfold vertex_loop
    simp only [checked_halfedge, hall it (List.mem_cons_self _ _), if_true, and_then_false]
    by_cases hval : SM_Index.is_valid (m.halfedge it) = true
    · exact ⟨c + 1, by simp only [hval, if_true]⟩
    · simp only [hval, Bool.false_eq_true, if_false]
      exact ih (c + 1) (fun x hx => hall x (List.mem_cons_of_mem _ hx))

theorem set_next_only_containers (m : Surface_mesh P) (h g : Nat) :
    (m.set_next_only h g).vprops_ = m.vprops_ ∧ (m.set_next_only h g).eprops_ = m.eprops_ ∧
      (m.set_next_only h g).fprops_ = m.fprops_ ∧
      (m.set_next_only h g).hprops_.capacity = m.hprops_.capacity ∧
      (m.set_next_only h g).hprops_.size = m.hprops_.size ∧
      (m.set_next_only h g).hprops_.freelist = m.hprops_.freelist := by
  simp [set_next_only, set_hconn, Property_container.size_set, Property_container.capacity_set,
    Property_container.freelist_set]

theorem set_next_only_ranges (m : Surface_mesh P) (h g : Nat) :
    (m.set_next_only h g).has_garbage = m.has_garbage ∧
      (m.set_next_only h g).number_of_vertices = m.number_of_vertices ∧
      (m.set_next_only h g).number_of_halfedges = m.number_of_halfedges := by
  obtain ⟨e1, e2, e3, e4, e5, _⟩ := set_next_only_containers m h g
  simp [has_garbage, number_of_removed_vertices, number_of_removed_edges,
    number_of_removed_halfedges, number_of_removed_faces, number_of_vertices, number_of_halfedges,
    e1, e2, e3, e4, e5]

/-- C6: on a mesh without removed elements on which `is_valid()` returns true, for
in-range halfedges `h` and `g` with `g ≠ next h`, `is_valid()` returns false after
`set_next_only(h, g)`. -/
theorem is_valid_detects_next [Inhabited P] (m : Surface_mesh P) (h g : Nat)
    (hg : m.has_garbage = false) (hv : m.is_valid = some true)
    (hh : h < m.number_of_halfedges) (hgr : g < m.number_of_halfedges) (hne : g ≠ m.next h) :
    (m.set_next_only h g).is_valid = some false := by
  obtain ⟨f1, f2⟩ := is_valid_facts m hg hv
  obtain ⟨sv, sh, _, _⟩ := no_garbage_sizes m hg
  obtain ⟨c1, c2, c3, c4, c5, c6⟩ := set_next_only_containers m h g
  obtain ⟨r1, r2, r3⟩ := set_next_only_ranges m h g
  have hcap : h < m.hprops_.capacity := by omega
  -- every pass of the halfedge loop on the corrupted mesh reads inside the bounds
  have bnd : ∀ it, it < m.number_of_halfedges →
      it < (m.set_next_only h g).hprops_.capacity ∧
      (m.set_next_only h g).prev it < (m.set_next_only h g).hprops_.capacity ∧
      (m.set_next_only h g).next it < (m.set_next_only h g).hprops_.capacity ∧
      opposite ((m.set_next_only h g).next it) < (m.set_next_only h g).hprops_.capacity := by
    intro it hit
    obtain ⟨b1, b2, b3, b4⟩ := halfedge_loop_body_bounds m it (f1 it hit)
    rw [c4, prev_set_next_only, next_set_next_only]
    refine ⟨b1, b2, ?_, ?_⟩
    · split_ifs
      · omega
      · exact b3
    · split_ifs
      · have hpg := halfedge_loop_body_bounds m g (f1 g hgr)
        have hb := halfedge_loop_body_bounds m (m.prev g) (f1 _ (by omega))
        have hn := (halfedge_loop_body_true m g (f1 g hgr)).2.2.2.1
        rw [hn] at hb
        exact hb.2.2.2
      · exact b4
  have hbody : ∀ it, it < m.number_of_halfedges →
      ∃ b, (m.set_next_only h g).halfedge_loop_body it true = some b := by
    intro it hit
    obtain ⟨b1, b2, b3, b4⟩ := bnd it hit
    exact ⟨_, halfedge_loop_body_eq _ it b1 b2 b3 b4⟩
  -- the pass for the old successor of h fails
  have hold := halfedge_loop_body_bounds m h (f1 h hh)
  have hn0 : m.next h < m.number_of_halfedges := by omega
  have hfail : (m.set_next_only h g).halfedge_loop_body (m.next h) true = some false := by
    obtain ⟨b1, b2, b3, b4⟩ := bnd (m.next h) hn0
    rw [halfedge_loop_body_eq _ _ b1 b2 b3 b4]
    have hp : m.prev (m.next h) = h := (halfedge_loop_body_true m h (f1 h hh)).2.2.2.2.1
    have : ((m.set_next_only h g).next ((m.set_next_only h g).prev (m.next h)) == m.next h)
        = false := by
      rw [prev_set_next_only, hp, next_set_next_only, if_pos ⟨rfl, hcap⟩]
      simpa using hne
    simp [this]
  obtain ⟨k1, hk1⟩ := halfedge_loop_false (m.set_next_only h g) (List.range m.number_of_halfedges)
    0 (fun it hit => hbody it (List.mem_range.1 hit))
    ⟨m.next h, List.mem_range.2 hn0, hfail⟩
  obtain ⟨k2, hk2⟩ := vertex_loop_false (m.set_next_only h g) (List.range m.number_of_vertices)
    0 (fun it hit => by rw [c1]; have := List.mem_range.1 hit; omega)
  unfold is_valid
  simp only [halfedges, vertices, r1, r2, r3, hg, index_range_no_garbage, hk1, hk2,
    Option.some_bind, Bool.false_and]

/-- C6 on the mesh whose two halfedges follow each other: the halfedge 0 is made its
own successor. -/
theorem is_valid_detects_next_witness :
    example_closed_edge.has_garbage = false ∧ example_closed_edge.is_valid = some true ∧
      0 < example_closed_edge.number_of_halfedges ∧ 0 ≠ example_closed_edge.next 0 ∧
      (example_closed_edge.set_next_only 0 0).is_valid = some false :=
  ⟨by decide, by decide, by decide, by decide,
    is_valid_detects_next example_closed_edge 0 0 (by decide) (by decide) (by decide) (by decide)
      (by decide)⟩

/-! ### Joining two meshes -/

/-- A loop that rewrites one slot per pass rewrites exactly the slots it visits. -/
theorem foldl_pointwise {M : Type 1} {R : Type} (step : M → Nat → M) (rd : M → Nat → R) (g : R → R)
    (cap : M → Nat)
    (hstep : ∀ m i u, rd (step m i) u = if i = u ∧ i < cap m then g (rd m i) else rd m u)
    (hcap : ∀ m i, cap (step m i) = cap m) :
    ∀ (l : List Nat), l.Nodup → ∀ m u,
      rd (l.foldl step m) u = if u ∈ l ∧ u < cap m then g (rd m u) else rd m u := by
  intro l
  induction l with
  | nil => intro _ m u; simp
  | cons i l ih =>
    intro hnd m u
    obtain ⟨hi, hl⟩ := List.nodup_cons.1 hnd
    rw [List.foldl_cons, ih hl (step m i) u, hstep, hcap]
    by_cases hu : u ∈ l
    · have hne : i ≠ u := fun e => hi (e ▸ hu)
      simp [hu, hne]
    · by_cases e : i = u
      · subst e
        simp [hu]
      · have e2 : u ≠ i := fun e3 => e e3.symm
        simp [hu, e, e2]

/-- A loop whose passes preserve a quantity preserves it. -/
theorem foldl_preserves {M : Type 1} {Q : Type _} (step : M → Nat → M) (q : M → Q)
    (hstep : ∀ m i, q (step m i) = q m) : ∀ (l : List Nat) m, q (l.foldl step m) = q m := by
  intro l
  induction l with
  | nil => intro m; rfl
  | cons i l ih => intro m; rw [List.foldl_cons, ih, hstep]

theorem hconn_ite (c : Prop) [Decidable c] (a b : Surface_mesh P) (u : Nat) :
    (if c then a else b).hconn_ u = if c then a.hconn_ u else b.hconn_ u := by
  split_ifs <;> rfl

theorem capacity_ite (c : Prop) [Decidable c] (a b : Surface_mesh P) :
    (if c then a else b).hprops_.capacity =
      if c then a.hprops_.capacity else b.hprops_.capacity := by
  split_ifs <;> rfl

theorem join_halfedge_hconn (nv nh nf : Nat) (m : Surface_mesh P) (i u : Nat) :
    (join_halfedge nv nh nf m i).hconn_ u =
      if i = u ∧ i < m.hprops_.capacity then translate_record nv nh nf (m.hconn_ i)
      else m.hconn_ u := by
  simp only [join_halfedge, face, target, next, prev, set_face, set_target, set_next_only,
    null_face, null_vertex, null_halfedge, hconn_ite, hconn_set_hconn, capacity_ite,
    capacity_set_hconn, ite_self, translate_record, translate]
  by_cases hi : i < m.hprops_.capacity
  · by_cases hu : i = u
    · subst hu
      simp only [hi, and_self, if_true]
      generalize m.hconn_ i = r
      obtain ⟨f, v, n, p⟩ := r
      simp only
      by_cases c1 : f = size_type_max <;> by_cases c2 : v = size_type_max <;>
        by_cases c3 : n = size_type_max <;> by_cases c4 : p = size_type_max <;>
        simp [c1, c2, c3, c4]
    · simp [hu]
  · simp [hi]

theorem join_halfedge_frame (nv nh nf : Nat) (m : Surface_mesh P) (i : Nat) :
    (join_halfedge nv nh nf m i).vprops_ = m.vprops_ ∧
      (join_halfedge nv nh nf m i).fprops_ = m.fprops_ ∧
      (join_halfedge nv nh nf m i).eprops_ = m.eprops_ ∧
      (join_halfedge nv nh nf m i).hprops_.capacity = m.hprops_.capacity ∧
      (join_halfedge nv nh nf m i).hprops_.freelist = m.hprops_.freelist := by
  simp only [join_halfedge, set_face, set_target, set_next_only]
  split_ifs <;>
    simp [set_hconn, Property_container.capacity_set, Property_container.freelist_set]

theorem halfedge_set_halfedge [Inhabited P] (m : Surface_mesh P) (v h u : Nat) :
    (m.set_halfedge v h).halfedge u =
      if v = u ∧ v < m.vprops_.capacity then h else m.halfedge u := by
  simp only [halfedge, set_halfedge, vconn_, set_vconn, Property_container.get_set]
  split_ifs <;> rfl

theorem join_vertex_halfedge [Inhabited P] (nh : Nat) (m : Surface_mesh P) (i u : Nat) :
    (join_vertex nh m i).halfedge u =
      if i = u ∧ i < m.vprops_.capacity then translate (m.halfedge i) nh else m.halfedge u := by
  unfold join_vertex translate null_halfedge
  by_cases c : m.halfedge i = size_type_max
  · simp only [c, bne_self_eq_false, Bool.false_eq_true, if_false]
    split_ifs with e
    · rw [← e.1, c]
    · rfl
  · have cb : (m.halfedge i != size_type_max) = true := by simpa using c
    simp only [cb, if_true, halfedge_set_halfedge]

theorem join_vertex_frame [Inhabited P] (nh : Nat) (m : Surface_mesh P) (i : Nat) :
    (join_vertex nh m i).hprops_ = m.hprops_ ∧ (join_vertex nh m i).fprops_ = m.fprops_ ∧
      (join_vertex nh m i).eprops_ = m.eprops_ ∧
      (join_vertex nh m i).vprops_.capacity = m.vprops_.capacity ∧
      (join_vertex nh m i).vprops_.freelist = m.vprops_.freelist := by
  unfold join_vertex
  split_ifs <;>
    simp [set_halfedge, set_vconn, Property_container.capacity_set,
      Property_container.freelist_set]

theorem face_halfedge_set_face_halfedge (m : Surface_mesh P) (f h u : Nat) :
    (m.set_face_halfedge f h).face_halfedge u =
      if f = u ∧ f < m.fprops_.capacity then h else m.face_halfedge u := by
  simp only [face_halfedge, set_face_halfedge, fconn_, set_fconn, Property_container.get_set]
  split_ifs <;> rfl

theorem join_face_halfedge (nh : Nat) (m : Surface_mesh P) (i u : Nat) :
    (join_face nh m i).face_halfedge u =
      if i = u ∧ i < m.fprops_.capacity then translate (m.face_halfedge i) nh
      else m.face_halfedge u := by
  unfold join_face translate null_halfedge
  by_cases c : m.face_halfedge i = size_type_max
  · simp only [c, bne_self_eq_false, Bool.false_eq_true, if_false]
    split_ifs with e
    · rw [← e.1, c]
    · rfl
  · have cb : (m.face_halfedge i != size_type_max) = true := by simpa using c
    simp only [cb, if_true, face_halfedge_set_face_halfedge]

theorem join_face_frame (nh : Nat) (m : Surface_mesh P) (i : Nat) :
    (join_face nh m i).hprops_ = m.hprops_ ∧ (join_face nh m i).vprops_ = m.vprops_ ∧
      (join_face nh m i).eprops_ = m.eprops_ ∧
      (join_face nh m i).fprops_.capacity = m.fprops_.capacity ∧
      (join_face nh m i).fprops_.freelist = m.fprops_.freelist := by
  unfold join_face
  split_ifs <;>
    simp [set_face_halfedge, set_fconn, Property_container.capacity_set,
      Property_container.freelist_set]

theorem loop_indices_of_lt (first count : Nat) (h : first + count < size_type_range) :
    loop_indices first count = List.range' first count := by
  unfold loop_indices
  rw [Nat.mod_eq_of_lt h, Nat.add_sub_cancel_left]

theorem translate_of_lt (x n : Nat) (hx : x ≠ size_type_max) (h : x + n < size_type_range) :
    translate x n = x + n := by
  have hb : (x != size_type_max) = true := by simpa using hx
  simp only [translate, hb, if_true]
  exact Nat.mod_eq_of_lt h

theorem translate_null (n : Nat) : translate size_type_max n = size_type_max := by
  simp [translate]

/-- Without garbage the free-lists of a well-formed mesh are empty. -/
theorem no_garbage_freelists (m : Surface_mesh P) (hw : m.well_formed)
    (hg : m.has_garbage = false) :
    m.vprops_.freelist = [] ∧ m.hprops_.freelist = [] ∧ m.eprops_.freelist = [] ∧
      m.fprops_.freelist = [] := by
  obtain ⟨s1, s2, s3, s4⟩ := no_garbage_sizes m hg
  obtain ⟨w1, w2, w3, w4⟩ := hw
  exact ⟨Property_container.freelist_nil_of_full _ w1 s1,
    Property_container.freelist_nil_of_full _ w2 s2,
    Property_container.freelist_nil_of_full _ w3 s3,
    Property_container.freelist_nil_of_full _ w4 s4⟩

/-- The mesh that `join` has after appending the containers, before the three loops. -/
theorem join_eq [Inhabited P] (A B : Surface_mesh P) :
    A.join B =
      (loop_indices A.number_of_halfedges B.number_of_halfedges).foldl
        (join_halfedge A.number_of_vertices A.number_of_halfedges A.number_of_faces)
        ((loop_indices A.number_of_faces B.number_of_faces).foldl
          (join_face A.number_of_halfedges)
          ((loop_indices A.number_of_vertices B.number_of_vertices).foldl
            (join_vertex A.number_of_halfedges)
            { A with
                vprops_ := A.vprops_.append B.vprops_,
                hprops_ := A.hprops_.append B.hprops_,
                fprops_ := A.fprops_.append B.fprops_,
                eprops_ := A.eprops_.append B.eprops_ })) := rfl

/-- The mesh after `join`, for well-formed meshes without removed elements whose
joint sizes fit in 32 bits: the counts, the translated records of the appended part,
and the part of `A`, which is as before. -/
theorem join_structure [Inhabited P] (A B : Surface_mesh P)
    (hwA : A.well_formed) (hgA : A.has_garbage = false)
    (hwB : B.well_formed) (hgB : B.has_garbage = false)
    (hv : A.number_of_vertices + B.number_of_vertices < size_type_range)
    (hh : A.number_of_halfedges + B.number_of_halfedges < size_type_range)
    (hf : A.number_of_faces + B.number_of_faces < size_type_range) :
    ((A.join B).number_of_vertices = A.number_of_vertices + B.number_of_vertices ∧
     (A.join B).number_of_halfedges = A.number_of_halfedges + B.number_of_halfedges ∧
     (A.join B).number_of_faces = A.number_of_faces + B.number_of_faces ∧
     (∀ h, h < B.number_of_halfedges →
       (A.join B).target (h + A.number_of_halfedges) =
           translate (B.target h) A.number_of_vertices ∧
         (A.join B).next (h + A.number_of_halfedges) =
           translate (B.next h) A.number_of_halfedges ∧
         (A.join B).prev (h + A.number_of_halfedges) =
           translate (B.prev h) A.number_of_halfedges ∧
         (A.join B).face (h + A.number_of_halfedges) =
           translate (B.face h) A.number_of_faces) ∧
     (∀ v, v < B.number_of_vertices →
       (A.join B).halfedge (v + A.number_of_vertices) =
         translate (B.halfedge v) A.number_of_halfedges) ∧
     (∀ f, f < B.number_of_faces →
       (A.join B).face_halfedge (f + A.number_of_faces) =
         translate (B.face_halfedge f) A.number_of_halfedges) ∧
     (∀ x n, x ≠ size_type_max → x + n < size_type_range → translate x n = x + n) ∧
     (∀ n, translate size_type_max n = size_type_max)) ∧
    ((A.join B).has_garbage = false ∧
      (A.join B).hprops_.capacity = A.number_of_halfedges + B.number_of_halfedges ∧
      (A.join B).vprops_.capacity = A.number_of_vertices + B.number_of_vertices ∧
      (∀ h, h < A.number_of_halfedges → (A.join B).hconn_ h = A.hconn_ h) ∧
      (∀ v, v < A.number_of_vertices → (A.join B).halfedge v = A.halfedge v)) := by
  obtain ⟨av, ah, _, af⟩ := no_garbage_sizes A hgA
  obtain ⟨bv, bh, _, bf⟩ := no_garbage_sizes B hgB
  obtain ⟨fa1, fa2, _, fa4⟩ := no_garbage_freelists A hwA hgA
  obtain ⟨fb1, fb2, _, fb4⟩ := no_garbage_freelists B hwB hgB
  rw [join_eq, loop_indices_of_lt _ _ hv, loop_indices_of_lt _ _ hh, loop_indices_of_lt _ _ hf]
  generalize hm0 : ({ A with
      vprops_ := A.vprops_.append B.vprops_,
      hprops_ := A.hprops_.append B.hprops_,
      fprops_ := A.fprops_.append B.fprops_,
      eprops_ := A.eprops_.append B.eprops_ } : Surface_mesh P) = m0
  have v0 : m0.vprops_ = A.vprops_.append B.vprops_ := by rw [← hm0]
  have h0 : m0.hprops_ = A.hprops_.append B.hprops_ := by rw [← hm0]
  have f0 : m0.fprops_ = A.fprops_.append B.fprops_ := by rw [← hm0]
  generalize hm1 : (List.range' A.number_of_vertices B.number_of_vertices).foldl
    (join_vertex A.number_of_halfedges) m0 = m1
  generalize hm2 : (List.range' A.number_of_faces B.number_of_faces).foldl
    (join_face A.number_of_halfedges) m1 = m2
  generalize hm3 : (List.range' A.number_of_halfedges B.number_of_halfedges).foldl
    (join_halfedge A.number_of_vertices A.number_of_halfedges A.number_of_faces) m2 = m3
  -- the first loop
  have v1c : m1.vprops_.capacity = m0.vprops_.capacity := by
    rw [← hm1]
    exact foldl_preserves (join_vertex A.number_of_halfedges)
      (fun m : Surface_mesh P => m.vprops_.capacity)
      (fun m i => (join_vertex_frame _ m i).2.2.2.1) _ _
  have v1f : m1.vprops_.freelist = m0.vprops_.freelist := by
    rw [← hm1]
    exact foldl_preserves (join_vertex A.number_of_halfedges)
      (fun m : Surface_mesh P => m.vprops_.freelist)
      (fun m i => (join_vertex_frame _ m i).2.2.2.2) _ _
  have h1 : m1.hprops_ = m0.hprops_ := by
    rw [← hm1]
    exact foldl_preserves (join_vertex A.number_of_halfedges)
      (fun m : Surface_mesh P => m.hprops_) (fun m i => (join_vertex_frame _ m i).1) _ _
  have f1 : m1.fprops_ = m0.fprops_ := by
    rw [← hm1]
    exact foldl_preserves (join_vertex A.number_of_halfedges)
      (fun m : Surface_mesh P => m.fprops_) (fun m i => (join_vertex_frame _ m i).2.1) _ _
  have v1p : ∀ u, m1.halfedge u =
      if u ∈ List.range' A.number_of_vertices B.number_of_vertices ∧ u < m0.vprops_.capacity
      then translate (m0.halfedge u) A.number_of_halfedges else m0.halfedge u := by
    intro u
    rw [← hm1]
    exact foldl_pointwise (join_vertex A.number_of_halfedges) (fun m u => m.halfedge u)
      (fun x => translate x A.number_of_halfedges) (fun m => m.vprops_.capacity)
      (fun m i u => join_vertex_halfedge _ m i u)
      (fun m i => (join_vertex_frame _ m i).2.2.2.1) _ (List.nodup_range' _ _) m0 u
  -- the second loop
  have v2 : m2.vprops_ = m1.vprops_ := by
    rw [← hm2]
    exact foldl_preserves (join_face A.number_of_halfedges)
      (fun m : Surface_mesh P => m.vprops_) (fun m i => (join_face_frame _ m i).2.1) _ _
  have h2 : m2.hprops_ = m1.hprops_ := by
    rw [← hm2]
    exact foldl_preserves (join_face A.number_of_halfedges)
      (fun m : Surface_mesh P => m.hprops_) (fun m i => (join_face_frame _ m i).1) _ _
  have f2c : m2.fprops_.capacity = m1.fprops_.capacity := by
    rw [← hm2]
    exact foldl_preserves (join_face A.number_of_halfedges)
      (fun m : Surface_mesh P => m.fprops_.capacity)
      (fun m i => (join_face_frame _ m i).2.2.2.1) _ _
  have f2f : m2.fprops_.freelist = m1.fprops_.freelist := by
    rw [← hm2]
    exact foldl_preserves (join_face A.number_of_halfedges)
      (fun m : Surface_mesh P => m.fprops_.freelist)
      (fun m i => (join_face_frame _ m i).2.2.2.2) _ _
  have f2p : ∀ u, m2.face_halfedge u =
      if u ∈ List.range' A.number_of_faces B.number_of_faces ∧ u < m1.fprops_.capacity
      then translate (m1.face_halfedge u) A.number_of_halfedges else m1.face_halfedge u := by
    intro u
    rw [← hm2]
    exact foldl_pointwise (join_face A.number_of_halfedges) (fun m u => m.face_halfedge u)
      (fun x => translate x A.number_of_halfedges) (fun m => m.fprops_.capacity)
      (fun m i u => join_face_halfedge _ m i u)
      (fun m i => (join_face_frame _ m i).2.2.2.1) _ (List.nodup_range' _ _) m1 u
  -- the third loop
  have v3 : m3.vprops_ = m2.vprops_ := by
    rw [← hm3]
    exact foldl_preserves (join_halfedge A.number_of_vertices A.number_of_halfedges A.number_of_faces)
      (fun m : Surface_mesh P => m.vprops_)
      (fun m i => (join_halfedge_frame _ _ _ m i).1) _ _
  have f3 : m3.fprops_ = m2.fprops_ := by
    rw [← hm3]
    exact foldl_preserves (join_halfedge A.number_of_vertices A.number_of_halfedges A.number_of_faces)
      (fun m : Surface_mesh P => m.fprops_)
      (fun m i => (join_halfedge_frame _ _ _ m i).2.1) _ _
  have h3c : m3.hprops_.capacity = m2.hprops_.capacity := by
    rw [← hm3]
    exact foldl_preserves (join_halfedge A.number_of_vertices A.number_of_halfedges A.number_of_faces)
      (fun m : Surface_mesh P => m.hprops_.capacity)
      (fun m i => (join_halfedge_frame _ _ _ m i).2.2.2.1) _ _
  have h3f : m3.hprops_.freelist = m2.hprops_.freelist := by
    rw [← hm3]
    exact foldl_preserves (join_halfedge A.number_of_vertices A.number_of_halfedges A.number_of_faces)
      (fun m : Surface_mesh P => m.hprops_.freelist)
      (fun m i => (join_halfedge_frame _ _ _ m i).2.2.2.2) _ _
  have h3p : ∀ u, m3.hconn_ u =
      if u ∈ List.range' A.number_of_halfedges B.number_of_halfedges ∧ u < m2.hprops_.capacity
      then translate_record A.number_of_vertices A.number_of_halfedges A.number_of_faces
        (m2.hconn_ u)
      else m2.hconn_ u := by
    intro u
    rw [← hm3]
    exact foldl_pointwise
      (join_halfedge A.number_of_vertices A.number_of_halfedges A.number_of_faces)
      (fun m u => m.hconn_ u)
      (translate_record A.number_of_vertices A.number_of_halfedges A.number_of_faces)
      (fun m => m.hprops_.capacity)
      (fun m i u => join_halfedge_hconn _ _ _ m i u)
      (fun m i => (join_halfedge_frame _ _ _ m i).2.2.2.1) _ (List.nodup_range' _ _) m2 u
  refine ⟨⟨?_, ?_, ?_, ?_, ?_, ?_, translate_of_lt, translate_null⟩, ?_⟩
  · rw [number_of_vertices, Property_container.size_of_freelist_nil _
      (by rw [v3, v2, v1f, v0]; exact Property_container.freelist_append_nil _ _ fa1 fb1),
      v3, v2, v1c, v0, Property_container.capacity_append, ← av, ← bv]
  · rw [number_of_halfedges, Property_container.size_of_freelist_nil _
      (by rw [h3f, h2, h1, h0]; exact Property_container.freelist_append_nil _ _ fa2 fb2),
      h3c, h2, h1, h0, Property_container.capacity_append, ← ah, ← bh]
  · rw [number_of_faces, Property_container.size_of_freelist_nil _
      (by rw [f3, f2f, f1, f0]; exact Property_container.freelist_append_nil _ _ fa4 fb4),
      f3, f2c, f1, f0, Property_container.capacity_append, ← af, ← bf]
  · intro h hlt
    have hmem : h + A.number_of_halfedges ∈
        List.range' A.number_of_halfedges B.number_of_halfedges ∧
        h + A.number_of_halfedges < m2.hprops_.capacity := by
      rw [h2, h1, h0, Property_container.capacity_append, List.mem_range'_1]
      omega
    have hrec : m3.hconn_ (h + A.number_of_halfedges) =
        translate_record A.number_of_vertices A.number_of_halfedges A.number_of_faces
          (B.hconn_ h) := by
      rw [h3p, if_pos hmem]
      congr 1
      simp only [hconn_, h2, h1, h0]
      rw [ah]
      exact Property_container.get_append_right _ _ _
    simp only [target, next, prev, face, hrec, translate_record, and_self]
  · intro v hlt
    have hmem : v + A.number_of_vertices ∈
        List.range' A.number_of_vertices B.number_of_vertices ∧
        v + A.number_of_vertices < m0.vprops_.capacity := by
      rw [v0, Property_container.capacity_append, List.mem_range'_1]
      omega
    have e1 : m3.halfedge (v + A.number_of_vertices) = m1.halfedge (v + A.number_of_vertices) := by
      simp only [halfedge, vconn_, v3, v2]
    rw [e1, v1p, if_pos hmem]
    congr 1
    simp only [halfedge, vconn_, v0]
    rw [av, Property_container.get_append_right]
  · intro f hlt
    have hmem : f + A.number_of_faces ∈ List.range' A.number_of_faces B.number_of_faces ∧
        f + A.number_of_faces < m1.fprops_.capacity := by
      rw [f1, f0, Property_container.capacity_append, List.mem_range'_1]
      omega
    have e1 : m3.face_halfedge (f + A.number_of_faces) =
        m2.face_halfedge (f + A.number_of_faces) := by
      simp only [face_halfedge, fconn_, f3]
    rw [e1, f2p, if_pos hmem]
    congr 1
    simp only [face_halfedge, fconn_, f1, f0]
    rw [af, Property_container.get_append_right]
  · obtain ⟨_, _, ae, _⟩ := no_garbage_sizes A hgA
    obtain ⟨_, _, be, _⟩ := no_garbage_sizes B hgB
    obtain ⟨_, _, fa3, _⟩ := no_garbage_freelists A hwA hgA
    obtain ⟨_, _, fb3, _⟩ := no_garbage_freelists B hwB hgB
    have e0 : m0.eprops_ = A.eprops_.append B.eprops_ := by rw [← hm0]
    have e1 : m1.eprops_ = m0.eprops_ := by
      rw [← hm1]
      exact foldl_preserves (join_vertex A.number_of_halfedges)
        (fun m : Surface_mesh P => m.eprops_) (fun m i => (join_vertex_frame _ m i).2.2.1) _ _
    have e2 : m2.eprops_ = m1.eprops_ := by
      rw [← hm2]
      exact foldl_preserves (join_face A.number_of_halfedges)
        (fun m : Surface_mesh P => m.eprops_) (fun m i => (join_face_frame _ m i).2.2.1) _ _
    have e3 : m3.eprops_ = m2.eprops_ := by
      rw [← hm3]
      exact foldl_preserves
        (join_halfedge A.number_of_vertices A.number_of_halfedges A.number_of_faces)
        (fun m : Surface_mesh P => m.eprops_)
        (fun m i => (join_halfedge_frame _ _ _ m i).2.2.1) _ _
    have sv : m3.vprops_.size = m3.vprops_.capacity :=
      Property_container.size_of_freelist_nil _
        (by rw [v3, v2, v1f, v0]; exact Property_container.freelist_append_nil _ _ fa1 fb1)
    have sh : m3.hprops_.size = m3.hprops_.capacity :=
      Property_container.size_of_freelist_nil _
        (by rw [h3f, h2, h1, h0]; exact Property_container.freelist_append_nil _ _ fa2 fb2)
    have sf : m3.fprops_.size = m3.fprops_.capacity :=
      Property_container.size_of_freelist_nil _
        (by rw [f3, f2f, f1, f0]; exact Property_container.freelist_append_nil _ _ fa4 fb4)
    have se : m3.eprops_.size = m3.eprops_.capacity :=
      Property_container.size_of_freelist_nil _
        (by rw [e3, e2, e1, e0]; exact Property_container.freelist_append_nil _ _ fa3 fb3)
    refine ⟨?_, ?_, ?_, ?_, ?_⟩
    · simp [has_garbage, number_of_removed_vertices, number_of_removed_edges,
        number_of_removed_halfedges, number_of_removed_faces, sv, sh, sf, se]
    · rw [h3c, h2, h1, h0, Property_container.capacity_append, ← ah, ← bh]
    · rw [v3, v2, v1c, v0, Property_container.capacity_append, ← av, ← bv]
    · intro h hlt
      rw [h3p, if_neg (by rw [List.mem_range'_1]; omega)]
      simp only [hconn_, h2, h1, h0]
      exact Property_container.get_append_left _ _ _ (by omega)
    · intro v hlt
      have e1 : m3.halfedge v = m1.halfedge v := by
        simp only [halfedge, vconn_, v3, v2]
      rw [e1, v1p, if_neg (by rw [List.mem_range'_1]; omega)]
      simp only [halfedge, vconn_, v0]
      rw [Property_container.get_append_left _ _ _ (by omega)]

/-- C7: for well-formed meshes `A` and `B` without removed elements whose joint
sizes fit in 32 bits, with `nv`, `nh`, `nf` the counts of `A` before the call:
after `A.join(B)` the counts are the sums, the record at `h + nh` holds the target,
next, previous halfedge and face of `h` in `B` translated by `nv`, `nh`, `nh` and
`nf`, the vertex `v + nv` and the face `f + nf` hold the halfedges of `v` and `f`
in `B` translated by `nh`; a translated reference is the 32-bit sum, and a null
reference stays null. -/
theorem join_offsets [Inhabited P] (A B : Surface_mesh P)
    (hwA : A.well_formed) (hgA : A.has_garbage = false)
    (hwB : B.well_formed) (hgB : B.has_garbage = false)
    (hv : A.number_of_vertices + B.number_of_vertices < size_type_range)
    (hh : A.number_of_halfedges + B.number_of_halfedges < size_type_range)
    (hf : A.number_of_faces + B.number_of_faces < size_type_range) :
    (A.join B).number_of_vertices = A.number_of_vertices + B.number_of_vertices ∧
    (A.join B).number_of_halfedges = A.number_of_halfedges + B.number_of_halfedges ∧
    (A.join B).number_of_faces = A.number_of_faces + B.number_of_faces ∧
    (∀ h, h < B.number_of_halfedges →
      (A.join B).target (h + A.number_of_halfedges) =
          translate (B.target h) A.number_of_vertices ∧
        (A.join B).next (h + A.number_of_halfedges) =
          translate (B.next h) A.number_of_halfedges ∧
        (A.join B).prev (h + A.number_of_halfedges) =
          translate (B.prev h) A.number_of_halfedges ∧
        (A.join B).face (h + A.number_of_halfedges) =
          translate (B.face h) A.number_of_faces) ∧
    (∀ v, v < B.number_of_vertices →
      (A.join B).halfedge (v + A.number_of_vertices) =
        translate (B.halfedge v) A.number_of_halfedges) ∧
    (∀ f, f < B.number_of_faces →
      (A.join B).face_halfedge (f + A.number_of_faces) =
        translate (B.face_halfedge f) A.number_of_halfedges) ∧
    (∀ x n, x ≠ size_type_max → x + n < size_type_range → translate x n = x + n) ∧
    (∀ n, translate size_type_max n = size_type_max) :=
  (join_structure A B hwA hgA hwB hgB hv hh hf).1

/-- C7 on two copies of the mesh whose two halfedges follow each other. -/
theorem join_offsets_witness :
    example_closed_edge.well_formed ∧ example_closed_edge.has_garbage = false ∧
      example_closed_edge.number_of_vertices + example_closed_edge.number_of_vertices
        < size_type_range ∧
      (example_closed_edge.join example_closed_edge).number_of_vertices =
        example_closed_edge.number_of_vertices + example_closed_edge.number_of_vertices :=
  ⟨by decide, by decide, by decide,
    (join_offsets example_closed_edge example_closed_edge (by decide) (by decide) (by decide)
      (by decide) (by decide) (by decide) (by decide)).1⟩

/-- C8: `join` on a mesh with a removed vertex.  The mesh `example_removed_vertex`
has two used vertices and one removed vertex, so the vertices of the other mesh are
appended at the indices 3 and 4; the halfedge 1 of the other mesh, whose target is
its vertex 0, is appended at index 3 with target 2, the removed vertex, and not the
appended copy 3; the appended vertex 4 keeps the untranslated halfedge 0. -/
theorem join_with_removed_vertex :
    example_removed_vertex.number_of_vertices = 2 ∧
      example_removed_vertex.number_of_removed_vertices = 1 ∧
      example_removed_vertex.number_of_halfedges = 2 ∧
      example_closed_edge.target 1 = 0 ∧ example_closed_edge.halfedge 1 = 0 ∧
      (example_removed_vertex.join example_closed_edge).target (1 + 2) = 2 ∧
      (example_removed_vertex.join example_closed_edge).is_removed_vertex 2 = true ∧
      (example_removed_vertex.join example_closed_edge).halfedge (1 + 3) = 0 := by
  decide

/-! ### Removing and recycling -/

/-- C9, as stated, fails when the free-list is consumed first-in-first-out and
another vertex is already removed: after `remove_vertex(1)` on the live vertex 1,
`add_vertex()` with recycling enabled returns the vertex 0. -/
theorem remove_add_vertex_fifo :
    example_fifo.recycle_ = true ∧ example_fifo.is_removed_vertex 1 = false ∧
      example_fifo.is_removed_vertex 0 = true ∧ 1 < example_fifo.vprops_.capacity ∧
      ((example_fifo.remove_vertex 1).add_vertex).2 = 0 ∧
      ((example_fifo.remove_vertex 1).add_vertex).2 ≠ 1 := by
  decide

/-- C9, amended: with recycling enabled, `remove_vertex(v)` followed by `add_vertex()`
returns `v` when no other vertex is marked removed, or when the free-list is
consumed last-in-first-out; with recycling disabled the same sequence returns the
number of vertex slots allocated before the call, which is different from `v`. -/
theorem remove_add_vertex [Inhabited P] (m : Surface_mesh P) (v : Nat)
    (hv : v < m.vprops_.capacity) :
    (m.vprops_.lifo = true ∨ m.vprops_.freelist = [] →
      (((m.set_recycle_garbage true).remove_vertex v).add_vertex).2 = v) ∧
    (((m.set_recycle_garbage false).remove_vertex v).add_vertex).2 = m.vprops_.capacity ∧
    (((m.set_recycle_garbage false).remove_vertex v).add_vertex).2 ≠ v := by
  refine ⟨?_, ?_, ?_⟩
  · intro h
    simp only [add_vertex, remove_vertex, set_recycle_garbage, if_true,
      Property_container.emplace, Property_container.erase, Property_container.next_free]
    rcases h with h | h
    · simp [h]
    · cases hl : m.vprops_.lifo <;> simp [h]
  · simp [add_vertex, remove_vertex, set_recycle_garbage, Property_container.emplace_back,
      Property_container.erase, Property_container.capacity]
  · simp only [add_vertex, remove_vertex, set_recycle_garbage, Bool.false_eq_true, if_false,
      Property_container.emplace_back, Property_container.erase, Property_container.capacity]
    unfold Property_container.capacity at hv
    omega

/-- C9, amended, on the mesh with one edge: the vertex 1 is removed and added again. -/
theorem remove_add_vertex_witness :
    1 < example_edge.vprops_.capacity ∧
      (example_edge.vprops_.lifo = true ∨ example_edge.vprops_.freelist = []) ∧
      (((example_edge.set_recycle_garbage true).remove_vertex 1).add_vertex).2 = 1 ∧
      (((example_edge.set_recycle_garbage false).remove_vertex 1).add_vertex).2 = 2 :=
  ⟨by decide, by decide, (remove_add_vertex example_edge 1 (by decide)).1 (by decide),
    (remove_add_vertex example_edge 1 (by decide)).2.1⟩

/-- C10: `remove_vertex(v)`, `remove_edge(e)` and `remove_face(f)` mark the given
element removed and nothing else: the target, face, next and previous halfedge of
every halfedge, the halfedge of every vertex and of every face read the same after
the call, the stale record of the removed element included, and no other vertex,
halfedge, edge or face changes its removal mark. -/
theorem remove_frame [Inhabited P] (m : Surface_mesh P) (v f : Nat) (e : SM_Edge_index) :
    (same_connectivity m (m.remove_vertex v) ∧
      (m.remove_vertex v).is_removed_vertex v = true ∧
      (∀ u, u ≠ v → (m.remove_vertex v).is_removed_vertex u = m.is_removed_vertex u) ∧
      (∀ h, (m.remove_vertex v).is_removed_halfedge h = m.is_removed_halfedge h) ∧
      (∀ d, (m.remove_vertex v).is_removed_edge d = m.is_removed_edge d) ∧
      (∀ g, (m.remove_vertex v).is_removed_face g = m.is_removed_face g)) ∧
    (same_connectivity m (m.remove_edge e) ∧
      (m.remove_edge e).is_removed_edge e = true ∧
      (∀ d : SM_Edge_index, d.idx ≠ e.idx →
        (m.remove_edge e).is_removed_edge d = m.is_removed_edge d) ∧
      (∀ u, (m.remove_edge e).is_removed_vertex u = m.is_removed_vertex u) ∧
      (∀ h, (m.remove_edge e).is_removed_halfedge h = m.is_removed_halfedge h) ∧
      (∀ g, (m.remove_edge e).is_removed_face g = m.is_removed_face g)) ∧
    (same_connectivity m (m.remove_face f) ∧
      (m.remove_face f).is_removed_face f = true ∧
      (∀ g, g ≠ f → (m.remove_face f).is_removed_face g = m.is_removed_face g) ∧
      (∀ u, (m.remove_face f).is_removed_vertex u = m.is_removed_vertex u) ∧
      (∀ h, (m.remove_face f).is_removed_halfedge h = m.is_removed_halfedge h) ∧
      (∀ d, (m.remove_face f).is_removed_edge d = m.is_removed_edge d)) := by
  refine ⟨⟨⟨fun _ => ⟨rfl, rfl, rfl, rfl⟩, fun _ => rfl, fun _ => rfl⟩, ?_, ?_,
      fun _ => rfl, fun _ => rfl, fun _ => rfl⟩,
    ⟨⟨fun _ => ⟨rfl, rfl, rfl, rfl⟩, fun _ => rfl, fun _ => rfl⟩, ?_, ?_,
      fun _ => rfl, fun _ => rfl, fun _ => rfl⟩,
    ⟨⟨fun _ => ⟨rfl, rfl, rfl, rfl⟩, fun _ => rfl, fun _ => rfl⟩, ?_, ?_,
      fun _ => rfl, fun _ => rfl, fun _ => rfl⟩⟩
  · simp [remove_vertex, is_removed_vertex, Property_container.erase,
      Property_container.is_erased]
  · intro u hu
    simp [remove_vertex, is_removed_vertex, Property_container.erase,
      Property_container.is_erased, hu]
  · simp [remove_edge, is_removed_edge, Property_container.erase, Property_container.is_erased]
  · intro d hd
    simp [remove_edge, is_removed_edge, Property_container.erase,
      Property_container.is_erased, hd]
  · simp [remove_face, is_removed_face, Property_container.erase, Property_container.is_erased]
  · intro g hg
    simp [remove_face, is_removed_face, Property_container.erase,
      Property_container.is_erased, hg]

/-! ### Removal marks, counts and ranges of a mesh with removed elements -/

/-- C11: `remove_edge` on the live edge 0 of the mesh with one edge.  The edge is
marked removed, but its two halfedges 0 and 1 are not, and
`number_of_removed_halfedges()` stays 0. -/
theorem remove_edge_keeps_halfedges :
    example_closed_edge.is_removed_edge (SM_Edge_index.of_idx 0) = false ∧
      (example_closed_edge.remove_edge (SM_Edge_index.of_idx 0)).is_removed_edge
        (SM_Edge_index.of_idx 0) = true ∧
      edge_halfedge (SM_Edge_index.of_idx 0) 0 = some 0 ∧
      edge_halfedge (SM_Edge_index.of_idx 0) 1 = some 1 ∧
      (example_closed_edge.remove_edge (SM_Edge_index.of_idx 0)).is_removed_halfedge 0 = false ∧
      (example_closed_edge.remove_edge (SM_Edge_index.of_idx 0)).is_removed_halfedge 1 = false ∧
      (example_closed_edge.remove_edge (SM_Edge_index.of_idx 0)).number_of_removed_halfedges
        = 0 := by
  decide

/-- C12: the counts of the mesh with three vertex slots of which the vertex 2 is
removed.  `number_of_vertices()` is 2 and `number_of_removed_vertices()` is 1, but
`num_vertices()` is 2 and not their sum 3. -/
theorem num_vertices_with_removed_vertex :
    example_removed_vertex.vprops_.capacity = 3 ∧
      example_removed_vertex.is_removed_vertex 2 = true ∧
      example_removed_vertex.number_of_vertices = 2 ∧
      example_removed_vertex.number_of_removed_vertices = 1 ∧
      example_removed_vertex.num_vertices = 2 ∧
      example_removed_vertex.num_vertices ≠
        example_removed_vertex.number_of_vertices +
          example_removed_vertex.number_of_removed_vertices := by
  decide

/-- C13: `has_valid_index` after a removal.  The second `add_vertex()` on an empty
mesh returns the vertex 1, which has a valid index; after `remove_vertex(0)` the
vertex 1 is not removed, but `has_valid_index(1)` is false. -/
theorem has_valid_index_after_removal :
    (((new true : Surface_mesh Unit).add_vertex).1.add_vertex).2 = 1 ∧
      (((new true : Surface_mesh Unit).add_vertex).1.add_vertex).1.has_valid_index_vertex 1
        = true ∧
      example_first_removed.is_removed_vertex 1 = false ∧
      example_first_removed.number_of_vertices = 1 ∧
      example_first_removed.has_valid_index_vertex 1 = false := by
  decide

/-- C14: the range `vertices()` of the mesh with the vertices 0 and 1 of which the
vertex 0 is removed.  The vertex 1 is allocated and not removed, but the range is
empty. -/
theorem vertices_with_removed_vertex :
    example_first_removed.vprops_.capacity = 2 ∧
      example_first_removed.is_removed_vertex 0 = true ∧
      example_first_removed.is_removed_vertex 1 = false ∧
      example_first_removed.has_garbage = true ∧
      example_first_removed.vertices = [] := by
  decide

/-- C15: `collect_garbage()` on the mesh with three vertex slots of which the vertex 2
is removed.  After the call `has_garbage()` is still true and
`number_of_removed_vertices()` is still 1. -/
theorem collect_garbage_keeps_garbage :
    example_removed_vertex.has_garbage = true ∧
      example_removed_vertex.collect_garbage.has_garbage = true ∧
      example_removed_vertex.collect_garbage.number_of_removed_vertices = 1 ∧
      example_removed_vertex.collect_garbage.is_removed_vertex 2 = true := by
  decide

theorem reserve_zero_capacity {α : Type} [Inhabited α] (c : Property_container α) :
    (c.reserve 0).capacity = 0 := by
  unfold Property_container.reserve
  split_ifs with h
  · simp only [Property_container.capacity] at h ⊢
    simp only [List.length_append, List.length_replicate]
    omega
  · simp [Property_container.capacity]

/-- After `clear()` no container has a slot. -/
theorem clear_sizes [Inhabited P] (m : Surface_mesh P) :
    (m.clear.vprops_.capacity = 0 ∧ m.clear.hprops_.capacity = 0 ∧
      m.clear.eprops_.capacity = 0 ∧ m.clear.fprops_.capacity = 0) ∧
    (m.clear.vprops_.size = 0 ∧ m.clear.hprops_.size = 0 ∧
      m.clear.eprops_.size = 0 ∧ m.clear.fprops_.size = 0) := by
  have c1 : m.clear.vprops_.capacity = 0 := reserve_zero_capacity m.vprops_
  have c2 : m.clear.hprops_.capacity = 0 := reserve_zero_capacity m.hprops_
  have c3 : m.clear.eprops_.capacity = 0 := reserve_zero_capacity m.eprops_
  have c4 : m.clear.fprops_.capacity = 0 := reserve_zero_capacity m.fprops_
  have s1 := Property_container.size_le_capacity m.clear.vprops_
  have s2 := Property_container.size_le_capacity m.clear.hprops_
  have s3 := Property_container.size_le_capacity m.clear.eprops_
  have s4 := Property_container.size_le_capacity m.clear.fprops_
  exact ⟨⟨c1, c2, c3, c4⟩, by omega, by omega, by omega, by omega⟩

/-- C16: for every mesh, after `clear()` the mesh has no elements: `is_empty()` is
true, and `number_of_vertices()`, `number_of_halfedges()`, `number_of_edges()`,
`number_of_faces()` and every `number_of_removed_*()` are 0. -/
theorem clear_is_empty [Inhabited P] (m : Surface_mesh P) :
    m.clear.is_empty = true ∧
      m.clear.number_of_vertices = 0 ∧ m.clear.number_of_halfedges = 0 ∧
      m.clear.number_of_edges = 0 ∧ m.clear.number_of_faces = 0 ∧
      m.clear.number_of_removed_vertices = 0 ∧ m.clear.number_of_removed_halfedges = 0 ∧
      m.clear.number_of_removed_edges = 0 ∧ m.clear.number_of_removed_faces = 0 := by
  obtain ⟨⟨c1, c2, c3, c4⟩, s1, s2, s3, s4⟩ := clear_sizes m
  simp [is_empty, number_of_vertices, number_of_halfedges, number_of_edges, number_of_faces,
    number_of_removed_vertices, number_of_removed_halfedges, number_of_removed_edges,
    number_of_removed_faces, c1, c2, c3, c4, s1, s2, s3, s4]

/-! ### Property maps -/

theorem set_get_property_container (m : Surface_mesh P) (I : Index_type) :
    m.set_property_container I (m.get_property_container I) = m := by
  cases I <;> rfl

theorem get_set_property_container (m : Surface_mesh P) (I : Index_type)
    (c : Property_container (I.row P)) :
    (m.set_property_container I c).get_property_container I = c := by
  cases I <;> rfl

theorem reserve_names {α : Type} [Inhabited α] (c : Property_container α) (n : Nat) :
    (c.reserve n).names = c.names ∧
      ∀ a ∈ (c.reserve n).arrays, ∃ b ∈ c.arrays, a.name = b.name := by
  unfold Property_container.reserve
  split_ifs
  · refine ⟨rfl, ?_⟩
    intro a ha
    simp only [List.mem_map] at ha
    obtain ⟨b, hb, e⟩ := ha
    exact ⟨b, hb, by rw [← e]⟩
  · refine ⟨rfl, ?_⟩
    intro a ha
    simp only [List.mem_map] at ha
    obtain ⟨b, hb, e⟩ := ha
    exact ⟨b, hb, by rw [← e]⟩

theorem properties_remove_all_except {α : Type} (c : Property_container α) (keep : List String)
    (h1 : c.names = keep) (h2 : ∀ a ∈ c.arrays, a.name ∉ c.names) :
    (c.remove_all_properties_except keep).properties = keep := by
  have e1 : (c.names.filter fun n => decide (n ∈ keep)) = keep := by
    rw [h1, List.filter_eq_self]
    intro a ha
    simpa using ha
  have e2 : (c.arrays.filter fun a => decide (a.name ∈ keep)) = [] := by
    rw [List.filter_eq_nil_iff]
    intro a ha
    have := h2 a ha
    rw [h1] at this
    simpa using this
  simp [Property_container.properties, Property_container.remove_all_properties_except, e1, e2]

theorem get_or_add_property_names {α : Type} (c : Property_container α) (n : String)
    (d : Property_value) (h : ∀ a ∈ c.arrays, a.name ∉ c.names) :
    (c.get_or_add_property n d).1.names = c.names ∧
      ∀ a ∈ (c.get_or_add_property n d).1.arrays, a.name ∉ c.names := by
  unfold Property_container.get_or_add_property
  split_ifs with hmem
  · exact ⟨rfl, h⟩
  · refine ⟨rfl, ?_⟩
    intro a ha
    simp only [List.mem_append, List.mem_singleton] at ha
    rcases ha with ha | ha
    · exact h a ha
    · subst ha
      intro hc
      exact hmem (by simp [Property_container.properties, hc])

/-- The constructor establishes the invariant of the registered columns. -/
theorem has_mandatory_columns_new (lifo : Bool) :
    (new lifo : Surface_mesh P).has_mandatory_columns := by
  simp [has_mandatory_columns, new]

/-- Adding a property map keeps the invariant of the registered columns. -/
theorem has_mandatory_columns_add_property_map (m : Surface_mesh P) (I : Index_type)
    (n : String) (t : Property_value) (h : m.has_mandatory_columns) :
    (m.add_property_map I n t).1.has_mandatory_columns := by
  obtain ⟨⟨n1, n2, n3, n4⟩, a1, a2, a3⟩ := h
  unfold add_property_map has_mandatory_columns
  cases I
  · obtain ⟨e1, e2⟩ := get_or_add_property_names m.vprops_ (m.property_name n) t a1
    split_ifs <;>
      simp only [get_property_container, set_property_container] <;>
      exact ⟨⟨e1.trans n1, n2, n3, n4⟩, by rw [e1]; exact e2, a2, a3⟩
  · obtain ⟨e1, e2⟩ := get_or_add_property_names m.hprops_ (m.property_name n) t a2
    split_ifs <;>
      simp only [get_property_container, set_property_container] <;>
      exact ⟨⟨n1, e1.trans n2, n3, n4⟩, a1, by rw [e1]; exact e2, a3⟩
  · have e1 : (m.eprops_.get_or_add_property (m.property_name n) t).1.names = m.eprops_.names := by
      unfold Property_container.get_or_add_property
      split_ifs <;> rfl
    split_ifs <;>
      simp only [get_property_container, set_property_container] <;>
      exact ⟨⟨n1, n2, n3, e1.trans n4⟩, a1, a2, a3⟩
  · obtain ⟨e1, e2⟩ := get_or_add_property_names m.fprops_ (m.property_name n) t a3
    split_ifs <;>
      simp only [get_property_container, set_property_container] <;>
      exact ⟨⟨n1, n2, e1.trans n3, n4⟩, a1, a2, by rw [e1]; exact e2⟩

/-- C17: after `clear()` on a mesh that has the columns registered by the constructor
and any property maps added at run time, `properties<Vertex_index>()` is exactly
"v:connectivity" and "v:point", `properties<Halfedge_index>()` exactly
"h:connectivity", `properties<Face_index>()` exactly "f:connectivity", and
`properties<Edge_index>()` is empty. -/
theorem clear_properties [Inhabited P] (m : Surface_mesh P) (h : m.has_mandatory_columns) :
    m.clear.properties Index_type.vertex = ["v:connectivity", "v:point"] ∧
      m.clear.properties Index_type.halfedge = ["h:connectivity"] ∧
      m.clear.properties Index_type.face = ["f:connectivity"] ∧
      m.clear.properties Index_type.edge = [] := by
  obtain ⟨⟨n1, n2, n3, n4⟩, a1, a2, a3⟩ := h
  obtain ⟨v1, v2⟩ := reserve_names m.vprops_ 0
  obtain ⟨h1, h2⟩ := reserve_names m.hprops_ 0
  obtain ⟨f1, f2⟩ := reserve_names m.fprops_ 0
  obtain ⟨e1, _⟩ := reserve_names m.eprops_ 0
  simp only [properties, get_property_container, clear, clear_without_removing_property_maps]
  refine ⟨properties_remove_all_except _ _ (v1.trans n1) ?_,
    properties_remove_all_except _ _ (h1.trans n2) ?_,
    properties_remove_all_except _ _ (f1.trans n3) ?_, ?_⟩
  · intro a ha
    obtain ⟨b, hb, e⟩ := v2 a ha
    rw [e, v1]
    exact a1 b hb
  · intro a ha
    obtain ⟨b, hb, e⟩ := h2 a ha
    rw [e, h1]
    exact a2 b hb
  · intro a ha
    obtain ⟨b, hb, e⟩ := f2 a ha
    rw [e, f1]
    exact a3 b hb
  · simp [Property_container.properties, Property_container.remove_all_properties_except, e1, n4]

/-- C17 on the mesh with the vertex property map "foo" and the edge property map "bar". -/
theorem clear_properties_witness :
    example_with_maps.has_mandatory_columns ∧
      example_with_maps.properties Index_type.vertex = ["v:connectivity", "v:point", "foo"] ∧
      example_with_maps.properties Index_type.edge = ["bar"] ∧
      example_with_maps.clear.properties Index_type.vertex = ["v:connectivity", "v:point"] ∧
      example_with_maps.clear.properties Index_type.edge = [] :=
  ⟨by decide, by decide, by decide, (clear_properties example_with_maps (by decide)).1,
    (clear_properties example_with_maps (by decide)).2.2.2⟩

theorem find_array_of_not_mem {α : Type} (c : Property_container α) (name : String)
    (hn : name ∉ c.properties) (f : Property_array → Property_array)
    (hf : ∀ a, (f a).name = a.name) :
    (c.arrays.map f).find? (fun a => a.name == name) = none := by
  rw [List.find?_eq_none]
  intro a ha
  obtain ⟨b, hb, rfl⟩ := List.mem_map.1 ha
  have : b.name ≠ name := by
    intro e
    apply hn
    simp only [Property_container.properties, List.mem_append, List.mem_map]
    exact Or.inr ⟨b, hb, e⟩
  simpa [hf] using this

/-- Reading a new column after one write: the written value at the written slot, the
default value at every other slot. -/
theorem read_write_new {α : Type} (c : Property_container α) (name : String)
    (d x : Property_value) (v u : Nat) (hn : name ∉ c.properties) :
    (((c.get_or_add_property name d).1.write name v x).read name u) =
      if u < c.capacity then some (if v = u then x else d) else none := by
  have h0 := find_array_of_not_mem c name hn
    (fun a => if a.name == name then { a with data := a.data.set v x } else a)
    (fun a => by beta_reduce; split_ifs <;> rfl)
  simp only [Property_container.get_or_add_property, hn, if_false, Property_container.write,
    Property_container.read, Property_container.find_array, List.map_append, List.map_cons,
    List.map_nil, List.find?_append, h0, Option.none_or, beq_self_eq_true, if_true,
    List.find?_cons_of_pos, Option.some_bind, List.get?_eq_getElem?, List.getElem?_set,
    List.length_replicate]
  by_cases hu : u < c.capacity
  · by_cases hvu : v = u
    · subst hvu
      simp [hu]
    · simp [hu, hvu, List.getElem?_replicate]
  · have : ¬ (v = u ∧ v < c.capacity) := fun e => hu (e.1 ▸ e.2)
    by_cases hvu : v = u
    · subst hvu
      simp [hu]
    · simp [hu, hvu, List.getElem?_replicate]

/-- C18: after `add_property_map<Vertex_index, T>(name, d)` has created a new map,
writing `x` at a vertex `v` of the mesh and reading `v` back yields `x`, while every
other vertex `u` of the mesh still reads the default `d`. -/
theorem property_map_round_trip (m : Surface_mesh P) (name : String) (T : Type) (d x : T)
    (v : Nat) (hc : (m.add_property_map Index_type.vertex name ⟨T, d⟩).2.2 = true)
    (hv : v < m.vprops_.capacity) :
    (((m.add_property_map Index_type.vertex name ⟨T, d⟩).1.write_property Index_type.vertex
        (m.add_property_map Index_type.vertex name ⟨T, d⟩).2.1 v ⟨T, x⟩).read_property
        Index_type.vertex (m.add_property_map Index_type.vertex name ⟨T, d⟩).2.1 v
        = some ⟨T, x⟩) ∧
    ∀ u, u < m.vprops_.capacity → u ≠ v →
      ((m.add_property_map Index_type.vertex name ⟨T, d⟩).1.write_property Index_type.vertex
        (m.add_property_map Index_type.vertex name ⟨T, d⟩).2.1 v ⟨T, x⟩).read_property
        Index_type.vertex (m.add_property_map Index_type.vertex name ⟨T, d⟩).2.1 u
        = some ⟨T, d⟩ := by
  have hn : m.property_name name ∉ m.vprops_.properties := by
    intro hmem
    have : (m.add_property_map Index_type.vertex name ⟨T, d⟩).2.2 = false := by
      unfold add_property_map
      split_ifs <;>
        simp [get_property_container, Property_container.get_or_add_property, hmem]
    rw [this] at hc
    cases hc
  have hread : ∀ u,
      ((m.add_property_map Index_type.vertex name ⟨T, d⟩).1.write_property Index_type.vertex
        (m.add_property_map Index_type.vertex name ⟨T, d⟩).2.1 v ⟨T, x⟩).read_property
        Index_type.vertex (m.add_property_map Index_type.vertex name ⟨T, d⟩).2.1 u
        = (((m.vprops_.get_or_add_property (m.property_name name) ⟨T, d⟩).1.write
            (m.property_name name) v ⟨T, x⟩).read (m.property_name name) u) := by
    intro u
    unfold add_property_map
    split_ifs <;> rfl
  constructor
  · rw [hread, read_write_new _ _ _ _ _ _ hn]
    simp [hv]
  · intro u hu huv
    rw [hread, read_write_new _ _ _ _ _ _ hn]
    simp [hu, Ne.symm huv]

/-- C18 on the mesh with one edge: the map "foo" with default 1, written at the
vertex 0. -/
theorem property_map_round_trip_witness :
    (example_closed_edge.add_property_map Index_type.vertex "foo" ⟨Nat, 1⟩).2.2 = true ∧
      0 < example_closed_edge.vprops_.capacity ∧
      (((example_closed_edge.add_property_map Index_type.vertex "foo" ⟨Nat, 1⟩).1.write_property
        Index_type.vertex
        (example_closed_edge.add_property_map Index_type.vertex "foo" ⟨Nat, 1⟩).2.1 0
        ⟨Nat, 5⟩).read_property Index_type.vertex
        (example_closed_edge.add_property_map Index_type.vertex "foo" ⟨Nat, 1⟩).2.1 0
        = some ⟨Nat, 5⟩) :=
  ⟨by decide, by decide,
    (property_map_round_trip example_closed_edge "foo" Nat 1 5 0 (by decide) (by decide)).1⟩

/-- C19, as stated, fails for the empty name: on the mesh that has a vertex column
with the empty name, `add_property_map<Vertex_index, T>("", t)` does not return that
column with `false`, but creates the column "anonymous-property-0" and returns it
with `true`. -/
theorem add_property_map_empty_name :
    "" ∈ example_empty_name.properties Index_type.vertex ∧
      (example_empty_name.add_property_map Index_type.vertex "" ⟨Nat, 0⟩).2
        = ("anonymous-property-0", true) ∧
      (example_empty_name.add_property_map Index_type.vertex "" ⟨Nat, 0⟩).1.properties
        Index_type.vertex = ["v:connectivity", "v:point", "", "anonymous-property-0"] := by
  decide

theorem add_property_map_of_mem (m : Surface_mesh P) (I : Index_type) (n : String)
    (t : Property_value) (hn : n ≠ "") (hmem : n ∈ m.properties I) :
    m.add_property_map I n t = (m, n, false) := by
  have h1 : (m.get_property_container I).get_or_add_property n t
      = (m.get_property_container I, false) := by
    unfold properties at hmem
    simp [Property_container.get_or_add_property, hmem]
  simp only [add_property_map, property_name, hn, if_false, h1, set_get_property_container]

/-- C19, amended: for a non-empty name `n`, if a property map named `n` exists for the
index type `I`, `add_property_map<I, T>(n, t)` returns that map together with `false`
and leaves the mesh, with every column and every stored value, unchanged; and if no
map named `n` exists, the first call creates it and returns `true`, and a second call
returns it with `false` and changes nothing. -/
theorem add_property_map_existing (m : Surface_mesh P) (I : Index_type) (n : String)
    (d t : Property_value) (hn : n ≠ "") :
    (n ∈ m.properties I → m.add_property_map I n t = (m, n, false)) ∧
    (n ∉ m.properties I →
      (m.add_property_map I n d).2 = (n, true) ∧
      (m.add_property_map I n d).1.properties I = m.properties I ++ [n] ∧
      (m.add_property_map I n d).1.add_property_map I n t
        = ((m.add_property_map I n d).1, n, false)) := by
  refine ⟨add_property_map_of_mem m I n t hn, ?_⟩
  intro hmem
  have h1 : (m.get_property_container I).get_or_add_property n d
      = ({ m.get_property_container I with
            arrays := (m.get_property_container I).arrays ++
              [{ name := n, default_value := d,
                 data := List.replicate (m.get_property_container I).capacity d }] }, true) := by
    unfold properties at hmem
    simp [Property_container.get_or_add_property, hmem]
  have h2 : (m.add_property_map I n d).1.properties I = m.properties I ++ [n] := by
    simp only [add_property_map, property_name, hn, if_false, h1, properties,
      get_set_property_container]
    simp [Property_container.properties]
  refine ⟨?_, h2, ?_⟩
  · simp only [add_property_map, property_name, hn, if_false, h1]
  · apply add_property_map_of_mem _ I n t hn
    rw [h2]
    simp

/-- C19, amended, on the mesh with one edge and the name "foo". -/
theorem add_property_map_existing_witness :
    "foo" ≠ "" ∧ "foo" ∉ example_closed_edge.properties Index_type.vertex ∧
      (example_closed_edge.add_property_map Index_type.vertex "foo" ⟨Nat, 1⟩).2 = ("foo", true) ∧
      ((example_closed_edge.add_property_map Index_type.vertex "foo" ⟨Nat, 1⟩).1.add_property_map
        Index_type.vertex "foo" ⟨Nat, 2⟩).2 = ("foo", false) :=
  ⟨by decide, by decide,
    ((add_property_map_existing example_closed_edge Index_type.vertex "foo" ⟨Nat, 1⟩ ⟨Nat, 2⟩
      (by decide)).2 (by decide)).1,
    congrArg Prod.snd
      ((add_property_map_existing example_closed_edge Index_type.vertex "foo" ⟨Nat, 1⟩ ⟨Nat, 2⟩
        (by decide)).2 (by decide)).2.2⟩

/-- C20: for every name `n` that identifies no property of the index type `I`,
`get_property_map<I, T>(n)` returns the empty optional and leaves the mesh unchanged:
`properties<I>()` is the same after the call. -/
theorem get_property_map_absent (m : Surface_mesh P) (I : Index_type) (n : String)
    (hn : n ∉ m.properties I) :
    m.get_property_map I n = (m, none) ∧
      (m.get_property_map I n).1.properties I = m.properties I := by
  have h : m.get_property_map I n = (m, none) := by
    unfold properties at hn
    simp only [get_property_map, Property_container.get_property_if_exists, hn, if_false,
      set_get_property_container]
  exact ⟨h, by rw [h]⟩

/-- C20 on the mesh with one edge and the name "foo". -/
theorem get_property_map_absent_witness :
    "foo" ∉ example_closed_edge.properties Index_type.vertex ∧
      (example_closed_edge.get_property_map Index_type.vertex "foo").2 = none :=
  ⟨by decide,
    congrArg Prod.snd
      (get_property_map_absent example_closed_edge Index_type.vertex "foo" (by decide)).1⟩

/-- C21: `remove_property_map` on the vertex map "foo", which was added with
`add_property_map`.  After the call "foo" is still among
`properties<Vertex_index>()` and `get_property_map` still returns the map. -/
theorem remove_property_map_keeps_map :
    (example_closed_edge.add_property_map Index_type.vertex "foo" ⟨Nat, 1⟩).2 = ("foo", true) ∧
      "foo" ∈ (example_with_maps.remove_property_map Index_type.vertex "foo").properties
        Index_type.vertex ∧
      ((example_with_maps.remove_property_map Index_type.vertex "foo").get_property_map
        Index_type.vertex "foo").2 = some "foo" := by
  decide

/-! ### Borders and edges -/

/-- C23: for every 32-bit halfedge index `h`, `is_border(h)` is true iff `face(h)` is
the null face, `is_border(edge(h))` is true iff `is_border(h)` or
`is_border(opposite(h))`, and `is_border(edge(h))` equals
`is_border(edge(opposite(h)))`. -/
theorem is_border_edge_iff (m : Surface_mesh P) (h : Nat) (hh : h < size_type_range) :
    (m.is_border_halfedge h = true ↔ m.face h = null_face) ∧
      (m.is_border_edge (edge h) = true ↔
        (m.is_border_halfedge h = true ∨ m.is_border_halfedge (opposite h) = true)) ∧
      m.is_border_edge (edge h) = m.is_border_edge (edge (opposite h)) := by
  refine ⟨?_, ?_, ?_⟩
  · simp [is_border_halfedge, SM_Index.is_valid, null_face]
  · simp [is_border_edge, edge, SM_Edge_index.of_halfedge]
  · simp only [is_border_edge, edge, SM_Edge_index.of_halfedge, (opposite_facts h hh).1]
    exact Bool.or_comm _ _

/-- C23 on the two halfedges of the mesh with one edge, which are border halfedges. -/
theorem is_border_edge_iff_witness :
    0 < size_type_range ∧
      (example_closed_edge.is_border_halfedge 0 = true ↔
        example_closed_edge.face 0 = null_face) ∧
      example_closed_edge.is_border_edge (edge 0) =
        example_closed_edge.is_border_edge (edge (opposite 0)) :=
  ⟨by decide, (is_border_edge_iff example_closed_edge 0 (by decide)).1,
    (is_border_edge_iff example_closed_edge 0 (by decide)).2.2⟩

/-- C27: the null edge.  `null_edge()` stores the halfedge `2 ^ 32 - 2`, the maximum
times 2 reduced to 32 bits, which differs from the maximum: `is_valid()` is true for
it, while it is false for the null vertex, halfedge and face. -/
theorem null_edge_is_valid :
    null_edge.halfedge_ = 4294967294 ∧ null_edge.is_valid = true ∧
      SM_Index.is_valid null_vertex = false ∧ SM_Index.is_valid null_halfedge = false ∧
      SM_Index.is_valid null_face = false := by
  decide

/-- C28: for every 32-bit halfedge index `h`, `edge(h) == edge(opposite(h))`, and
`halfedge(edge(h), 0)` and `halfedge(edge(h), 1)` are `h` with its low bit cleared
and that index plus 1: `h` and `opposite(h)` for even `h`, `opposite(h)` and `h` for
odd `h`. -/
theorem edge_halfedges (h : Nat) (hh : h < size_type_range) :
    (edge h).equal (edge (opposite h)) = true ∧
      edge_halfedge (edge h) 0 = some (h - h % 2) ∧
      edge_halfedge (edge h) 1 = some (h - h % 2 + 1) ∧
      (h % 2 = 0 →
        edge_halfedge (edge h) 0 = some h ∧ edge_halfedge (edge h) 1 = some (opposite h)) ∧
      (h % 2 = 1 →
        edge_halfedge (edge h) 0 = some (opposite h) ∧ edge_halfedge (edge h) 1 = some h) := by
  unfold size_type_range at hh
  simp only [SM_Edge_index.equal, edge, SM_Edge_index.of_halfedge, SM_Edge_index.idx,
    edge_halfedge, opposite, size_type_range, beq_iff_eq, Nat.zero_le, le_refl, if_true,
    Option.some.injEq]
  refine ⟨?_, ?_, ?_, ?_, ?_⟩
  · split_ifs <;> omega
  · omega
  · omega
  · intro h0
    rw [if_neg (by omega)]
    omega
  · intro h1
    rw [if_pos h1]
    omega

/-- C28 on the halfedge 5, whose edge has the halfedges 4 and 5. -/
theorem edge_halfedges_witness :
    5 < size_type_range ∧ (edge 5).equal (edge (opposite 5)) = true ∧
      edge_halfedge (edge 5) 0 = some (5 - 5 % 2) ∧
      edge_halfedge (edge 5) 1 = some (5 - 5 % 2 + 1) :=
  ⟨by decide, (edge_halfedges 5 (by decide)).1, (edge_halfedges 5 (by decide)).2.1,
    (edge_halfedges 5 (by decide)).2.2.1⟩

/-! ### Copies -/

/-- C29: a copy-constructed mesh and a copy-assigned mesh are observationally
identical to their source, removed elements included: the same `number_of_` and
`number_of_removed_` counts, the same removal marks, the same target, face, next,
previous halfedge, vertex halfedge, face halfedge and point at every index, and the
same property names. -/
theorem copy_observations [Inhabited P] (m lhs : Surface_mesh P) :
    observationally_equal m (copy_constructor m) ∧
      observationally_equal m (copy_assignment lhs m) := by
  constructor
  · exact ⟨⟨rfl, rfl, rfl, rfl⟩, ⟨rfl, rfl, rfl, rfl⟩, fun _ => ⟨rfl, rfl, rfl⟩, fun _ => rfl,
      ⟨fun _ => ⟨rfl, rfl, rfl, rfl⟩, fun _ => rfl, fun _ => rfl⟩, fun _ => rfl,
      fun I => by cases I <;> rfl⟩
  · exact ⟨⟨rfl, rfl, rfl, rfl⟩, ⟨rfl, rfl, rfl, rfl⟩, fun _ => ⟨rfl, rfl, rfl⟩, fun _ => rfl,
      ⟨fun _ => ⟨rfl, rfl, rfl, rfl⟩, fun _ => rfl, fun _ => rfl⟩, fun _ => rfl,
      fun I => by cases I <;> rfl⟩

/-! ### The assertion of `add_edge` -/

/-- C30: `add_edge(v0, v1)` fails its assertion, and adds nothing, if and only if
`v0 == v1`; for `v0 != v1` it succeeds, and it succeeds again on the mesh that
already has the edge between `v0` and `v1`. -/
theorem add_edge_assertion [Inhabited P] (m : Surface_mesh P) (v0 v1 : Nat) :
    (m.add_edge_vertices v0 v1 = none ↔ v0 = v1) ∧
      (v0 ≠ v1 → ∃ r, m.add_edge_vertices v0 v1 = some r ∧
        ∃ r2, r.1.add_edge_vertices v0 v1 = some r2) := by
  constructor
  · unfold add_edge_vertices
    by_cases e : v0 = v1
    · simp [e]
    · have hb : (v0 != v1) = true := by simpa using e
      simp [hb, e]
  · intro hne
    have hb : (v0 != v1) = true := by simpa using hne
    have key : ∀ a : Surface_mesh P, ∃ r, a.add_edge_vertices v0 v1 = some r := fun a =>
      ⟨((a.add_edge.1.set_target a.add_edge.2 v1).set_target (opposite a.add_edge.2) v0,
        a.add_edge.2), by simp only [add_edge_vertices, hb, if_true]⟩
    obtain ⟨r, hr⟩ := key m
    obtain ⟨r2, hr2⟩ := key r.1
    exact ⟨r, hr, r2, hr2⟩

/-! ### Walking the ring of halfedges around a vertex -/

/-- On a closed ring every halfedge of the ring is met within one period. -/
theorem ring_periodic (step : Nat → Nat) (p : Nat → Bool) (hh q : Nat) (hq : step^[q + 1] hh = hh)
    (hp : ∀ i, i ≤ q → p (step^[i] hh) = false) : ∀ j, p (step^[j] hh) = false := by
  intro j
  have hper : Function.IsPeriodicPt step (q + 1) hh := hq
  rw [← hper.iterate_mod_apply j]
  exact hp _ (Nat.lt_succ_iff.1 (Nat.mod_lt _ (Nat.succ_pos q)))

/-- The search loop from the `j`-th halfedge of a ring that closes after `n` more
steps, none of the halfedges before the `j`-th satisfying `p`. -/
theorem ring_search_from (step : Nat → Nat) (p : Nat → Bool) (hh : Nat) :
    ∀ (fuel j n : Nat), 1 ≤ n → n ≤ fuel → step^[j + n] hh = hh →
      (∀ i, i < j → p (step^[i] hh) = false) →
      ∃ r, ring_search step p hh fuel (step^[j] hh) = some r ∧
        (∀ h, r = some h → p h = true ∧
          ∃ k, h = step^[k] hh ∧ ∀ i, i < k → p (step^[i] hh) = false) ∧
        (r = none → ∀ i, p (step^[i] hh) = false) := by
  intro fuel
  induction fuel with
  | zero => intro j n h1 h2; omega
  | succ fuel ih =>
    intro j n h1 h2 hc hbefore
    unfold ring_search
    by_cases hp : p (step^[j] hh) = true
    · refine ⟨some (step^[j] hh), by simp [hp], ?_, by simp⟩
      intro h hr
      cases hr
      exact ⟨hp, j, rfl, hbefore⟩
    · have hpf : p (step^[j] hh) = false := by simpa using hp
      have hbefore2 : ∀ i, i < j + 1 → p (step^[i] hh) = false := by
        intro i hi
        rcases Nat.lt_succ_iff_lt_or_eq.1 hi with h | h
        · exact hbefore i h
        · rw [h]; exact hpf
      have hstep : step (step^[j] hh) = step^[j + 1] hh :=
        (Function.iterate_succ_apply' step j hh).symm
      by_cases hback : step^[j + 1] hh = hh
      · refine ⟨none, by simp [hpf, hstep, hback], by simp, ?_⟩
        intro _
        exact ring_periodic step p hh j hback (fun i hi => hbefore2 i (by omega))
      · have hn : 2 ≤ n := by
          rcases Nat.lt_or_ge n 2 with h | h
          · have : n = 1 := by omega
            rw [this] at hc
            exact absurd hc hback
          · exact h
        obtain ⟨r, hr, h3, h4⟩ := ih (j + 1) (n - 1) (by omega) (by omega)
          (by rw [← hc]; congr 1; omega) hbefore2
        refine ⟨r, ?_, h3, h4⟩
        have hb : (step^[j + 1] hh != hh) = true := by simpa using hback
        simp only [hpf, Bool.false_eq_true, if_false, hstep, hb, if_true]
        exact hr

/-- The search loop on a ring that closes after `k` steps, with at least `k` passes:
it ends, at the first halfedge of the ring that satisfies `p` if there is one. -/
theorem ring_search_closed (step : Nat → Nat) (p : Nat → Bool) (hh k fuel : Nat) (hk : 0 < k)
    (hc : step^[k] hh = hh) (hf : k ≤ fuel) :
    ∃ r, ring_search step p hh fuel hh = some r ∧
      (∀ h, r = some h → p h = true ∧
        ∃ j, h = step^[j] hh ∧ ∀ i, i < j → p (step^[i] hh) = false) ∧
      (r = none → ∀ i, p (step^[i] hh) = false) := by
  have := ring_search_from step p hh fuel 0 k hk hf (by simpa using hc) (fun i hi => by omega)
  simpa using this

/-- What `halfedge(s, t)` returns when its assertion holds: for `s` and `t` with
`has_valid_index` true, `halfedge(s, t)` returns the
null halfedge when `t` is isolated; when `t` is not isolated and the ring of
halfedges around `t` is closed, returning to `halfedge(t)` after `k` steps of
`next_around_target`, the call ends within `k` passes and returns the first halfedge
of the ring whose source is `s` if there is one, and the null halfedge otherwise. -/
theorem halfedge_between_closed_ring [Inhabited P] (m : Surface_mesh P) (s t k fuel : Nat)
    (hs : m.has_valid_index_vertex s = true) (ht : m.has_valid_index_vertex t = true) :
    (m.halfedge t = null_halfedge → m.halfedge_between s t fuel = Except.ok null_halfedge) ∧
    (m.halfedge t ≠ null_halfedge → 0 < k →
      m.next_around_target^[k] (m.halfedge t) = m.halfedge t → k ≤ fuel →
      ∃ r, m.halfedge_between s t fuel = Except.ok r ∧
        ((∃ j, m.source (m.next_around_target^[j] (m.halfedge t)) = s) →
          m.source r = s ∧
          ∃ j, r = m.next_around_target^[j] (m.halfedge t) ∧
            ∀ i, i < j → m.source (m.next_around_target^[i] (m.halfedge t)) ≠ s) ∧
        ((∀ j, m.source (m.next_around_target^[j] (m.halfedge t)) ≠ s) →
          r = null_halfedge)) := by
  constructor
  · intro hn
    simp [halfedge_between, hs, ht, hn, SM_Index.is_valid, null_halfedge]
  · intro hn hk hc hf
    have hval : SM_Index.is_valid (m.halfedge t) = true := (is_valid_index_iff _).2 hn
    obtain ⟨r, hr, h1, h2⟩ := ring_search_closed m.next_around_target
      (fun h => m.source h == s) (m.halfedge t) k fuel hk hc hf
    simp only [halfedge_between, hs, ht, Bool.and_self, if_true, hval, hr]
    cases r with
    | none =>
      refine ⟨null_halfedge, rfl, ?_, fun _ => rfl⟩
      rintro ⟨j, hj⟩
      have := h2 rfl j
      simp [hj] at this
    | some h =>
      obtain ⟨hp, j, hj, hfirst⟩ := h1 h rfl
      have hsrc : m.source h = s := by simpa using hp
      refine ⟨h, rfl, fun _ => ⟨hsrc, j, hj, ?_⟩, ?_⟩
      · intro i hi
        simpa using hfirst i hi
      · intro hall
        exact absurd (hj ▸ hsrc) (hall j)

/-- The call `halfedge(0, 1)` on the mesh with one edge: the halfedge from the vertex 0
to the vertex 1. -/
theorem halfedge_between_closed_ring_witness :
    example_closed_edge.has_valid_index_vertex 0 = true ∧
      example_closed_edge.has_valid_index_vertex 1 = true ∧
      example_closed_edge.halfedge 1 ≠ null_halfedge ∧
      example_closed_edge.next_around_target^[1] (example_closed_edge.halfedge 1) =
        example_closed_edge.halfedge 1 ∧
      ∃ r, example_closed_edge.halfedge_between 0 1 1 = Except.ok r ∧
        ((∃ j, example_closed_edge.source
            (example_closed_edge.next_around_target^[j] (example_closed_edge.halfedge 1)) = 0) →
          example_closed_edge.source r = 0 ∧
          ∃ j, r = example_closed_edge.next_around_target^[j] (example_closed_edge.halfedge 1) ∧
            ∀ i, i < j → example_closed_edge.source
              (example_closed_edge.next_around_target^[i] (example_closed_edge.halfedge 1)) ≠ 0) ∧
        ((∀ j, example_closed_edge.source
            (example_closed_edge.next_around_target^[j] (example_closed_edge.halfedge 1)) ≠ 0) →
          r = null_halfedge) :=
  ⟨by decide, by decide, by decide, by decide,
    (halfedge_between_closed_ring example_closed_edge 0 1 1 1 (by decide) (by decide)).2
      (by decide) (by decide) (by decide) (by decide)⟩

/-- C22: `halfedge(s, t)` between live vertices of a mesh with a removed vertex.  In
the mesh `example_live_above_removed` the vertices 1 and 2 are not removed, the ring
of halfedges around the vertex 2 is closed after one step and holds the halfedge 0,
whose source is 1; `has_valid_index(2)` is false, because `number_of_vertices()` is
2, so the assertion of `halfedge(1, 2)` fails and no halfedge is returned. -/
theorem halfedge_between_live_vertices :
    example_live_above_removed.is_removed_vertex 1 = false ∧
      example_live_above_removed.is_removed_vertex 2 = false ∧
      example_live_above_removed.halfedge 2 = 0 ∧
      example_live_above_removed.next_around_target^[1]
        (example_live_above_removed.halfedge 2) = example_live_above_removed.halfedge 2 ∧
      example_live_above_removed.source 0 = 1 ∧ example_live_above_removed.target 0 = 2 ∧
      example_live_above_removed.number_of_vertices = 2 ∧
      example_live_above_removed.has_valid_index_vertex 2 = false ∧
      example_live_above_removed.halfedge_between 1 2 8 =
        Except.error Failure.assertion_failed :=
  ⟨by decide, by decide, by decide, by decide, by decide, by decide, by decide, by decide, rfl⟩

theorem is_border_halfedge_iff (m : Surface_mesh P) (h : Nat) :
    m.is_border_halfedge h = true ↔ m.face h = null_face := by
  simp [is_border_halfedge, SM_Index.is_valid, null_face]

/-- C24: on a mesh where the ring of halfedges around `v` is closed, returning to
`halfedge(v)` after `k` steps of `next_around_target`, the full check `is_border(v)`
ends within `k` passes and returns true iff `v` is isolated or some halfedge reached
from `halfedge(v)` by repeated `next_around_target` has a null face. -/
theorem is_border_vertex_closed_ring [Inhabited P] (m : Surface_mesh P) (v k fuel : Nat)
    (hk : 0 < k) (hc : m.next_around_target^[k] (m.halfedge v) = m.halfedge v)
    (hf : k ≤ fuel) :
    ∃ b, m.is_border_vertex v true fuel = some b ∧
      (b = true ↔ (m.is_isolated v = true ∨
        ∃ j, m.face (m.next_around_target^[j] (m.halfedge v)) = null_face)) := by
  by_cases hn : m.halfedge v = null_halfedge
  · refine ⟨true, by simp [is_border_vertex, hn], ?_⟩
    simp [is_isolated, SM_Index.is_valid, hn, null_halfedge]
  · have hb : (m.halfedge v == null_halfedge) = false := by simpa using hn
    have hiso : m.is_isolated v = false := by
      simp only [is_isolated, (is_valid_index_iff _).2 hn, Bool.not_true]
    obtain ⟨r, hr, h1, h2⟩ := ring_search_closed m.next_around_target m.is_border_halfedge
      (m.halfedge v) k fuel hk hc hf
    have hr2 : ring_search m.circulator_increment m.is_border_halfedge (m.halfedge v) fuel
        (m.halfedge v) = some r := hr
    simp only [is_border_vertex, hb, Bool.false_eq_true, if_false, if_true, hr2, hiso,
      false_or]
    cases r with
    | none =>
      refine ⟨false, rfl, ?_⟩
      simp only [Bool.false_eq_true, false_iff, not_exists]
      intro j hj
      have := h2 rfl j
      rw [(is_border_halfedge_iff m _).2 hj] at this
      cases this
    | some h =>
      obtain ⟨hp, j, hj, _⟩ := h1 h rfl
      refine ⟨true, rfl, ?_⟩
      simp only [true_iff]
      exact ⟨j, by rw [← hj]; exact (is_border_halfedge_iff m h).1 hp⟩

/-- C24 on the vertex 1 of the mesh with one edge, whose ring is a border halfedge. -/
theorem is_border_vertex_closed_ring_witness :
    example_closed_edge.next_around_target^[1] (example_closed_edge.halfedge 1) =
        example_closed_edge.halfedge 1 ∧
      ∃ b, example_closed_edge.is_border_vertex 1 true 1 = some b ∧
        (b = true ↔ (example_closed_edge.is_isolated 1 = true ∨
          ∃ j, example_closed_edge.face
            (example_closed_edge.next_around_target^[j] (example_closed_edge.halfedge 1))
              = null_face)) :=
  ⟨by decide,
    is_border_vertex_closed_ring example_closed_edge 1 1 1 (by decide) (by decide) (by decide)⟩

theorem point_set_halfedge [Inhabited P] (m : Surface_mesh P) (v h u : Nat) :
    (m.set_halfedge v h).point u = m.point u := by
  simp only [point, set_halfedge, set_vconn, Property_container.get_set]
  split_ifs with e
  · rw [e.1]
  · rfl

theorem set_halfedge_frame [Inhabited P] (m : Surface_mesh P) (v h : Nat) :
    (m.set_halfedge v h).hprops_ = m.hprops_ ∧ (m.set_halfedge v h).fprops_ = m.fprops_ ∧
      (m.set_halfedge v h).eprops_ = m.eprops_ ∧
      (m.set_halfedge v h).recycle_ = m.recycle_ ∧
      (m.set_halfedge v h).vprops_.freelist = m.vprops_.freelist ∧
      (m.set_halfedge v h).vprops_.capacity = m.vprops_.capacity ∧
      (m.set_halfedge v h).vprops_.arrays = m.vprops_.arrays ∧
      (m.set_halfedge v h).vprops_.names = m.vprops_.names := by
  simp [set_halfedge, set_vconn, Property_container.set, Property_container.capacity]

/-- C25: for a vertex `v` inside the bounds whose ring of halfedges is closed,
returning to `halfedge(v)` after `k` steps of `next_around_target`,
`set_vertex_halfedge_to_border_halfedge(v)` ends within `k` passes; it returns true
iff `v` is not isolated and some halfedge of the ring is a border halfedge; when it
returns true, `halfedge(v)` is afterwards the first border halfedge met on the ring,
and the halfedge of every other vertex, every point, the halfedge, face and edge
containers and the removal marks are unchanged; when it returns false the mesh is
unchanged. -/
theorem set_vertex_halfedge_to_border [Inhabited P] (m : Surface_mesh P) (v k fuel : Nat)
    (hv : v < m.vprops_.capacity) (hk : 0 < k)
    (hc : m.next_around_target^[k] (m.halfedge v) = m.halfedge v) (hf : k ≤ fuel) :
    ∃ r, m.set_vertex_halfedge_to_border_halfedge v fuel = some r ∧
      (r.2 = true ↔ (m.halfedge v ≠ null_halfedge ∧
        ∃ j, m.is_border_halfedge (m.next_around_target^[j] (m.halfedge v)) = true)) ∧
      (r.2 = true → ∃ j,
        m.is_border_halfedge (m.next_around_target^[j] (m.halfedge v)) = true ∧
        (∀ i, i < j →
          m.is_border_halfedge (m.next_around_target^[i] (m.halfedge v)) = false) ∧
        r.1.halfedge v = m.next_around_target^[j] (m.halfedge v) ∧
        (∀ u, u ≠ v → r.1.halfedge u = m.halfedge u) ∧ (∀ u, r.1.point u = m.point u) ∧
        r.1.hprops_ = m.hprops_ ∧ r.1.fprops_ = m.fprops_ ∧ r.1.eprops_ = m.eprops_ ∧
        r.1.recycle_ = m.recycle_ ∧ r.1.vprops_.freelist = m.vprops_.freelist ∧
        r.1.vprops_.capacity = m.vprops_.capacity ∧ r.1.vprops_.arrays = m.vprops_.arrays) ∧
      (r.2 = false → r.1 = m) := by
  by_cases hn : m.halfedge v = null_halfedge
  · refine ⟨(m, false), by simp [set_vertex_halfedge_to_border_halfedge, hn], ?_, ?_, ?_⟩
    · simp [hn]
    · intro h; cases h
    · intro _; rfl
  · have hb : (m.halfedge v == null_halfedge) = false := by simpa using hn
    obtain ⟨r, hr, h1, h2⟩ := ring_search_closed m.next_around_target m.is_border_halfedge
      (m.halfedge v) k fuel hk hc hf
    have hr2 : ring_search m.circulator_increment m.is_border_halfedge (m.halfedge v) fuel
        (m.halfedge v) = some r := hr
    simp only [set_vertex_halfedge_to_border_halfedge, hb, Bool.false_eq_true, if_false, hr2]
    cases r with
    | none =>
      refine ⟨(m, false), rfl, ?_, ?_, fun _ => rfl⟩
      · simp only [Bool.false_eq_true, false_iff, not_and, not_exists]
        intro _ j hj
        rw [h2 rfl j] at hj
        cases hj
      · intro h; cases h
    | some h =>
      obtain ⟨hp, j, hj, hfirst⟩ := h1 h rfl
      obtain ⟨f1, f2, f3, f4, f5, f6, f7, _⟩ := set_halfedge_frame m v h
      refine ⟨(m.set_halfedge v h, true), rfl, ?_, ?_, ?_⟩
      · simp only [true_iff]
        exact ⟨hn, j, by rw [← hj]; exact hp⟩
      · intro _
        refine ⟨j, by rw [← hj]; exact hp, hfirst, ?_, ?_, point_set_halfedge m v h,
          f1, f2, f3, f4, f5, f6, f7⟩
        · rw [halfedge_set_halfedge, if_pos ⟨rfl, hv⟩, hj]
        · intro u hu
          rw [halfedge_set_halfedge, if_neg (fun e => hu e.1.symm)]
      · intro h; cases h

/-- C25 on the vertex 1 of the mesh with one edge, whose halfedge is a border halfedge. -/
theorem set_vertex_halfedge_to_border_witness :
    1 < example_closed_edge.vprops_.capacity ∧
      example_closed_edge.next_around_target^[1] (example_closed_edge.halfedge 1) =
        example_closed_edge.halfedge 1 ∧
      ∃ r, example_closed_edge.set_vertex_halfedge_to_border_halfedge 1 1 = some r ∧
        (r.2 = true ↔ (example_closed_edge.halfedge 1 ≠ null_halfedge ∧
          ∃ j, example_closed_edge.is_border_halfedge
            (example_closed_edge.next_around_target^[j] (example_closed_edge.halfedge 1))
              = true)) :=
  ⟨by decide, by decide,
    (set_vertex_halfedge_to_border example_closed_edge 1 1 1 (by decide) (by decide) (by decide)
      (by decide)).imp fun _ h => ⟨h.1, h.2.1⟩⟩

/-! ### The degree of a vertex -/

/-- The counting loop from the `j`-th halfedge of a ring that closes after `n` more
steps and not before, with the counter at `j`. -/
theorem degree_loop_from (m : Surface_mesh P) (hh : Nat) :
    ∀ (fuel j n : Nat), 1 ≤ n → n ≤ fuel → j + n < size_type_range →
      m.next_around_target^[j + n] hh = hh →
      (∀ i, 1 ≤ i → i ≤ j → m.next_around_target^[i] hh ≠ hh) →
      ∃ d, m.degree_loop hh fuel (m.next_around_target^[j] hh) j = some d ∧ j < d ∧
        m.next_around_target^[d] hh = hh ∧
        ∀ i, 1 ≤ i → i < d → m.next_around_target^[i] hh ≠ hh := by
  intro fuel
  induction fuel with
  | zero => intro j n h1 h2; omega
  | succ fuel ih =>
    intro j n h1 h2 hlt hc hbefore
    have hstep : opposite (m.next (m.next_around_target^[j] hh)) =
        m.next_around_target^[j + 1] hh :=
      (Function.iterate_succ_apply' m.next_around_target j hh).symm
    have hcount : (j + 1) % size_type_range = j + 1 := Nat.mod_eq_of_lt (by omega)
    unfold degree_loop
    rw [hstep, hcount]
    by_cases hback : m.next_around_target^[j + 1] hh = hh
    · refine ⟨j + 1, by simp [hback], by omega, hback, ?_⟩
      intro i hi1 hi2
      exact hbefore i hi1 (by omega)
    · have hn : 2 ≤ n := by
        rcases Nat.lt_or_ge n 2 with h | h
        · have : n = 1 := by omega
          rw [this] at hc
          exact absurd hc hback
        · exact h
      have hbefore2 : ∀ i, 1 ≤ i → i ≤ j + 1 → m.next_around_target^[i] hh ≠ hh := by
        intro i hi1 hi2
        rcases Nat.lt_succ_iff_lt_or_eq.1 (Nat.lt_succ_of_le hi2) with h | h
        · exact hbefore i hi1 (by omega)
        · rw [h]; exact hback
      obtain ⟨d, hd, h3, h4, h5⟩ := ih (j + 1) (n - 1) (by omega) (by omega) (by omega)
        (by rw [← hc]; congr 1; omega) hbefore2
      have hb : (m.next_around_target^[j + 1] hh != hh) = true := by simpa using hback
      exact ⟨d, by simp only [hb, if_true]; exact hd, by omega, h4, h5⟩

/-- The counting loop never returns a count below its counter while the counter
fits in 32 bits. -/
theorem degree_loop_pos (m : Surface_mesh P) (done : Nat) :
    ∀ (fuel h c d : Nat), c + fuel < size_type_range → m.degree_loop done fuel h c = some d →
      c < d := by
  intro fuel
  induction fuel with
  | zero => intro h c d _ hd; simp [degree_loop] at hd
  | succ fuel ih =>
    intro h c d hlt hd
    have hcount : (c + 1) % size_type_range = c + 1 := Nat.mod_eq_of_lt (by omega)
    unfold degree_loop at hd
    rw [hcount] at hd
    split_ifs at hd
    · have := ih _ (c + 1) d (by omega) hd
      omega
    · cases hd
      omega

/-- C26: `degree(v)` is 0 when `v` is isolated; when `v` is not isolated, no call that
ends within `2 ^ 32` passes returns 0, and on a mesh where the ring around `v` is
closed, returning to `halfedge(v)` after `k < 2 ^ 32` steps of `opposite ∘ next`,
`degree(v)` ends within `k` passes and is the least `d ≥ 1` such that `d` steps
from `halfedge(v)` give `halfedge(v)` again. -/
theorem degree_vertex_closed_ring [Inhabited P] (m : Surface_mesh P) (v k fuel : Nat) :
    (m.halfedge v = null_halfedge → m.degree_vertex v fuel = some 0) ∧
    (m.halfedge v ≠ null_halfedge → fuel < size_type_range → m.degree_vertex v fuel ≠ some 0) ∧
    (m.halfedge v ≠ null_halfedge → 0 < k → k < size_type_range →
      (fun h => opposite (m.next h))^[k] (m.halfedge v) = m.halfedge v → k ≤ fuel →
      ∃ d, m.degree_vertex v fuel = some d ∧ 1 ≤ d ∧
        (fun h => opposite (m.next h))^[d] (m.halfedge v) = m.halfedge v ∧
        ∀ i, 1 ≤ i → i < d → (fun h => opposite (m.next h))^[i] (m.halfedge v) ≠ m.halfedge v) := by
  refine ⟨?_, ?_, ?_⟩
  · intro hn
    simp [degree_vertex, hn]
  · intro hn hfuel hd
    have hb : (m.halfedge v == null_halfedge) = false := by simpa using hn
    simp only [degree_vertex, hb, Bool.false_eq_true, if_false] at hd
    have := degree_loop_pos m _ fuel _ 0 0 (by omega) hd
    omega
  · intro hn hk hklt hc hf
    have hb : (m.halfedge v == null_halfedge) = false := by simpa using hn
    obtain ⟨d, hd, h1, h2, h3⟩ := degree_loop_from m (m.halfedge v) fuel 0 k hk hf
      (by omega) (by simpa using hc) (fun i hi1 hi2 => by omega)
    refine ⟨d, ?_, by omega, h2, h3⟩
    simp only [degree_vertex, hb, Bool.false_eq_true, if_false]
    simpa using hd

/-- C26 on the vertex 1 of the mesh with one edge, whose degree is 1. -/
theorem degree_vertex_closed_ring_witness :
    example_closed_edge.halfedge 1 ≠ null_halfedge ∧
      (fun h => opposite (example_closed_edge.next h))^[1] (example_closed_edge.halfedge 1) =
        example_closed_edge.halfedge 1 ∧
      ∃ d, example_closed_edge.degree_vertex 1 1 = some d ∧ 1 ≤ d ∧
        (fun h => opposite (example_closed_edge.next h))^[d] (example_closed_edge.halfedge 1) =
          example_closed_edge.halfedge 1 ∧
        ∀ i, 1 ≤ i → i < d →
          (fun h => opposite (example_closed_edge.next h))^[i] (example_closed_edge.halfedge 1) ≠
            example_closed_edge.halfedge 1 :=
  ⟨by decide, by decide,
    (degree_vertex_closed_ring example_closed_edge 1 1 1).2.2 (by decide) (by decide) (by decide)
      (by decide) (by decide)⟩

/-! ### Reading and writing OFF -/

/-- A property map with a new, non-empty name is created, for its index type only. -/
theorem add_property_map_created (m : Surface_mesh P) (I : Index_type) (n : String)
    (t : Property_value) (hn : n ≠ "") (h : n ∉ m.properties I) :
    (m.add_property_map I n t).2.2 = true ∧
      (m.add_property_map I n t).1.properties I = m.properties I ++ [n] ∧
      ∀ J, J ≠ I → (m.add_property_map I n t).1.properties J = m.properties J := by
  have h1 : (m.get_property_container I).get_or_add_property n t =
      ({ m.get_property_container I with
          arrays := (m.get_property_container I).arrays ++
            [{ name := n, default_value := t,
               data := List.replicate (m.get_property_container I).capacity t }] }, true) := by
    unfold properties at h
    simp [Property_container.get_or_add_property, h]
  simp only [add_property_map, property_name, hn, if_false, h1]
  refine ⟨trivial, ?_, ?_⟩
  · simp [properties, get_set_property_container, Property_container.properties]
  · intro J hJ
    cases I <;> cases J <;> first | exact absurd rfl hJ | rfl

theorem read_OFF_with_or_without_fcolors_ok
    (rd : Surface_mesh P → Named_parameters → Surface_mesh P × Bool) (d : Attribute_defaults)
    (sm : Surface_mesh P) (scanner : File_scanner_OFF) (np : Named_parameters)
    (hf : "f:color" ∉ sm.properties Index_type.face) :
    ∃ r, read_OFF_with_or_without_fcolors rd d sm scanner np = Except.ok r := by
  unfold read_OFF_with_or_without_fcolors
  simp only [(add_property_map_created sm Index_type.face "f:color" d.fcolor (by decide) hf).1,
    if_true]
  split_ifs <;> exact ⟨_, rfl⟩

theorem read_OFF_with_or_without_vtextures_ok
    (rd : Surface_mesh P → Named_parameters → Surface_mesh P × Bool) (d : Attribute_defaults)
    (sm : Surface_mesh P) (scanner : File_scanner_OFF) (np : Named_parameters)
    (ht : "v:texcoord" ∉ sm.properties Index_type.vertex)
    (hf : "f:color" ∉ sm.properties Index_type.face) :
    ∃ r, read_OFF_with_or_without_vtextures rd d sm scanner np = Except.ok r := by
  obtain ⟨c1, _, c3⟩ :=
    add_property_map_created sm Index_type.vertex "v:texcoord" d.texture (by decide) ht
  unfold read_OFF_with_or_without_vtextures
  simp only [c1, if_true]
  split_ifs
  · exact read_OFF_with_or_without_fcolors_ok rd d _ scanner _
      (by rw [c3 Index_type.face (by decide)]; exact hf)
  · exact read_OFF_with_or_without_fcolors_ok rd d _ scanner _ hf
  · exact read_OFF_with_or_without_fcolors_ok rd d _ scanner _ hf

theorem read_OFF_with_or_without_vcolors_ok
    (rd : Surface_mesh P → Named_parameters → Surface_mesh P × Bool) (d : Attribute_defaults)
    (sm : Surface_mesh P) (scanner : File_scanner_OFF) (np : Named_parameters)
    (hc : "v:color" ∉ sm.properties Index_type.vertex)
    (ht : "v:texcoord" ∉ sm.properties Index_type.vertex)
    (hf : "f:color" ∉ sm.properties Index_type.face) :
    ∃ r, read_OFF_with_or_without_vcolors rd d sm scanner np = Except.ok r := by
  obtain ⟨c1, c2, c3⟩ :=
    add_property_map_created sm Index_type.vertex "v:color" d.vcolor (by decide) hc
  unfold read_OFF_with_or_without_vcolors
  simp only [c1, if_true]
  split_ifs
  · exact read_OFF_with_or_without_vtextures_ok rd d _ scanner _
      (by rw [c2]; simpa using ht) (by rw [c3 Index_type.face (by decide)]; exact hf)
  · exact read_OFF_with_or_without_vtextures_ok rd d _ scanner _ ht hf
  · exact read_OFF_with_or_without_vtextures_ok rd d _ scanner _ ht hf

theorem read_OFF_with_or_without_vnormals_ok
    (rd : Surface_mesh P → Named_parameters → Surface_mesh P × Bool) (d : Attribute_defaults)
    (sm : Surface_mesh P) (scanner : File_scanner_OFF) (np : Named_parameters)
    (hn : "v:normal" ∉ sm.properties Index_type.vertex)
    (hc : "v:color" ∉ sm.properties Index_type.vertex)
    (ht : "v:texcoord" ∉ sm.properties Index_type.vertex)
    (hf : "f:color" ∉ sm.properties Index_type.face) :
    ∃ r, read_OFF_with_or_without_vnormals rd d sm scanner np = Except.ok r := by
  obtain ⟨c1, c2, c3⟩ :=
    add_property_map_created sm Index_type.vertex "v:normal" d.normal (by decide) hn
  unfold read_OFF_with_or_without_vnormals
  simp only [c1, if_true]
  split_ifs
  · exact read_OFF_with_or_without_vcolors_ok rd d _ scanner _
      (by rw [c2]; simpa using hc) (by rw [c2]; simpa using ht)
      (by rw [c3 Index_type.face (by decide)]; exact hf)
  · exact read_OFF_with_or_without_vcolors_ok rd d _ scanner _ hc ht hf
  · exact read_OFF_with_or_without_vcolors_ok rd d _ scanner _ hc ht hf

/-- C32: for every reader, stream and mesh, whenever the reading of the OFF data ends
with a result `r` (no assertion `created` fails): when the result is false,
`read_OFF` returns false and the mesh after `clear()`, which is empty and has no
vertex, halfedge, edge or face; when the result is true, `read_OFF` returns true and
the mesh as the reader left it.  The reading ends with a result whenever the mesh has
none of the internal maps "v:normal", "v:color", "v:texcoord" and "f:color" yet. -/
theorem read_OFF_failure_clears [Inhabited P]
    (rd : Surface_mesh P → Named_parameters → Surface_mesh P × Bool) (d : Attribute_defaults)
    (sm : Surface_mesh P) (scanner : File_scanner_OFF) (np : Named_parameters) :
    (∀ r, read_OFF_with_or_without_vnormals rd d sm scanner np = Except.ok r →
      (r.2 = false →
        read_OFF rd d sm scanner np = Except.ok (r.1.clear, false) ∧
          r.1.clear.is_empty = true ∧ r.1.clear.number_of_vertices = 0 ∧
          r.1.clear.number_of_halfedges = 0 ∧ r.1.clear.number_of_edges = 0 ∧
          r.1.clear.number_of_faces = 0) ∧
      (r.2 = true → read_OFF rd d sm scanner np = Except.ok (r.1, true))) ∧
    ("v:normal" ∉ sm.properties Index_type.vertex →
      "v:color" ∉ sm.properties Index_type.vertex →
      "v:texcoord" ∉ sm.properties Index_type.vertex →
      "f:color" ∉ sm.properties Index_type.face →
      ∃ r, read_OFF_with_or_without_vnormals rd d sm scanner np = Except.ok r) := by
  refine ⟨?_, read_OFF_with_or_without_vnormals_ok rd d sm scanner np⟩
  intro r hr
  obtain ⟨_, s1, s2, s3, s4⟩ := clear_sizes r.1
  constructor
  · intro hres
    refine ⟨?_, ?_, s1, s2, s3, s4⟩
    · simp only [read_OFF, hr, hres, Bool.not_false, if_true]
    · simp [is_empty, s1, s2, s4]
  · intro hres
    obtain ⟨r1, r2⟩ := r
    simp only at hres
    subst hres
    simp only [read_OFF, hr, Bool.not_true, Bool.false_eq_true, if_false]

/-- C32 on the mesh with two vertices and one edge and a reader that finds no OFF
data: `read_OFF` returns false and an empty mesh. -/
theorem read_OFF_failure_clears_witness :
    example_closed_edge.number_of_vertices = 2 ∧
      read_OFF example_failing_reader example_defaults example_closed_edge {} {} =
        Except.ok (example_closed_edge.clear, false) ∧
      example_closed_edge.clear.is_empty = true ∧
      example_closed_edge.clear.number_of_vertices = 0 :=
  have h := ((read_OFF_failure_clears example_failing_reader example_defaults
    example_closed_edge {} {}).1 (example_closed_edge, false) rfl).1 rfl
  ⟨by decide, h.1, h.2.1, h.2.2.1⟩

/-- C33: the internal maps that `write_OFF` passes on, read off a writer that returns
its named parameters.  On a mesh with two vertices that has the map "v:normal", and
with no named parameter, `property_map` returns `false` for the existing map and no
vertex normal map is passed on; on the empty mesh, which has no map "v:normal",
`property_map` creates it, returns `true`, and the new map is passed on. -/
theorem write_OFF_internal_maps :
    "v:normal" ∈ example_with_normals.properties Index_type.vertex ∧
      (write_OFF (fun _ np => np) example_defaults example_with_normals {}).2.vertex_normal_map
        = none ∧
      "v:normal" ∉ (new true : Surface_mesh Unit).properties Index_type.vertex ∧
      (write_OFF (fun _ np => np) example_defaults (new true : Surface_mesh Unit)
        {}).2.vertex_normal_map = some "v:normal" ∧
      "v:normal" ∈ (write_OFF (fun _ np => np) example_defaults (new true : Surface_mesh Unit)
        {}).1.properties Index_type.vertex := by
  decide

/-! ### Reads outside the bounds in `is_valid` -/

/-- C34: `is_valid()` on the mesh with two vertices and one edge after
`set_next(0, 1)`.  The mesh has no removed element; the halfedge 0 has a successor
and its predecessor is null, so the check `next(prev(0)) == 0` reads `hconn_` at the
null index, outside the bounds of the array: `is_valid()` has no result. -/
theorem is_valid_reads_outside_bounds :
    example_half_linked.has_garbage = false ∧ example_half_linked.hprops_.capacity = 2 ∧
      example_half_linked.next 0 = 1 ∧ example_half_linked.prev 0 = null_halfedge ∧
      example_half_linked.checked_next (example_half_linked.prev 0) = none ∧
      example_half_linked.is_valid = none := by
  decide

/-! ### The edge and the halfedge container -/

/-- C38: `add_edge()` after `remove_edge`.  In the state reached by `add_edge()`,
`remove_edge` of its edge and `add_edge()` again, with recycling on, the second call
reuses the edge slot 0 and appends the halfedges 2 and 3: the halfedge container
has 4 slots and the edge container 1, and the edge of the returned halfedge 2 is
the edge 1, which is not a slot of the edge container. -/
theorem add_edge_after_remove_edge :
    Reachable example_recycled_edge.1 ∧ example_recycled_edge.2 = 2 ∧
      example_recycled_edge.1.hprops_.capacity = 4 ∧
      example_recycled_edge.1.eprops_.capacity = 1 ∧
      ((((new true : Surface_mesh Unit).add_edge.1).remove_edge (edge 0)).eprops_.emplace).2 = 0 ∧
      (edge example_recycled_edge.2).idx = 1 ∧
      ¬ (edge example_recycled_edge.2).idx < example_recycled_edge.1.eprops_.capacity :=
  ⟨Reachable.add_edge
      (Reachable.remove_edge _ (Reachable.add_edge (Reachable.default_constructed true))),
    by decide, by decide, by decide, by decide, by decide, by decide⟩

/-! ### The recycling flag of a copy -/

/-- C39: the copy constructor and the recycling flag.  The mesh `example_no_recycling`
has a removed vertex 0 and recycling switched off; the mesh copy-constructed from it
has recycling on, so `add_vertex()` returns the new index 2 on the source and the
recycled index 0 on the copy, while the copy made by the assignment operator keeps
the flag and returns 2. -/
theorem copy_constructor_recycle_flag :
    example_no_recycling.does_recycle_garbage = false ∧
      (copy_constructor example_no_recycling).does_recycle_garbage = true ∧
      example_no_recycling.add_vertex.2 = 2 ∧
      (copy_constructor example_no_recycling).add_vertex.2 = 0 ∧
      (copy_assignment (new true) example_no_recycling).does_recycle_garbage = false ∧
      (copy_assignment (new true) example_no_recycling).add_vertex.2 = 2 := by
  decide

/-! ### Validity of a single halfedge -/

theorem or_else_removed_vertex [Inhabited P] (m : Surface_mesh P) (x : Nat) :
    or_else (!m.has_valid_index_vertex x) (m.checked_is_removed_vertex x) =
      some (!(m.has_valid_index_vertex x && !m.is_removed_vertex x)) := by
  have hs := Property_container.size_le_capacity m.vprops_
  by_cases hx : x < m.number_of_vertices
  · have hc : x < m.vprops_.capacity := by unfold number_of_vertices at hx; omega
    simp [or_else, has_valid_index_vertex, checked_is_removed_vertex, hx, hc]
  · simp [or_else, has_valid_index_vertex, hx]

theorem or_else_removed_halfedge (m : Surface_mesh P) (x : Nat) :
    or_else (!m.has_valid_index_halfedge x) (m.checked_is_removed_halfedge x) =
      some (!(m.has_valid_index_halfedge x && !m.is_removed_halfedge x)) := by
  have hs := Property_container.size_le_capacity m.hprops_
  by_cases hx : x < m.number_of_halfedges
  · have hc : x < m.hprops_.capacity := by unfold number_of_halfedges at hx; omega
    simp [or_else, has_valid_index_halfedge, checked_is_removed_halfedge, hx, hc]
  · simp [or_else, has_valid_index_halfedge, hx]

theorem or_else_removed_face (m : Surface_mesh P) (x : Nat) :
    or_else (!m.has_valid_index_face x) (m.checked_is_removed_face x) =
      some (!(m.has_valid_index_face x && !m.is_removed_face x)) := by
  have hs := Property_container.size_le_capacity m.fprops_
  by_cases hx : x < m.number_of_faces
  · have hc : x < m.fprops_.capacity := by unfold number_of_faces at hx; omega
    simp [or_else, has_valid_index_face, checked_is_removed_face, hx, hc]
  · simp [or_else, has_valid_index_face, hx]

/-- What `is_valid(h)` computes: for every mesh and every halfedge index `h`,
`is_valid(h)` has a result,
so it reads `hconn_` only at `h` and inside the bounds and reads every removal mark
inside the bounds of its container; the result is true iff `h` has a valid index,
`target(h)`, `next(h)` and `prev(h)` each have a valid index and are not marked
removed, and `h` is a border halfedge or `face(h)` has a valid index and is not
marked removed. -/
theorem is_valid_halfedge_iff [Inhabited P] (m : Surface_mesh P) (h : Nat) :
    m.is_valid_halfedge h =
      some (m.has_valid_index_halfedge h &&
        (m.has_valid_index_vertex (m.target h) && !m.is_removed_vertex (m.target h)) &&
        (m.has_valid_index_halfedge (m.next h) && !m.is_removed_halfedge (m.next h)) &&
        (m.has_valid_index_halfedge (m.prev h) && !m.is_removed_halfedge (m.prev h)) &&
        (m.is_border_halfedge h ||
          (m.has_valid_index_face (m.face h) && !m.is_removed_face (m.face h)))) := by
  have hs := Property_container.size_le_capacity m.hprops_
  unfold is_valid_halfedge
  by_cases hx : h < m.number_of_halfedges
  · have hc : h < m.hprops_.capacity := by unfold number_of_halfedges at hx; omega
    have hv : m.has_valid_index_halfedge h = true := by simp [has_valid_index_halfedge, hx]
    simp only [hv, Bool.not_true, Bool.false_eq_true, if_false, checked_hconn, hc, if_true,
      Option.some_bind, or_else_removed_vertex, or_else_removed_halfedge, or_else_removed_face,
      Option.map_some', Bool.true_and, is_border_halfedge, target, next, prev, face]
    generalize SM_Index.is_valid (m.hconn_ h).face_ = b0
    generalize (m.has_valid_index_face (m.hconn_ h).face_ &&
      !m.is_removed_face (m.hconn_ h).face_) = b1
    generalize (m.has_valid_index_vertex (m.hconn_ h).vertex_ &&
      !m.is_removed_vertex (m.hconn_ h).vertex_) = b2
    generalize (m.has_valid_index_halfedge (m.hconn_ h).next_halfedge_ &&
      !m.is_removed_halfedge (m.hconn_ h).next_halfedge_) = b3
    generalize (m.has_valid_index_halfedge (m.hconn_ h).prev_halfedge_ &&
      !m.is_removed_halfedge (m.hconn_ h).prev_halfedge_) = b4
    cases b0 <;> cases b1 <;> cases b2 <;> cases b3 <;> cases b4 <;> rfl
  · have hv : m.has_valid_index_halfedge h = false := by simp [has_valid_index_halfedge, hx]
    simp [hv]

/-- C35: `is_valid(h)` on a halfedge whose target is a live vertex above a removed
one.  In the mesh `example_live_above_removed` the halfedge 0 is inside the halfedge
array and not removed, its target 2 is inside the vertex array and not removed, its
next and previous halfedge 1 is inside the halfedge array and not removed, and its
face is null; `has_valid_index(2)` is false, because `number_of_vertices()` is 2, and
`is_valid(0)` returns false. -/
theorem is_valid_halfedge_live_target :
    0 < example_live_above_removed.hprops_.capacity ∧
      example_live_above_removed.is_removed_halfedge 0 = false ∧
      example_live_above_removed.target 0 = 2 ∧
      2 < example_live_above_removed.vprops_.capacity ∧
      example_live_above_removed.is_removed_vertex 2 = false ∧
      example_live_above_removed.next 0 = 1 ∧ example_live_above_removed.prev 0 = 1 ∧
      1 < example_live_above_removed.hprops_.capacity ∧
      example_live_above_removed.is_removed_halfedge 1 = false ∧
      example_live_above_removed.face 0 = null_face ∧
      example_live_above_removed.number_of_vertices = 2 ∧
      example_live_above_removed.has_valid_index_vertex 2 = false ∧
      example_live_above_removed.is_valid_halfedge 0 = some false := by
  decide

/-! ### The border halfedges of all vertices -/

theorem halfedge_loop_all_true (m : Surface_mesh P) :
    ∀ (l : List Nat) (c : Nat), (∀ it ∈ l, m.halfedge_loop_body it true = some true) →
      m.halfedge_loop l true c = some (true, c + l.length) := by
  intro l
  induction l with
  | nil => intro c _; rfl
  | cons it rest ih =>
    intro c hall
    unfold halfedge_loop
    simp only [hall it (List.mem_cons_self _ _)]
    rw [ih (c + 1) (fun x hx => hall x (List.mem_cons_of_mem _ hx)), List.length_cons]
    congr 2
    omega

theorem vertex_loop_all_true [Inhabited P] (m : Surface_mesh P) :
    ∀ (l : List Nat) (c : Nat),
      (∀ it ∈ l, it < m.vprops_.capacity ∧
        (SM_Index.is_valid (m.halfedge it) = true →
          m.halfedge it < m.hprops_.capacity ∧ m.target (m.halfedge it) = it)) →
      m.vertex_loop l true c = some (true, c + l.length) := by
  intro l
  induction l with
  | nil => intro c _; rfl
  | cons it rest ih =>
    intro c hall
    obtain ⟨h1, h2⟩ := hall it (List.mem_cons_self _ _)
    have hrest := ih (c + 1) (fun x hx => hall x (List.mem_cons_of_mem _ hx))
    have hlen : c + 1 + rest.length = c + (it :: rest).length := by
      simp only [List.length_cons]
      omega
    unfold vertex_loop
    simp only [checked_halfedge, h1, if_true]
    by_cases hval : SM_Index.is_valid (m.halfedge it) = true
    · obtain ⟨h3, h4⟩ := h2 hval
      have hb : (m.target (m.halfedge it) == it) = true := by simpa using h4
      simp only [hval, if_true, and_then_true, checked_target, h3, Option.map_some', hb]
      rw [hrest, hlen]
    · simp only [hval, Bool.false_eq_true, if_false]
      rw [hrest, hlen]

/-- On a mesh without garbage, `is_valid` returns true when every pass of its two
loops reads inside the bounds and finds its checks satisfied. -/
theorem is_valid_complete [Inhabited P] (m : Surface_mesh P) (hg : m.has_garbage = false)
    (h1 : ∀ h, h < m.number_of_halfedges → m.halfedge_loop_body h true = some true)
    (h2 : ∀ v, v < m.number_of_vertices → v < m.vprops_.capacity ∧
      (SM_Index.is_valid (m.halfedge v) = true →
        m.halfedge v < m.hprops_.capacity ∧ m.target (m.halfedge v) = v)) :
    m.is_valid = some true := by
  unfold is_valid
  simp only [halfedges, vertices, faces, hg, index_range_no_garbage]
  rw [halfedge_loop_all_true m _ 0 (fun it hit => h1 it (List.mem_range.1 hit))]
  simp only [Option.some_bind]
  rw [vertex_loop_all_true m _ 0 (fun it hit => h2 it (List.mem_range.1 hit))]
  simp

theorem opposite_add (h n : Nat) (hn : n % 2 = 0) (hb : h + n + 1 < size_type_range) :
    opposite (h + n) = opposite h + n := by
  unfold opposite size_type_range at *
  split_ifs <;> omega

/-- On a mesh without garbage on which `is_valid` returns true, the halfedges below
`number_of_halfedges()` come in pairs. -/
theorem valid_pairs [Inhabited P] (m : Surface_mesh P) (hg : m.has_garbage = false)
    (hv : m.is_valid = some true) (hs : m.number_of_halfedges < size_type_range) :
    (∀ h, h < m.number_of_halfedges → opposite h < m.number_of_halfedges) ∧
      m.number_of_halfedges % 2 = 0 := by
  obtain ⟨f1, _⟩ := is_valid_facts m hg hv
  obtain ⟨_, sh, _, _⟩ := no_garbage_sizes m hg
  have hc : ∀ h, h < m.number_of_halfedges → opposite h < m.number_of_halfedges := by
    intro h hh
    obtain ⟨_, b2, _, _⟩ := halfedge_loop_body_bounds m h (f1 h hh)
    have hp : m.prev h < m.number_of_halfedges := by omega
    obtain ⟨_, _, _, b4⟩ := halfedge_loop_body_bounds m _ (f1 _ hp)
    have hn := (halfedge_loop_body_true m h (f1 h hh)).2.2.2.1
    rw [hn] at b4
    omega
  refine ⟨hc, ?_⟩
  by_contra hodd
  have hlt : m.number_of_halfedges - 1 < m.number_of_halfedges := by omega
  have := hc _ hlt
  unfold opposite size_type_range at *
  split_ifs at this <;> omega

/-- C37 as stated, on two meshes without removed elements on which `is_valid()` is
true: the mesh with one isolated vertex, and the mesh whose two halfedges have the
target `2 ^ 32 - 2`, the index of no vertex, which `is_valid()` does not check.
`join` translates that target by 1 to the null index, and `is_valid()` is false
afterwards. -/
theorem join_dangling_target :
    example_isolated_vertex.has_garbage = false ∧
      example_dangling_target.has_garbage = false ∧
      example_isolated_vertex.is_valid = some true ∧
      example_dangling_target.is_valid = some true ∧
      example_dangling_target.target 0 = 4294967294 ∧
      (example_isolated_vertex.join example_dangling_target).target 0 = null_vertex ∧
      (example_isolated_vertex.join example_dangling_target).is_valid = some false := by
  decide

/-- C37, amended: for well-formed meshes `A` and `B` without removed elements whose
joint sizes fit in 32 bits, if `is_valid()` is true for `A` and for `B` and every
halfedge of `B` has its target among the vertices of `B`, then `is_valid()` is true
for `A` after `A.join(B)`. -/
theorem join_is_valid [Inhabited P] (A B : Surface_mesh P)
    (hwA : A.well_formed) (hgA : A.has_garbage = false)
    (hwB : B.well_formed) (hgB : B.has_garbage = false)
    (hv : A.number_of_vertices + B.number_of_vertices < size_type_range)
    (hh : A.number_of_halfedges + B.number_of_halfedges < size_type_range)
    (hf : A.number_of_faces + B.number_of_faces < size_type_range)
    (hA : A.is_valid = some true) (hB : B.is_valid = some true)
    (ht : ∀ h, h < B.number_of_halfedges → B.target h < B.number_of_vertices) :
    (A.join B).is_valid = some true := by
  obtain ⟨fA1, fA2⟩ := is_valid_facts A hgA hA
  obtain ⟨fB1, fB2⟩ := is_valid_facts B hgB hB
  obtain ⟨_, sAh, _, _⟩ := no_garbage_sizes A hgA
  obtain ⟨_, sBh, _, _⟩ := no_garbage_sizes B hgB
  obtain ⟨_, eA⟩ := valid_pairs A hgA hA (by omega)
  obtain ⟨pB, _⟩ := valid_pairs B hgB hB (by omega)
  obtain ⟨⟨cv, ch, _, rB, rV, _, _, _⟩, jg, jhc, jvc, jA, jAv⟩ :=
    join_structure A B hwA hgA hwB hgB hv hh hf
  have hR : size_type_range = size_type_max + 1 := by decide
  have trh : ∀ x, x < B.number_of_halfedges →
      translate x A.number_of_halfedges = x + A.number_of_halfedges :=
    fun x hx => translate_of_lt x _ (by omega) (by omega)
  have trv : ∀ x, x < B.number_of_vertices →
      translate x A.number_of_vertices = x + A.number_of_vertices :=
    fun x hx => translate_of_lt x _ (by omega) (by omega)
  have nA : ∀ x, x < A.number_of_halfedges →
      (A.join B).next x = A.next x ∧ (A.join B).prev x = A.prev x ∧
        (A.join B).target x = A.target x := by
    intro x hx
    simp only [next, prev, target, jA x hx, and_self]
  apply is_valid_complete _ jg
  · intro it hit
    rw [ch] at hit
    by_cases hlt : it < A.number_of_halfedges
    · -- a halfedge of A
      have hb := fA1 it hlt
      obtain ⟨b1, b2, b3, b4⟩ := halfedge_loop_body_bounds A it hb
      obtain ⟨n1, n2, n3⟩ := nA it hlt
      obtain ⟨n4, _, _⟩ := nA (A.prev it) (by omega)
      obtain ⟨_, n5, _⟩ := nA (A.next it) (by omega)
      obtain ⟨_, _, n6⟩ := nA (opposite (A.next it)) (by omega)
      rw [halfedge_loop_body_eq A it b1 b2 b3 b4] at hb
      rw [halfedge_loop_body_eq (A.join B) it (by omega) (by rw [n2]; omega)
        (by rw [n1]; omega) (by rw [n1]; omega), n1, n2, n3, n4, n5, n6]
      exact hb
    · -- a halfedge of B
      obtain ⟨h, rfl⟩ : ∃ h, it = h + A.number_of_halfedges :=
        ⟨it - A.number_of_halfedges, by omega⟩
      have hlB : h < B.number_of_halfedges := by omega
      have hb := fB1 h hlB
      obtain ⟨b1, b2, b3, b4⟩ := halfedge_loop_body_bounds B h hb
      obtain ⟨_, _, _, t4, t5, _, t7⟩ := halfedge_loop_body_true B h hb
      have hn : B.next h < B.number_of_halfedges := by omega
      have hp : B.prev h < B.number_of_halfedges := by omega
      have ho : opposite (B.next h) < B.number_of_halfedges := by omega
      obtain ⟨q1, q2, q3, _⟩ := rB h hlB
      rw [trv _ (ht h hlB)] at q1
      rw [trh _ hn] at q2
      rw [trh _ hp] at q3
      obtain ⟨_, q4, _, _⟩ := rB (B.prev h) hp
      rw [t4, trh _ hlB] at q4
      obtain ⟨_, _, q5, _⟩ := rB (B.next h) hn
      rw [t5, trh _ hlB] at q5
      obtain ⟨q6, _, _, _⟩ := rB (opposite (B.next h)) ho
      rw [← t7, trv _ (ht h hlB)] at q6
      have os : opposite (B.next h + A.number_of_halfedges) =
          opposite (B.next h) + A.number_of_halfedges := opposite_add _ _ eA (by omega)
      have oh : opposite (h + A.number_of_halfedges) = opposite h + A.number_of_halfedges :=
        opposite_add _ _ eA (by omega)
      have ohl := pB h hlB
      obtain ⟨o1, o2, _⟩ := opposite_facts (h + A.number_of_halfedges) (by omega)
      have htl := ht h hlB
      have c1 : SM_Index.is_valid (B.next h + A.number_of_halfedges) = true :=
        (is_valid_index_iff _).2 (by omega)
      have c2 : SM_Index.is_valid (opposite (h + A.number_of_halfedges)) = true :=
        (is_valid_index_iff _).2 (by rw [oh]; omega)
      have c3 : (opposite (h + A.number_of_halfedges) != h + A.number_of_halfedges) = true := by
        simpa using o2
      have c4 : (opposite (opposite (h + A.number_of_halfedges)) == h + A.number_of_halfedges)
          = true := by simpa using o1
      have c7 : SM_Index.is_valid (B.target h + A.number_of_vertices) = true :=
        (is_valid_index_iff _).2 (by omega)
      rw [halfedge_loop_body_eq (A.join B) _ (by omega) (by rw [q3]; omega) (by rw [q2]; omega)
        (by rw [q2, os]; omega), q2, q3, q4, q5, q1, os, q6, c1, c2, c3, c4, c7]
      simp
  · intro v hvv
    rw [cv] at hvv
    refine ⟨by omega, ?_⟩
    by_cases hlt : v < A.number_of_vertices
    · rw [jAv v hlt]
      intro hval
      obtain ⟨g1, g2⟩ := (fA2 v hlt).2 hval
      have hx : A.halfedge v < A.number_of_halfedges := by omega
      exact ⟨by omega, by rw [(nA _ hx).2.2]; exact g2⟩
    · obtain ⟨u, rfl⟩ : ∃ u, v = u + A.number_of_vertices :=
        ⟨v - A.number_of_vertices, by omega⟩
      have hu : u < B.number_of_vertices := by omega
      rw [rV u hu]
      intro hval
      have hne : B.halfedge u ≠ size_type_max := by
        intro e
        rw [e, translate_null] at hval
        simp [SM_Index.is_valid] at hval
      obtain ⟨g1, g2⟩ := (fB2 u hu).2 ((is_valid_index_iff _).2 hne)
      have hx : B.halfedge u < B.number_of_halfedges := by omega
      rw [trh _ hx]
      refine ⟨by omega, ?_⟩
      rw [(rB _ hx).1, g2, trv u hu]

/-- C37, amended, on two copies of the mesh whose two halfedges follow each other. -/
theorem join_is_valid_witness :
    example_closed_edge.well_formed ∧ example_closed_edge.has_garbage = false ∧
      example_closed_edge.is_valid = some true ∧
      (∀ h, h < example_closed_edge.number_of_halfedges →
        example_closed_edge.target h < example_closed_edge.number_of_vertices) ∧
      (example_closed_edge.join example_closed_edge).is_valid = some true :=
  ⟨by decide, by decide, by decide, by decide,
    join_is_valid example_closed_edge example_closed_edge (by decide) (by decide) (by decide)
      (by decide) (by decide) (by decide) (by decide) (by decide) (by decide) (by decide)⟩

/-! ### Adding a face to three isolated vertices -/

theorem add_edge_frame [Inhabited P] (m : Surface_mesh P) (hfl : m.hprops_.freelist = []) :
    m.add_edge.1.vprops_ = m.vprops_ ∧ m.add_edge.1.fprops_ = m.fprops_ ∧
      m.add_edge.1.recycle_ = m.recycle_ ∧
      ∀ x, x < m.hprops_.capacity → m.add_edge.1.hconn_ x = m.hconn_ x := by
  refine ⟨rfl, rfl, rfl, ?_⟩
  intro x hx
  have he := Property_container.emplace_group_of_nil m.hprops_ 2 (by decide) hfl
  have hg : ((m.hprops_.emplace_group_back 2).1).get x = m.hprops_.get x := by
    simp only [Property_container.emplace_group_back, Property_container.get]
    exact List.getD_append _ _ _ _ hx
  unfold add_edge hconn_
  cases m.recycle_ with
  | true => simpa only [if_true, he] using hg
  | false => simpa only [Bool.false_eq_true, if_false] using hg

/-- The mesh after `add_edge(s, t)` when no halfedge slot is erased and the halfedge
slots come in pairs: the new pair is appended. -/
theorem add_edge_vertices_facts [Inhabited P] (m : Surface_mesh P) (s t : Nat) (hne : s ≠ t)
    (hfl : m.hprops_.freelist = []) (hev : m.hprops_.capacity % 2 = 0)
    (hroom : m.hprops_.capacity + 2 ≤ size_type_max) :
    ∃ m1, m.add_edge_vertices s t = some (m1, m.hprops_.capacity) ∧
      m1.vprops_ = m.vprops_ ∧ m1.fprops_ = m.fprops_ ∧ m1.recycle_ = m.recycle_ ∧
      m1.hprops_.capacity = m.hprops_.capacity + 2 ∧ m1.hprops_.freelist = [] ∧
      m1.target m.hprops_.capacity = t ∧ m1.target (m.hprops_.capacity + 1) = s ∧
      ∀ x, x < m.hprops_.capacity → m1.target x = m.target x := by
  have hb : (s != t) = true := by simpa using hne
  obtain ⟨h1, h2, h3⟩ := add_edge_of_nil m hfl
  obtain ⟨f1, f2, f3, f4⟩ := add_edge_frame m hfl
  have hopp : opposite m.hprops_.capacity = m.hprops_.capacity + 1 := by
    unfold size_type_max at hroom
    unfold opposite size_type_range
    rw [if_neg (by omega)]
    exact Nat.mod_eq_of_lt (by omega)
  refine ⟨(m.add_edge.1.set_target m.hprops_.capacity t).set_target (m.hprops_.capacity + 1) s,
    ?_, rfl, rfl, rfl, ?_, ?_, ?_, ?_, ?_⟩
  · simp only [add_edge_vertices, hb, if_true, h1, hopp]
  · rw [capacity_set_target, capacity_set_target, h2]
  · rw [(hprops_set_target _ _ _).1, (hprops_set_target _ _ _).1, h3]
  · rw [target_set_target, if_neg (fun e => by omega), target_set_target,
      if_pos ⟨rfl, by omega⟩]
  · rw [target_set_target, if_pos ⟨rfl, by rw [capacity_set_target]; omega⟩]
  · intro x hx
    rw [target_set_target, if_neg (fun e => by omega), target_set_target,
      if_neg (fun e => by omega)]
    simp only [target, f4 x hx]

theorem reads_of_hprops (m m0 : Surface_mesh P) (e : m.hprops_ = m0.hprops_) (h : Nat) :
    m.target h = m0.target h ∧ m.next h = m0.next h ∧ m.prev h = m0.prev h ∧
      m.face h = m0.face h := by
  simp [face, target, next, prev, hconn_, e]

theorem halfedge_of_vprops [Inhabited P] (m m0 : Surface_mesh P) (e : m.vprops_ = m0.vprops_)
    (v : Nat) : m.halfedge v = m0.halfedge v := by
  simp [halfedge, vconn_, e]

theorem set_next_reads (m : Surface_mesh P) (h nh : Nat) :
    (m.set_next h nh).vprops_ = m.vprops_ ∧
      (m.set_next h nh).hprops_.capacity = m.hprops_.capacity ∧
      (∀ g, (m.set_next h nh).next g =
        if h = g ∧ h < m.hprops_.capacity then nh else m.next g) ∧
      (∀ g, (m.set_next h nh).target g = m.target g) ∧
      (∀ g, (m.set_next h nh).face g = m.face g) := by
  refine ⟨?_, ?_, ?_, ?_, ?_⟩
  · unfold set_next set_prev_only
    split_ifs <;> rfl
  · unfold set_next set_prev_only
    split_ifs
    · rw [capacity_set_hconn, capacity_set_next_only]
    · rw [capacity_set_next_only]
  · intro g
    unfold set_next
    rw [next_set_prev_only, next_set_next_only]
  · intro g
    unfold set_next
    rw [target_set_prev_only, target_set_next_only]
  · intro g
    unfold set_next
    rw [face_set_prev_only, face_set_next_only]

theorem set_face_reads (m : Surface_mesh P) (h f : Nat) :
    (m.set_face h f).vprops_ = m.vprops_ ∧
      (m.set_face h f).hprops_.capacity = m.hprops_.capacity ∧
      (∀ g, (m.set_face h f).next g = m.next g) ∧
      (∀ g, (m.set_face h f).target g = m.target g) ∧
      (∀ g, (m.set_face h f).face g =
        if h = g ∧ h < m.hprops_.capacity then f else m.face g) := by
  refine ⟨rfl, capacity_set_hconn _ _ _, ?_, ?_, ?_⟩
  · intro g
    simp only [next, set_face, hconn_set_hconn]
    split_ifs with e
    · rw [e.1]
    · rfl
  · intro g
    simp only [target, set_face, hconn_set_hconn]
    split_ifs with e
    · rw [e.1]
    · rfl
  · intro g
    simp only [face, set_face, hconn_set_hconn]
    split_ifs <;> rfl

/-- The links at a corner of a new face whose two halfedges are new and whose vertex
is isolated. -/
theorem link_face_corner_reads [Inhabited P] (f : Nat) (b : Surface_mesh P) (u v hp hn : Nat)
    (hnull : b.halfedge v = null_halfedge) :
    (link_face_corner f b ((u, v), ((hp, true), (hn, true)))).hprops_.capacity =
        b.hprops_.capacity ∧
      (link_face_corner f b ((u, v), ((hp, true), (hn, true)))).vprops_.capacity =
        b.vprops_.capacity ∧
      (link_face_corner f b ((u, v), ((hp, true), (hn, true)))).number_of_vertices =
        b.number_of_vertices ∧
      (∀ x, (link_face_corner f b ((u, v), ((hp, true), (hn, true)))).target x = b.target x) ∧
      (∀ x, (link_face_corner f b ((u, v), ((hp, true), (hn, true)))).halfedge x =
        if v = x ∧ v < b.vprops_.capacity then opposite hn else b.halfedge x) ∧
      (∀ x, (link_face_corner f b ((u, v), ((hp, true), (hn, true)))).next x =
        if hp = x ∧ hp < b.hprops_.capacity then hn
        else if opposite hn = x ∧ opposite hn < b.hprops_.capacity then opposite hp
        else b.next x) ∧
      (∀ x, (link_face_corner f b ((u, v), ((hp, true), (hn, true)))).face x =
        if hp = x ∧ hp < b.hprops_.capacity then f else b.face x) := by
  have e : link_face_corner f b ((u, v), ((hp, true), (hn, true))) =
      (((b.set_halfedge v (opposite hn)).set_next (opposite hn) (opposite hp)).set_next
        hp hn).set_face hp f := by
    simp [link_face_corner, hnull]
  rw [e]
  obtain ⟨a1, _, _, _, _, a6, _, _⟩ := set_halfedge_frame b v (opposite hn)
  obtain ⟨r1, r2, r3, r4, r5⟩ := set_next_reads (b.set_halfedge v (opposite hn)) (opposite hn)
    (opposite hp)
  obtain ⟨s1, s2, s3, s4, s5⟩ := set_next_reads
    ((b.set_halfedge v (opposite hn)).set_next (opposite hn) (opposite hp)) hp hn
  obtain ⟨t1, t2, t3, t4, t5⟩ := set_face_reads
    (((b.set_halfedge v (opposite hn)).set_next (opposite hn) (opposite hp)).set_next hp hn)
    hp f
  have hc : (b.set_halfedge v (opposite hn)).hprops_.capacity = b.hprops_.capacity := by
    rw [a1]
  refine ⟨by rw [t2, s2, r2, hc], by rw [t1, s1, r1, a6], ?_, ?_, ?_, ?_, ?_⟩
  · rw [number_of_vertices, number_of_vertices, t1, s1, r1]
    simp only [set_halfedge, set_vconn, Property_container.size_set]
  · intro x
    rw [t4, s4, r4, (reads_of_hprops _ b a1 x).1]
  · intro x
    rw [halfedge_of_vprops _ _ (t1.trans (s1.trans r1)), halfedge_set_halfedge]
  · intro x
    simp only [t3, s3, r3, r2, hc, (reads_of_hprops _ b a1 x).2.1]
  · intro x
    simp only [t5, s5, r5, s2, r2, hc, (reads_of_hprops _ b a1 x).2.2.2]

/-- C31: for a mesh in which no halfedge slot is erased, the halfedge slots come in
pairs and six more fit in 32 bits, and for three distinct isolated vertices `v0`,
`v1`, `v2` with valid indices, `add_face(v0, v1, v2)` returns a mesh and a face `f`;
when `f` is a valid face, then in that mesh the halfedge from `v0` to `v1` is found,
is not null and has the face `f`, and a second `add_face(v0, v1, v2)` returns
`null_face()` and leaves the mesh as it is.  The lookups of the first call need no
pass of their loops, those of the second call two. -/
theorem add_face_triangle_twice [Inhabited P] (m : Surface_mesh P) (v0 v1 v2 fuel1 fuel2 : Nat)
    (hfl : m.hprops_.freelist = []) (hev : m.hprops_.capacity % 2 = 0)
    (hroom : m.hprops_.capacity + 6 ≤ size_type_max)
    (h01 : v0 ≠ v1) (h12 : v1 ≠ v2) (h20 : v2 ≠ v0)
    (hv0 : m.has_valid_index_vertex v0 = true) (hv1 : m.has_valid_index_vertex v1 = true)
    (hv2 : m.has_valid_index_vertex v2 = true)
    (hi0 : m.is_isolated v0 = true) (hi1 : m.is_isolated v1 = true)
    (hi2 : m.is_isolated v2 = true) (hfuel : 2 ≤ fuel2) :
    ∃ m1 f, m.add_face_triangle v0 v1 v2 fuel1 = Except.ok (m1, f) ∧
      (SM_Index.is_valid f = true →
        (∃ h, m1.halfedge_between v0 v1 fuel2 = Except.ok h ∧ h ≠ null_halfedge ∧
          m1.face h = f) ∧
        m1.add_face_triangle v0 v1 v2 fuel2 = Except.ok (m1, null_face)) := by
  have hsz := Property_container.size_le_capacity m.vprops_
  have n0 : m.halfedge v0 = null_halfedge := by
    simpa [is_isolated, SM_Index.is_valid, null_halfedge] using hi0
  have n1 : m.halfedge v1 = null_halfedge := by
    simpa [is_isolated, SM_Index.is_valid, null_halfedge] using hi1
  have n2 : m.halfedge v2 = null_halfedge := by
    simpa [is_isolated, SM_Index.is_valid, null_halfedge] using hi2
  have w0 : v0 < m.vprops_.capacity := by
    have : v0 < m.number_of_vertices := by simpa [has_valid_index_vertex] using hv0
    unfold number_of_vertices at this
    omega
  have w1 : v1 < m.vprops_.capacity := by
    have : v1 < m.number_of_vertices := by simpa [has_valid_index_vertex] using hv1
    unfold number_of_vertices at this
    omega
  have h02 : v0 ≠ v2 := fun e => h20 e.symm
  have h10 : v1 ≠ v0 := fun e => h01 e.symm
  have h21 : v2 ≠ v1 := fun e => h12 e.symm
  -- the opposite halfedges of the new pairs
  have o0 : opposite m.hprops_.capacity = m.hprops_.capacity + 1 := by
    unfold size_type_max at hroom
    unfold opposite size_type_range
    split_ifs <;> omega
  have o2 : opposite (m.hprops_.capacity + 2) = m.hprops_.capacity + 3 := by
    unfold size_type_max at hroom
    unfold opposite size_type_range
    split_ifs <;> omega
  have o3 : opposite (m.hprops_.capacity + 3) = m.hprops_.capacity + 2 := by
    unfold opposite
    split_ifs <;> omega
  have o4 : opposite (m.hprops_.capacity + 4) = m.hprops_.capacity + 5 := by
    unfold size_type_max at hroom
    unfold opposite size_type_range
    split_ifs <;> omega
  -- the three new edges
  obtain ⟨a1, e1, av1, _, _, ac1, al1, at1, as1, _⟩ :=
    add_edge_vertices_facts m v0 v1 h01 hfl hev (by omega)
  obtain ⟨a2, e2, av2, _, _, ac2, al2, at2, as2, ao2⟩ :=
    add_edge_vertices_facts a1 v1 v2 h12 al1 (by omega) (by omega)
  obtain ⟨a3, e3, av3, _, _, ac3, _, _, _, ao3⟩ :=
    add_edge_vertices_facts a2 v2 v0 h20 al2 (by omega) (by omega)
  rw [ac1] at e2 at2 as2 ac2
  rw [ac2] at e3 ac3
  have ta1 : a3.target (m.hprops_.capacity + 1) = v0 := by
    rw [ao3 _ (by omega), ao2 _ (by omega), as1]
  have ta2 : a3.target (m.hprops_.capacity + 2) = v2 := by
    rw [ao3 _ (by omega), at2]
  -- the lookups of the first call
  have lk : ∀ s t, m.has_valid_index_vertex s = true → m.has_valid_index_vertex t = true →
      m.halfedge t = null_halfedge → m.halfedge_between s t fuel1 = Except.ok null_halfedge := by
    intro s t hs ht hn
    simp [halfedge_between, hs, ht, hn, SM_Index.is_valid, null_halfedge]
  have hfind : m.find_face_halfedges fuel1 [(v0, v1), (v1, v2), (v2, v0)] =
      Except.ok (some [null_halfedge, null_halfedge, null_halfedge]) := by
    simp [find_face_halfedges, lk _ _ hv0 hv1 n1, lk _ _ hv1 hv2 n2, lk _ _ hv2 hv0 n0]
  have hcreate : create_face_halfedges m [(v0, v1), (v1, v2), (v2, v0)]
      [null_halfedge, null_halfedge, null_halfedge] =
      some (a3, [(m.hprops_.capacity, true), (m.hprops_.capacity + 2, true),
        (m.hprops_.capacity + 4, true)]) := by
    simp [create_face_halfedges, e1, e2, e3]
  -- the new face and the three corners
  obtain ⟨b0, hb0⟩ : ∃ b0, b0 = a3.add_face.1.set_face_halfedge a3.add_face.2
    (m.hprops_.capacity + 4) := ⟨_, rfl⟩
  have bh : b0.hprops_ = a3.hprops_ := by rw [hb0]; rfl
  have bv : b0.vprops_ = m.vprops_ := by rw [hb0, ← av1, ← av2, ← av3]; rfl
  have bc : b0.hprops_.capacity = m.hprops_.capacity + 6 := by rw [bh, ac3]
  obtain ⟨s1, hs1⟩ : ∃ s1, s1 = link_face_corner a3.add_face.2 b0
    ((v0, v1), ((m.hprops_.capacity, true), (m.hprops_.capacity + 2, true))) := ⟨_, rfl⟩
  obtain ⟨s2, hs2⟩ : ∃ s2, s2 = link_face_corner a3.add_face.2 s1
    ((v1, v2), ((m.hprops_.capacity + 2, true), (m.hprops_.capacity + 4, true))) := ⟨_, rfl⟩
  obtain ⟨s3, hs3⟩ : ∃ s3, s3 = link_face_corner a3.add_face.2 s2
    ((v2, v0), ((m.hprops_.capacity + 4, true), (m.hprops_.capacity, true))) := ⟨_, rfl⟩
  have k1 := link_face_corner_reads a3.add_face.2 b0 v0 v1 m.hprops_.capacity
    (m.hprops_.capacity + 2) (by rw [halfedge_of_vprops _ _ bv, n1])
  rw [← hs1] at k1
  obtain ⟨k1c, k1v, k1n, k1t, k1h, k1x, k1f⟩ := k1
  have k2 := link_face_corner_reads a3.add_face.2 s1 v1 v2 (m.hprops_.capacity + 2)
    (m.hprops_.capacity + 4)
    (by rw [k1h, if_neg (fun e => h12 e.1), halfedge_of_vprops _ _ bv, n2])
  rw [← hs2] at k2
  obtain ⟨k2c, k2v, k2n, k2t, k2h, k2x, k2f⟩ := k2
  have k3 := link_face_corner_reads a3.add_face.2 s2 v2 v0 (m.hprops_.capacity + 4)
    m.hprops_.capacity
    (by rw [k2h, if_neg (fun e => h20 e.1), k1h, if_neg (fun e => h10 e.1),
      halfedge_of_vprops _ _ bv, n0])
  rw [← hs3] at k3
  obtain ⟨k3c, k3v, k3n, k3t, k3h, k3x, k3f⟩ := k3
  have hfirst : m.add_face_triangle v0 v1 v2 fuel1 = Except.ok (s3, a3.add_face.2) := by
    simp [add_face_triangle, add_face_range, cyclic_pairs, cyclic_pairs_from, h01, h02, h12,
      hfind, hcreate, hs3, hs2, hs1, hb0]
  refine ⟨s3, a3.add_face.2, hfirst, ?_⟩
  intro hf
  -- what the second call reads
  have r1 : s3.halfedge v1 = m.hprops_.capacity + 3 := by
    rw [k3h, if_neg (fun e => h01 e.1), k2h, if_neg (fun e => h21 e.1), k1h,
      if_pos ⟨rfl, by rw [bv]; exact w1⟩, o2]
  have r2 : s3.target (m.hprops_.capacity + 2) = v2 := by
    rw [k3t, k2t, k1t, (reads_of_hprops _ _ bh _).1, ta2]
  have r3 : s3.next (m.hprops_.capacity + 3) = m.hprops_.capacity + 1 := by
    rw [k3x, if_neg (fun e => by omega), if_neg (fun e => by omega), k2x,
      if_neg (fun e => by omega), if_neg (fun e => by omega), k1x,
      if_neg (fun e => by omega), if_pos ⟨o2, by rw [o2, bc]; omega⟩, o0]
  have r4 : s3.target (m.hprops_.capacity + 1) = v0 := by
    rw [k3t, k2t, k1t, (reads_of_hprops _ _ bh _).1, ta1]
  have r5 : s3.face m.hprops_.capacity = a3.add_face.2 := by
    rw [k3f, if_neg (fun e => by omega), k2f, if_neg (fun e => by omega), k1f,
      if_pos ⟨rfl, by rw [bc]; omega⟩]
  have r6 : s3.number_of_vertices = m.number_of_vertices := by
    rw [k3n, k2n, k1n, number_of_vertices, number_of_vertices, bv]
  have x0 : s3.has_valid_index_vertex v0 = true := by
    simpa [has_valid_index_vertex, r6] using hv0
  have x1 : s3.has_valid_index_vertex v1 = true := by
    simpa [has_valid_index_vertex, r6] using hv1
  obtain ⟨n, rfl⟩ : ∃ n, fuel2 = n + 2 := ⟨fuel2 - 2, by omega⟩
  have hnn : m.hprops_.capacity + 3 ≠ size_type_max := by omega
  have hlook : s3.halfedge_between v0 v1 (n + 2) = Except.ok m.hprops_.capacity := by
    have p1 : (s3.source (m.hprops_.capacity + 3) == v0) = false := by
      rw [source, o3, r2]
      simpa using h20
    have p2 : (s3.source m.hprops_.capacity == v0) = true := by
      rw [source, o0, r4]
      simp
    have st : s3.next_around_target (m.hprops_.capacity + 3) = m.hprops_.capacity := by
      unfold next_around_target
      rw [r3]
      unfold opposite
      split_ifs <;> omega
    have hne : (m.hprops_.capacity != m.hprops_.capacity + 3) = true := by simp
    have hval : SM_Index.is_valid (m.hprops_.capacity + 3) = true :=
      (is_valid_index_iff _).2 hnn
    simp only [halfedge_between, x0, x1, Bool.and_self, if_true, r1, hval, ring_search, p1,
      Bool.false_eq_true, if_false, st, hne, p2]
  have hborder : s3.is_border_halfedge m.hprops_.capacity = false := by
    simp [is_border_halfedge, r5, hf]
  have hc0 : m.hprops_.capacity ≠ null_halfedge := by
    unfold null_halfedge
    omega
  refine ⟨⟨m.hprops_.capacity, hlook, hc0, r5⟩, ?_⟩
  have hcb : (m.hprops_.capacity != null_halfedge) = true := by simpa using hc0
  simp [add_face_triangle, add_face_range, cyclic_pairs, cyclic_pairs_from, h01, h02, h12,
    find_face_halfedges, hlook, hborder, hcb]

/-- C31 on the mesh with three isolated vertices, where the first `add_face(0, 1, 2)`
returns the valid face 0. -/
theorem add_face_triangle_twice_witness :
    example_three_vertices.hprops_.freelist = [] ∧
      example_three_vertices.is_isolated 0 = true ∧
      example_three_vertices.is_isolated 1 = true ∧
      example_three_vertices.is_isolated 2 = true ∧
      (match example_three_vertices.add_face_triangle 0 1 2 0 with
        | Except.ok r => SM_Index.is_valid r.2
        | Except.error _ => false) = true ∧
      ∃ m1 f, example_three_vertices.add_face_triangle 0 1 2 0 = Except.ok (m1, f) ∧
        (SM_Index.is_valid f = true →
          (∃ h, m1.halfedge_between 0 1 2 = Except.ok h ∧ h ≠ null_halfedge ∧ m1.face h = f) ∧
          m1.add_face_triangle 0 1 2 2 = Except.ok (m1, null_face)) :=
  ⟨by decide, by decide, by decide, by decide, by decide,
    add_face_triangle_twice example_three_vertices 0 1 2 0 2 (by decide) (by decide) (by decide)
      (by decide) (by decide) (by decide) (by decide) (by decide) (by decide) (by decide)
      (by decide) (by decide) (by decide)⟩

end Surface_mesh

end CGAL
